import Mathlib

/-!
# Playback engine of `YouTubePlaylistManager` (src/script.js)

A shallow embedding of the playback part of the class `YouTubePlaylistManager`:
the fields of `this` that the playback methods read and write, together with the
part of the browser they drive (media elements, object URLs, the remote player,
pending file lookups).  Every method is a function on `State`; line numbers refer
to `src/script.js`.

Conventions of the embedding.

* Rendering (`updatePlayPauseButton`, `updateCurrentTrackDisplay`,
  `updateTrackListDisplay`, `updateVolumeDisplay`, the progress bar) only writes to
  the DOM and is not part of the state.  Track metadata that only rendering reads
  (duration, thumbnail, file name and size, date) is not part of `Track`.
* Calls that leave the engine are recorded, in order, in `State.trace`:
  `console.log` lines, `alert`, the commands sent to the remote player,
  `URL.createObjectURL` and `URL.revokeObjectURL`.
* An uncaught `TypeError` (a property read on `null` or `undefined`) ends the
  running handler; the state is the one reached at the throw and the trace gets
  `Effect.typeError`.
* `await` splits `playLocalFile` in two: the part before the lookup
  (`playLocalFile`) and the continuation (`playLocalFileResume`), which the
  environment runs when the lookup completes.
* `Math.random()` is supplied by the caller as the list of values it returns.
-/

namespace PlaylistManager

/-- Track object as built by `addVideoToPlaylist` (lines 380-392); `id`, `videoId`,
`isLocal` and `fileType` are the fields the playback methods read. -/
structure Track where
  id : String
  videoId : String
  title : String
  channel : String
  isLocal : Bool
  fileType : String
deriving DecidableEq, Repr

/-- Playlist object as built by `createPlaylist` (lines 335-342). -/
structure Playlist where
  id : String
  name : String
  tracks : List Track
deriving DecidableEq, Repr

/-- Values of `this.repeatMode` (line 73): the strings 'none', 'all', 'one'. -/
inductive RepeatMode where
  | none
  | all
  | one
deriving DecidableEq, Repr

/-- The pair `this.player` / `this.playerReady`.  `absent`: `player` is `null`;
`loading`: `player` is set by `initializePlayer` and `playerReady` is false;
`ready`: `onPlayerReady` has run.  `playerReady` is only set by the player's own
`onReady` callback and `player` is never reset, so `playerReady` with a `null`
player does not occur. -/
inductive RemotePlayer where
  | absent
  | loading
  | ready
deriving DecidableEq, Repr

/-- Values of `event.data` in `onPlayerStateChange` (`YT.PlayerState`). -/
inductive PlayerState where
  | unstarted
  | ended
  | playing
  | paused
  | buffering
  | cued
deriving DecidableEq, Repr

/-- A value returned by `Math.random()`: the number `num / den` of `[0, 1)`. -/
structure Unit01 where
  num : Nat
  den : Nat
  lt : num < den
deriving DecidableEq, Repr

/-- The expression `Math.floor(Math.random() * length)` (line 1233). -/
def Unit01.floorMul (r : Unit01) (length : Nat) : Nat :=
  r.num * length / r.den

/-- The `audio` or `video` element created by `playLocalFile` (lines 1093-1096,
1160): `src` is the object URL, `track` the track captured by its listeners,
`inDom` whether it has a parent node. -/
structure MediaElement where
  isAudio : Bool
  src : Nat
  volume : Rat
  paused : Bool
  currentTime : Rat
  inDom : Bool
  track : Track
deriving DecidableEq, Repr

/-- Calls that leave the engine, in the order they are made. -/
inductive Effect where
  | console (msg : String)
  | alert (msg : String)
  | createObjectURL (url : Nat)
  | revokeObjectURL (url : Nat)
  | loadVideoById (videoId : String)
  | pauseVideo
  | playVideo
  | setVolume (volume : Rat)
  | seekTo (seconds : Rat)
  | savePlaylists
  | deleteFile (id : String)
  | newPlayer
  | typeError
deriving DecidableEq, Repr

/-- The fields of `this` (constructor, lines 67-81) followed by the environment:
`elements` are the media elements created so far (an element is named by its
position), `nextUrl` the next fresh object URL, `liveUrls` the object URLs created
and not yet revoked, `pendingLookups` the tracks whose `getFile` has not completed,
`ytApiLoaded` is `window.YT && window.YT.Player`, `retryTimers` the video ids of the
pending `setTimeout` callbacks of `playTrack`. -/
structure State where
  playlists : List Playlist
  currentPlaylist : Option Playlist
  currentTrack : Option Track
  currentTrackIndex : Nat
  isPlaying : Bool
  isShuffled : Bool
  repeatMode : RepeatMode
  volume : Rat
  previousVolume : Rat
  remote : RemotePlayer
  localPlayer : Option Nat
  currentLocalFileUrl : Option Nat
  elements : List MediaElement
  nextUrl : Nat
  liveUrls : List Nat
  pendingLookups : List Track
  ytApiLoaded : Bool
  retryTimers : List String
  trace : List Effect
deriving DecidableEq, Repr

/-- The state the constructor builds (lines 67-81) in a browser with no media
element and no object URL; `playlists` is what `loadPlaylistsFromStorage` returns. -/
def State.initial (playlists : List Playlist) (ytApiLoaded : Bool) : State where
  playlists := playlists
  currentPlaylist := none
  currentTrack := none
  currentTrackIndex := 0
  isPlaying := false
  isShuffled := false
  repeatMode := RepeatMode.none
  volume := 7 / 10
  previousVolume := 7 / 10
  remote := RemotePlayer.absent
  localPlayer := none
  currentLocalFileUrl := none
  elements := []
  nextUrl := 0
  liveUrls := []
  pendingLookups := []
  ytApiLoaded := ytApiLoaded
  retryTimers := []
  trace := []

/-- Truth value of `this.player`. -/
def State.player (s : State) : Bool :=
  s.remote != RemotePlayer.absent

/-- Value of `this.playerReady`. -/
def State.playerReady (s : State) : Bool :=
  s.remote == RemotePlayer.ready

/-- Record a call that leaves the engine. -/
def State.log (s : State) (e : Effect) : State :=
  { s with trace := s.trace ++ [e] }

/-- Assign to properties of the media element at position `i`. -/
def State.updateElement (s : State) (i : Nat) (f : MediaElement → MediaElement) : State :=
  { s with elements := s.elements.modify f i }

/-- `URL.revokeObjectURL(url)`. -/
def State.revokeObjectURL (s : State) (url : Nat) : State :=
  { s with liveUrls := s.liveUrls.filter (fun u => u != url),
           trace := s.trace ++ [Effect.revokeObjectURL url] }

/-- `initializePlayer` (lines 244-264): `this.player = new YT.Player(...)`; its
callers run it once the player API is loaded, so the `catch` is not taken. -/
def initializePlayer (s : State) : State :=
  { s with remote := (match s.remote with
                      | RemotePlayer.absent => RemotePlayer.loading
                      | r => r),
           trace := s.trace ++ [Effect.newPlayer] }

/-- `cleanupLocalPlayer` (lines 1017-1036). -/
def cleanupLocalPlayer (s : State) : State :=
  match s.localPlayer with
  | none => s
  | some el =>
    let s := s.log (Effect.console "Limpiando reproductor local...")
    let s := s.updateElement el (fun e => { e with paused := true, currentTime := 0 })
    let s := match s.currentLocalFileUrl with
      | some url => { s.revokeObjectURL url with currentLocalFileUrl := none }
      | none => s
    let s := s.updateElement el (fun e => { e with inDom := false })
    { s with localPlayer := none }

/-- `stopAllPlayers` (lines 1171-1184). -/
def stopAllPlayers (s : State) : State :=
  let s := s.log (Effect.console "Deteniendo todos los reproductores...")
  let s := cleanupLocalPlayer s
  let s := if s.player && s.playerReady then s.log Effect.pauseVideo else s
  { s with isPlaying := false }

/-- `playLocalFile` up to `await this.fileManager.getFile(track.id)` (lines
1079-1084): the lookup is started and the method is suspended. -/
def playLocalFile (s : State) (track : Track) : State :=
  let s := s.log (Effect.console "Reproduciendo archivo local:")
  { s with pendingLookups := s.pendingLookups ++ [track] }

/-- `playLocalFile` from the completion of the lookup at position `k` of
`pendingLookups` (lines 1084-1168); `file` is the value of the `await`, `none` when
the store has no such file or the request fails (both end in the `catch`).  The
listeners attached here are the `local...` handlers below. -/
def playLocalFileResume (s : State) (k : Nat) (file : Option Nat) : State :=
  match s.pendingLookups[k]? with
  | none => s
  | some track =>
    let s := { s with pendingLookups := s.pendingLookups.eraseIdx k }
    match file with
    | none =>
      (s.log (Effect.console "Error cargando archivo local:")).log
        (Effect.alert "Error al cargar el archivo: ")
    | some _ =>
      let url := s.nextUrl
      let s := { s with nextUrl := url + 1, liveUrls := s.liveUrls ++ [url],
                        trace := s.trace ++ [Effect.createObjectURL url],
                        currentLocalFileUrl := some url }
      let isAudio := track.fileType.startsWith "audio/"
      let el : MediaElement :=
        { isAudio := isAudio, src := url, volume := s.volume, paused := true,
          currentTime := 0, inDom := true, track := track }
      { s with localPlayer := some s.elements.length, elements := s.elements ++ [el] }

/-- `playTrack(track, index)` (lines 1039-1077); `track` is `none` when the caller
passes `undefined` (an index outside the track array). -/
def playTrack (s : State) (track : Option Track) (index : Nat) : State :=
  let s := s.log (Effect.console "Reproduciendo track:")
  match track with
  | none =>
    if !s.playerReady then s.log Effect.typeError
    else
      (stopAllPlayers { s with currentTrack := none, currentTrackIndex := index }).log
        Effect.typeError
  | some t =>
    if !s.playerReady && !t.isLocal then
      s.log (Effect.console "Player de YouTube no está listo")
    else
      let s := stopAllPlayers { s with currentTrack := some t, currentTrackIndex := index }
      if t.isLocal then playLocalFile s t
      else if s.playerReady then s.log (Effect.loadVideoById t.videoId)
      else
        let s := s.log (Effect.console "YouTube Player no está listo todavía")
        if s.ytApiLoaded && !s.player then
          let s := initializePlayer s
          { s with retryTimers := s.retryTimers ++ [t.videoId] }
        else s

/-- `previousTrack` (lines 1214-1223). -/
def previousTrack (s : State) : State :=
  match s.currentPlaylist with
  | none => s
  | some pl =>
    if pl.tracks.length = 0 then s
    else
      let newIndex : Int := (s.currentTrackIndex : Int) - 1
      let newIndex : Int := if newIndex < 0 then (pl.tracks.length : Int) - 1 else newIndex
      playTrack s pl.tracks[newIndex.toNat]? newIndex.toNat

/-- The `do ... while` loop of `nextTrack` (lines 1232-1234) run on the values
`Math.random()` returns: the index it leaves in `newIndex`, or `none` when the
loop has not ended once these values are used up. -/
def shuffleIndex (currentTrackIndex length : Nat) : List Unit01 → Option Nat
  | [] => none
  | r :: rest =>
    let newIndex := r.floorMul length
    if newIndex = currentTrackIndex ∧ length > 1 then
      shuffleIndex currentTrackIndex length rest
    else some newIndex

/-- `nextTrack` (lines 1225-1251); `random` are the values `Math.random()` returns
during the call, and the result is `none` when the shuffle loop has not ended on
them. -/
def nextTrack (s : State) (random : List Unit01) : Option State :=
  match s.currentPlaylist with
  | none => some s
  | some pl =>
    if pl.tracks.length = 0 then some s
    else if s.isShuffled then
      (shuffleIndex s.currentTrackIndex pl.tracks.length random).map
        (fun newIndex => playTrack s pl.tracks[newIndex]? newIndex)
    else
      let newIndex := s.currentTrackIndex + 1
      if newIndex ≥ pl.tracks.length then
        if s.repeatMode = RepeatMode.all then some (playTrack s pl.tracks[0]? 0)
        else some { s with isPlaying := false }
      else some (playTrack s pl.tracks[newIndex]? newIndex)

/-- `loadPlaylistView` (lines 510-535): `this.currentPlaylist` becomes the first
playlist with this id. -/
def loadPlaylistView (s : State) (playlistId : String) : State :=
  match s.playlists.find? (fun p => p.id == playlistId) with
  | none => s
  | some playlist => { s with currentPlaylist := some playlist }

/-- `onPlayerReady` (lines 266-279), the callback of the player object (without a
player there is nothing to call it); the duration it writes is track metadata. -/
def onPlayerReady (s : State) : State :=
  if s.player then
    let s := { s with remote := RemotePlayer.ready }
    (s.log (Effect.setVolume (s.volume * 100))).log (Effect.console "YouTube Player listo")
  else s

/-- `onPlayerStateChange` (lines 281-306); `random` as in `nextTrack`. -/
def onPlayerStateChange (s : State) (data : PlayerState) (random : List Unit01) :
    Option State :=
  let s := s.log (Effect.console "Estado de YouTube Player cambiado:")
  match data with
  | PlayerState.ended =>
    if s.repeatMode = RepeatMode.one then
      some (if s.player then s.log Effect.playVideo else s.log Effect.typeError)
    else nextTrack s random
  | PlayerState.playing =>
    let s := { s with isPlaying := true }
    some (if s.localPlayer.isSome then cleanupLocalPlayer s else s)
  | PlayerState.paused => some { s with isPlaying := false }
  | PlayerState.buffering => some (s.log (Effect.console "YouTube buffering..."))
  | _ => some s

/-- Listener of 'canplay' (lines 1099-1107): `this.localPlayer.play()`. -/
def localPlayerCanplay (s : State) : State :=
  let s := s.log (Effect.console "Archivo local listo para reproducir")
  match s.localPlayer with
  | none => s.log Effect.typeError
  | some el => s.updateElement el (fun e => { e with paused := false })

/-- The `catch` of the promise of `play()` in the 'canplay' listener (lines
1101-1106). -/
def localPlayerPlayRejected (s : State) : State :=
  let s := s.log (Effect.console "Error al reproducir:")
  let s := s.log (Effect.alert "No se pudo reproducir el archivo. Intenta de nuevo.")
  { s with isPlaying := false }

/-- Listener of 'ended' (lines 1109-1124); `random` as in `nextTrack`. -/
def localPlayerEnded (s : State) (random : List Unit01) : Option State :=
  let s := s.log (Effect.console "Archivo local terminado")
  let s := match s.currentLocalFileUrl with
    | some url => { s.revokeObjectURL url with currentLocalFileUrl := none }
    | none => s
  if s.repeatMode = RepeatMode.one then
    match s.localPlayer with
    | none => some (s.log Effect.typeError)
    | some el => some (s.updateElement el (fun e => { e with currentTime := 0, paused := false }))
  else nextTrack s random

/-- Listener of 'play' (lines 1138-1142). -/
def localPlayerPlay (s : State) : State :=
  { s with isPlaying := true }

/-- Listener of 'pause' (lines 1144-1147). -/
def localPlayerPause (s : State) : State :=
  { s with isPlaying := false }

/-- Listener of 'error' (lines 1149-1158). -/
def localPlayerError (s : State) : State :=
  let s := s.log (Effect.console "Error en reproductor local:")
  let s := match s.currentLocalFileUrl with
    | some url => { s.revokeObjectURL url with currentLocalFileUrl := none }
    | none => s
  let s := s.log (Effect.alert
    "Error al cargar el archivo. Puede que esté corrupto o no sea compatible.")
  { s with isPlaying := false }

/-- `toggleShuffle` (lines 1253-1265); the button colours are rendering. -/
def toggleShuffle (s : State) : State :=
  { s with isShuffled := !s.isShuffled }

/-- `toggleRepeat` (lines 1267-1289): the entry after the current one in
`['none', 'all', 'one']`, cyclically. -/
def toggleRepeat (s : State) : State :=
  { s with repeatMode := (match s.repeatMode with
                          | RepeatMode.none => RepeatMode.all
                          | RepeatMode.all => RepeatMode.one
                          | RepeatMode.one => RepeatMode.none) }

/-- `togglePlayPause` (lines 1186-1212); `pause()` and `play()` of the media
element set its `paused` flag. -/
def togglePlayPause (s : State) : State :=
  match s.currentTrack with
  | none => s
  | some track =>
    let s := s.log (Effect.console "Toggle play/pause. Track actual:")
    if track.isLocal then
      match s.localPlayer with
      | some el =>
        if s.isPlaying then s.updateElement el (fun e => { e with paused := true })
        else s.updateElement el (fun e => { e with paused := false })
      | none => s
    else
      if s.player && s.playerReady then
        if s.isPlaying then s.log Effect.pauseVideo else s.log Effect.playVideo
      else s.log (Effect.console "YouTube Player no disponible")

/-- `setVolume` (lines 1300-1314); numbers are rationals. -/
def setVolume (s : State) (volume : Rat) : State :=
  let s := { s with volume := max 0 (min 1 volume) }
  let s := if s.playerReady then s.log (Effect.setVolume (s.volume * 100)) else s
  match s.localPlayer with
  | some el => s.updateElement el (fun e => { e with volume := s.volume })
  | none => s

/-- `toggleMute` (lines 1291-1298); `this.previousVolume || 0.7` is 0.7 when
`previousVolume` is 0. -/
def toggleMute (s : State) : State :=
  if s.volume > 0 then
    setVolume { s with previousVolume := s.volume } 0
  else
    setVolume s (if s.previousVolume = 0 then 7 / 10 else s.previousVolume)

/-- `updateProgressFromEvent` (lines 1426-1442).  `fraction` is
`(e.clientX - rect.left) / rect.width`, `localDuration` the value of
`this.localPlayer.duration` (`none` when it is not a number, in which case the
assignment to `currentTime` throws), `remoteDuration` the value of
`this.player.getDuration()`. -/
def updateProgressFromEvent (s : State) (fraction : Rat) (localDuration : Option Rat)
    (remoteDuration : Rat) : State :=
  match s.currentTrack with
  | none => s
  | some track =>
    let percentage := max 0 (min 1 fraction)
    match (if track.isLocal then s.localPlayer else none) with
    | some el =>
      match localDuration with
      | some duration =>
        s.updateElement el (fun e => { e with currentTime := duration * percentage })
      | none => s.log Effect.typeError
    | none =>
      if s.playerReady then s.log (Effect.seekTo (remoteDuration * percentage))
      else s

/-- The first element of the list that satisfies `p`, replaced by its image under
`f`: an assignment to a property of the object `find` returns. -/
def modifyFirst {α : Type} (p : α → Bool) (f : α → α) : List α → List α
  | [] => []
  | a :: rest => if p a then f a :: rest else a :: modifyFirst p f rest

/-- `removeVideoFromPlaylist` (lines 416-447): the returned value and the state.
`savePlaylists` and `deleteFile` are outgoing calls; `currentPlaylist` is the
object `loadPlaylistView` finds when its id is `playlistId`. -/
def removeVideoFromPlaylist (s : State) (playlistId trackId : String) : Bool × State :=
  match s.playlists.find? (fun p => p.id == playlistId) with
  | none => (false, s)
  | some playlist =>
    let trackToRemove := playlist.tracks.find? (fun t => t.id == trackId)
    let playlists := modifyFirst (fun p => p.id == playlistId)
      (fun p => { p with tracks := p.tracks.filter (fun t => t.id != trackId) })
      s.playlists
    let s := { s with playlists := playlists }
    let s := s.log Effect.savePlaylists
    let s := match trackToRemove with
      | some track => if track.isLocal then s.log (Effect.deleteFile trackId) else s
      | none => s
    let s := match s.currentTrack with
      | some track =>
        if track.id = trackId then
          { stopAllPlayers s with currentTrack := none, currentTrackIndex := 0 }
        else s
      | none => s
    let s := match s.currentPlaylist with
      | some current =>
        if current.id = playlistId then loadPlaylistView s playlistId else s
      | none => s
    (true, s)

/-- The statement of lines 435-440 of `removeVideoFromPlaylist`: the current track
is stopped and cleared when it is the removed one. -/
def stopRemovedTrack (s : State) (trackId : String) : State :=
  match s.currentTrack with
  | some track =>
    if track.id = trackId then
      { stopAllPlayers s with currentTrack := none, currentTrackIndex := 0 }
    else s
  | none => s

/-- The statement of lines 442-444 of `removeVideoFromPlaylist`: the view of the
current playlist is loaded again. -/
def reloadCurrentPlaylist (s : State) (playlistId : String) : State :=
  match s.currentPlaylist with
  | some current =>
    if current.id = playlistId then loadPlaylistView s playlistId else s
  | none => s

/-! ## Track durations

The duration of a track is metadata of the track object; it is written by
`onPlayerReady`, by the 'loadedmetadata' listener and by `updateTrackDuration`.
Track objects are shared between `this.currentTrack` and the playlists, so they are
kept in a store and named by their position.  Durations are rationals. -/

/-- The fields of a track object that the duration writers read and write. -/
structure TrackRecord where
  id : String
  duration : Rat
  isLocal : Bool
deriving DecidableEq, Repr

/-- The track objects (`objects`), the `tracks` array of each playlist and
`this.currentTrack`, as names of objects. -/
structure Library where
  objects : List TrackRecord
  playlists : List (List Nat)
  currentTrack : Option Nat
deriving DecidableEq, Repr

/-- The assignment `track.duration = duration` to the object named `a`. -/
def Library.setDuration (lib : Library) (a : Nat) (duration : Rat) : Library :=
  { lib with objects := lib.objects.modify (fun o => { o with duration := duration }) a }

/-- The body of the `forEach` of `updateTrackDuration` (lines 1498-1504) for one
playlist. -/
def updateTrackDurationIn (trackId : String) (duration : Rat) (lib : Library)
    (tracks : List Nat) : Library :=
  match tracks.find? (fun a =>
      match lib.objects[a]? with
      | some o => o.id == trackId
      | none => false) with
  | none => lib
  | some a =>
    match lib.objects[a]? with
    | none => lib
    | some o => if o.duration ≠ duration then lib.setDuration a duration else lib

/-- `updateTrackDuration` (lines 1496-1516) on the track objects. -/
def updateTrackDuration (lib : Library) (trackId : String) (duration : Rat) : Library :=
  lib.playlists.foldl (updateTrackDurationIn trackId duration) lib

/-- The duration part of `onPlayerReady` (lines 271-278); `getDuration` is the
value of `this.player.getDuration()`. -/
def onPlayerReadyDuration (lib : Library) (getDuration : Rat) : Library :=
  match lib.currentTrack with
  | none => lib
  | some a =>
    match lib.objects[a]? with
    | none => lib
    | some o =>
      if o.duration = 0 ∧ o.isLocal = false then
        if getDuration > 0 then
          updateTrackDuration (lib.setDuration a ⌊getDuration⌋) o.id getDuration
        else lib
      else lib

/-- The 'loadedmetadata' listener (lines 1126-1132); `track` is the object captured
by the listener, `duration` the value of `this.localPlayer.duration`. -/
def localPlayerLoadedmetadata (lib : Library) (track : Nat) (duration : Rat) : Library :=
  match lib.objects[track]? with
  | none => lib
  | some o =>
    if o.duration = 0 then updateTrackDuration lib o.id ⌊duration⌋ else lib

/-! ## `extractVideoId`

The regular expression of `extractVideoId` (line 1520), without the `u` flag, works
on the UTF-16 code units of the string; a string is a list of characters, one for
each code unit.  A regular expression without its capture group is run by
backtracking: `Regex.run` gives the inputs left after each way of matching at the
start of the input, in the order in which a backtracking matcher tries them (the
left alternative first, the longest run first). -/

/-- The part of the regular expressions used here: literals, one character of a
class, greedy `*` and `+` on a class, sequence, alternative and greedy `?`. -/
inductive Regex where
  | lit (cs : List Char)
  | cls (p : Char → Bool)
  | star (p : Char → Bool)
  | plus (p : Char → Bool)
  | seq (a b : Regex)
  | alt (a b : Regex)
  | opt (a : Regex)

/-- The input left after the literal `cs`, if the input starts with it. -/
def stripLit : List Char → List Char → Option (List Char)
  | [], s => some s
  | _ :: _, [] => none
  | c :: cs, x :: xs => if x = c then stripLit cs xs else none

/-- The inputs left after a run of characters of the class `p`, the longest run
first and the empty run last. -/
def runClass (p : Char → Bool) : List Char → List (List Char)
  | [] => [[]]
  | c :: cs => (if p c then runClass p cs else []) ++ [c :: cs]

/-- The inputs left after each way of matching the expression at the start of the
input, in backtracking order. -/
def Regex.run : Regex → List Char → List (List Char)
  | Regex.lit cs, s =>
    match stripLit cs s with
    | some rest => [rest]
    | none => []
  | Regex.cls _, [] => []
  | Regex.cls p, c :: cs => if p c then [cs] else []
  | Regex.star p, s => runClass p s
  | Regex.plus _, [] => []
  | Regex.plus p, c :: cs => if p c then runClass p cs else []
  | Regex.seq a b, s => (a.run s).flatMap b.run
  | Regex.alt a b, s => a.run s ++ b.run s
  | Regex.opt a, s => a.run s ++ [s]

/-- The class `[^\/]`. -/
def notSlash (c : Char) : Bool :=
  c != '/'

/-- The class `.`: every code unit but the line terminators. -/
def dotClass (c : Char) : Bool :=
  !(c == Char.ofNat 10 || c == Char.ofNat 13 || c == Char.ofNat 0x2028
    || c == Char.ofNat 0x2029)

/-- The class `[?&]`. -/
def queryClass (c : Char) : Bool :=
  c == '?' || c == '&'

/-- The code units of the class `\s`. -/
def whitespace : List Char :=
  [9, 10, 11, 12, 13, 32, 160, 0x1680, 0x2000, 0x2001, 0x2002, 0x2003, 0x2004, 0x2005,
   0x2006, 0x2007, 0x2008, 0x2009, 0x200a, 0x2028, 0x2029, 0x202f, 0x205f, 0x3000,
   0xfeff].map Char.ofNat

/-- The class `[^"&?\/\s]` of the capture group. -/
def idClass (c : Char) : Bool :=
  !(c == Char.ofNat 34 || c == '&' || c == '?' || c == '/' || whitespace.contains c)

/-- The alternative `[^\/]+\/.+\/`. -/
def userPath : Regex :=
  Regex.seq (Regex.plus notSlash)
    (Regex.seq (Regex.lit "/".toList)
      (Regex.seq (Regex.plus dotClass) (Regex.lit "/".toList)))

/-- The alternative `(?:v|e(?:mbed)?)\/`. -/
def embedPath : Regex :=
  Regex.seq
    (Regex.alt (Regex.lit "v".toList)
      (Regex.seq (Regex.lit "e".toList) (Regex.opt (Regex.lit "mbed".toList))))
    (Regex.lit "/".toList)

/-- The alternative `.*[?&]v=`. -/
def queryPath : Regex :=
  Regex.seq (Regex.star dotClass)
    (Regex.seq (Regex.cls queryClass) (Regex.lit "v=".toList))

/-- The expression before the capture group:
`(?:youtube\.com\/(?:[^\/]+\/.+\/|(?:v|e(?:mbed)?)\/|.*[?&]v=)|youtu\.be\/)`. -/
def videoIdLead : Regex :=
  Regex.alt
    (Regex.seq (Regex.lit "youtube.com/".toList)
      (Regex.alt userPath (Regex.alt embedPath queryPath)))
    (Regex.lit "youtu.be/".toList)

/-- The capture group `([^"&?\/\s]{11})` at the start of the input. -/
def captureId (s : List Char) : Option (List Char) :=
  if 11 ≤ s.length ∧ (s.take 11).all idClass = true then some (s.take 11) else none

/-- The first way, in backtracking order, in which the whole expression matches at
the start of the input: the text of the capture group. -/
def matchAt (s : List Char) : Option (List Char) :=
  (videoIdLead.run s).findSome? captureId

/-- `url.match(regex)` for the expression without the `g` flag: the match at the
leftmost position that has one. -/
def regexMatch : List Char → Option (List Char)
  | [] => matchAt []
  | c :: cs => (matchAt (c :: cs)).or (regexMatch cs)

/-- `extractVideoId` (lines 1519-1523): `match ? match[1] : null`. -/
def extractVideoId (url : List Char) : Option (List Char) :=
  regexMatch url

/-- The characters of a video id: letters, digits, `-` and `_`. -/
def isIdChar (c : Char) : Bool :=
  c.isAlphanum || c == '-' || c == '_'

/-- The text `pat` occurs in the text `s`. -/
def Occurs (pat s : List Char) : Prop :=
  ∃ before after, s = before ++ pat ++ after

/-! ## Text of a duration -/

/-- The character of the decimal digit `d`. -/
def digitChar (d : Nat) : Char :=
  Char.ofNat (48 + d)

/-- `Number.prototype.toString` for a non-negative integer: its decimal digits. -/
def toDecimal (n : Nat) : List Char :=
  if n = 0 then ['0'] else (Nat.digits 10 n).reverse.map digitChar

/-- `Number.prototype.toString` for an integer. -/
def numberToString (z : Int) : List Char :=
  if z < 0 then '-' :: toDecimal z.natAbs else toDecimal z.toNat

/-- `String.prototype.padStart` with a one-character filler. -/
def padStart (targetLength : Nat) (fill : Char) (text : List Char) : List Char :=
  List.replicate (targetLength - text.length) fill ++ text

/-- The integer part of a number, rounding towards zero. -/
def truncate (q : Rat) : Int :=
  if 0 ≤ q then ⌊q⌋ else ⌈q⌉

/-- The remainder operator `%` of the language: the result has the sign of the
dividend. -/
def jsRem (x y : Rat) : Rat :=
  x - y * truncate (x / y)

/-- `formatDuration` (lines 1555-1560) for a non-negative integer number of
seconds. -/
def formatDuration (seconds : Nat) : List Char :=
  if seconds = 0 then "0:00".toList
  else
    let minutes := seconds / 60
    let remainingSeconds := seconds % 60
    toDecimal minutes ++ ':' :: padStart 2 '0' (toDecimal remainingSeconds)

/-- `formatTime` (lines 1562-1567). -/
def formatTime (seconds : Rat) : List Char :=
  if seconds = 0 then "0:00".toList
  else
    let minutes : Int := ⌊seconds / 60⌋
    let remainingSeconds : Int := ⌊jsRem seconds 60⌋
    numberToString minutes ++ ':' :: padStart 2 '0' (numberToString remainingSeconds)

/-- The value of a decimal digit character. -/
def digitValue (c : Char) : Nat :=
  c.toNat - 48

/-- The number written by a text of decimal digits. -/
def parseDecimal (text : List Char) : Nat :=
  text.foldl (fun acc c => 10 * acc + digitValue c) 0

/-- The reading `m * 60 + ss` of a text `m:ss`. -/
def parseDuration (text : List Char) : Nat :=
  parseDecimal (text.takeWhile (fun c => c != ':')) * 60 +
    parseDecimal ((text.dropWhile (fun c => c != ':')).drop 1)

/-! ## Runs of the engine -/

/-- Successive calls of `nextTrack`, one list of random values for each call. -/
def nextTrackCalls (s : State) : List (List Unit01) → Option State
  | [] => some s
  | random :: rest => (nextTrack s random).bind (fun s1 => nextTrackCalls s1 rest)

/-- The states in which sequential navigation over `pl` is not stopped by the guard
of `playTrack` (line 1042): shuffle is off and the remote player is ready or every
track of `pl` is local. -/
def Sequential (pl : Playlist) (s : State) : Prop :=
  s.currentPlaylist = some pl ∧ s.isShuffled = false ∧
  (s.playerReady = true ∨ ∀ t ∈ pl.tracks, t.isLocal = true)

/-- The state without the record of the calls that left the engine. -/
def State.forgetTrace (s : State) : State :=
  { s with trace := [] }

/-- The state without the object URLs and the record of calls. -/
def State.forgetUrls (s : State) : State :=
  { s with trace := [], liveUrls := [], currentLocalFileUrl := none }

/-- Arming the local backend: `playLocalFile(track)` runs to its end, the lookup
it starts (the last of `pendingLookups`) returning `file`. -/
def armLocal (s : State) (track : Track) (file : Nat) : State :=
  playLocalFileResume (playLocalFile s track) s.pendingLookups.length (some file)

/-- The object URLs passed to `URL.revokeObjectURL`, in order. -/
def revoked (trace : List Effect) : List Nat :=
  trace.filterMap (fun e => match e with
    | Effect.revokeObjectURL url => some url
    | _ => none)

/-- What reaches the engine: a call from the user interface, a backend event, the
completion of a file lookup. -/
inductive Input where
  | playTrack (track : Track) (index : Nat)
  | stopAllPlayers
  | nextTrack (random : List Unit01)
  | previousTrack
  | toggleShuffle
  | toggleRepeat
  | loadPlaylistView (playlistId : String)
  | initializePlayer
  | playerReady
  | playerStateChange (data : PlayerState) (random : List Unit01)
  | fileLookupDone (k : Nat) (file : Option Nat)
  | localCanplay
  | localPlayRejected
  | localEnded (random : List Unit01)
  | localPlay
  | localPause
  | localError
deriving DecidableEq, Repr

/-- The inputs that call `playTrack` or `nextTrack`: the three navigation calls and
the two 'ended' events. -/
def Input.navigates : Input → Bool
  | Input.playTrack _ _ => true
  | Input.nextTrack _ => true
  | Input.previousTrack => true
  | Input.localEnded _ => true
  | Input.playerStateChange PlayerState.ended _ => true
  | _ => false

/-- The engine handles one input; `none` when a shuffle loop does not end. -/
def step (s : State) : Input → Option State
  | Input.playTrack track index => some (playTrack s (some track) index)
  | Input.stopAllPlayers => some (stopAllPlayers s)
  | Input.nextTrack random => nextTrack s random
  | Input.previousTrack => some (previousTrack s)
  | Input.toggleShuffle => some (toggleShuffle s)
  | Input.toggleRepeat => some (toggleRepeat s)
  | Input.loadPlaylistView playlistId => some (loadPlaylistView s playlistId)
  | Input.initializePlayer => some (initializePlayer s)
  | Input.playerReady => some (onPlayerReady s)
  | Input.playerStateChange data random => onPlayerStateChange s data random
  | Input.fileLookupDone k file => some (playLocalFileResume s k file)
  | Input.localCanplay => some (localPlayerCanplay s)
  | Input.localPlayRejected => some (localPlayerPlayRejected s)
  | Input.localEnded random => localPlayerEnded s random
  | Input.localPlay => some (localPlayerPlay s)
  | Input.localPause => some (localPlayerPause s)
  | Input.localError => some (localPlayerError s)

/-- The engine handles a sequence of inputs. -/
def run (s : State) : List Input → Option State
  | [] => some s
  | i :: rest => (step s i).bind (fun s1 => run s1 rest)

/-- The states the engine reaches from the constructor state. -/
inductive Reachable : State → Prop where
  | initial (playlists : List Playlist) (ytApiLoaded : Bool) :
      Reachable (State.initial playlists ytApiLoaded)
  | step {s s1 : State} (i : Input) : Reachable s → step s i = some s1 → Reachable s1

/-! ## Example data -/

/-- A remote track. -/
def remoteTrack (n : String) : Track :=
  { id := n, videoId := n, title := n, channel := "ch", isLocal := false, fileType := "" }

/-- A local audio track. -/
def localTrack (n : String) : Track :=
  { id := n, videoId := "", title := n, channel := "Archivo local", isLocal := true,
    fileType := "audio/mpeg" }

/-- Two remote tracks. -/
def remoteQueue : Playlist :=
  { id := "p1", name := "remote", tracks := [remoteTrack "a", remoteTrack "b"] }

/-- The engine after construction and `loadPlaylistView`, before the remote
player exists. -/
def remoteQueueState : State :=
  loadPlaylistView (State.initial [remoteQueue] false) "p1"

/-- Three local tracks. -/
def localQueue : Playlist :=
  { id := "p2", name := "local", tracks := [localTrack "x", localTrack "y", localTrack "z"] }

/-- The engine after construction and `loadPlaylistView` of the local playlist. -/
def localQueueState : State :=
  loadPlaylistView (State.initial [localQueue] false) "p2"

/-- One remote track. -/
def singleRemoteQueue : Playlist :=
  { id := "p3", name := "single", tracks := [remoteTrack "a"] }

/-- The engine with the one-track playlist open and repeat mode 'all', before the
remote player exists. -/
def singleRemoteState : State :=
  toggleRepeat (loadPlaylistView (State.initial [singleRemoteQueue] false) "p3")

/-- The local playlist open, `playTrack(tracks[2], 2)` called and its file lookup
completed: the local backend is armed with the last track of the queue. -/
def armedLastState : State :=
  playLocalFileResume (playTrack localQueueState localQueue.tracks[2]? 2) 0 (some 0)

/-- The state `armedLastState` with repeat mode 'one'. -/
def armedRepeatOneState : State :=
  toggleRepeat (toggleRepeat armedLastState)

/-- The remote playlist open, the remote player created and ready, repeat mode
'one'. -/
def readyRepeatOneState : State :=
  toggleRepeat (toggleRepeat (onPlayerReady (initializePlayer remoteQueueState)))

/-- The local playlist open, `playTrack(tracks[0], 0)` called, its file lookup
completed and the element then firing 'error'. -/
def afterErrorState : State :=
  localPlayerError
    (playLocalFileResume (playTrack localQueueState localQueue.tracks[0]? 0) 0 (some 0))

/-- The inputs that lead from the constructor state to `afterErrorState`. -/
def afterErrorInputs : List Input :=
  [Input.loadPlaylistView "p2", Input.playTrack (localTrack "x") 0,
   Input.fileLookupDone 0 (some 0), Input.localError]

/-- Two clicks on local tracks in a row, both file lookups completing afterwards,
in the order of the requests. -/
def rapidPlayInputs : List Input :=
  [Input.loadPlaylistView "p2",
   Input.playTrack (localTrack "x") 0,
   Input.playTrack (localTrack "y") 1,
   Input.fileLookupDone 0 (some 0),
   Input.fileLookupDone 0 (some 1)]

/-- The state after `rapidPlayInputs`: `playTrack(x, 0)`, `playTrack(y, 1)`, then
the lookup of `x` completes, then the lookup of `y`. -/
def rapidPlayState : State :=
  playLocalFileResume
    (playLocalFileResume
      (playTrack (playTrack localQueueState (some (localTrack "x")) 0)
        (some (localTrack "y")) 1)
      0 (some 0))
    0 (some 1)

/-- The remote playlist open in a browser where the player API is loaded, before
the remote player exists. -/
def remoteQueueApiState : State :=
  loadPlaylistView (State.initial [remoteQueue] true) "p1"

/-- The local playlist open and `playTrack(tracks[0], 0)` called, its file lookup
still pending. -/
def pendingLocalState : State :=
  playTrack localQueueState localQueue.tracks[0]? 0

/-- One local track. -/
def singleLocalQueue : Playlist :=
  { id := "p4", name := "short", tracks := [localTrack "w"] }

/-- The inputs that lead from the constructor state to `staleIndexState`: the last
track of the three-track playlist is played, then the one-track playlist is
opened. -/
def staleIndexInputs : List Input :=
  [Input.loadPlaylistView "p2", Input.playTrack (localTrack "z") 2,
   Input.loadPlaylistView "p4"]

/-- The stored index 2 with the one-track playlist open. -/
def staleIndexState : State :=
  loadPlaylistView
    (playTrack (loadPlaylistView (State.initial [localQueue, singleLocalQueue] false) "p2")
      (some (localTrack "z")) 2)
    "p4"

/-- The remote playlist open with the remote player ready, the first track loaded
and `isPlaying` set. -/
def remotePlayingState : State :=
  localPlayerPlay (playTrack (onPlayerReady (initializePlayer remoteQueueState))
    remoteQueue.tracks[0]? 0)

/-- Two clicks on local tracks in a row; the lookup of the first completes and its
element starts playing, then the lookup of the second fails. -/
def lateFailureInputs : List Input :=
  [Input.loadPlaylistView "p2",
   Input.playTrack (localTrack "x") 0,
   Input.playTrack (localTrack "y") 1,
   Input.fileLookupDone 0 (some 0),
   Input.localCanplay,
   Input.localPlay,
   Input.fileLookupDone 0 none]

/-- The state before the last input of `lateFailureInputs`. -/
def beforeLateFailureState : State :=
  localPlayerPlay (localPlayerCanplay (playLocalFileResume
    (playTrack (playTrack localQueueState (some (localTrack "x")) 0)
      (some (localTrack "y")) 1)
    0 (some 0)))

/-- The local playlist open, `playTrack(tracks[0], 0)` called, its file lookup
completed, the element firing 'canplay' and the promise of `play()` rejected. -/
def afterRejectedState : State :=
  localPlayerPlayRejected (localPlayerCanplay
    (playLocalFileResume (playTrack localQueueState localQueue.tracks[0]? 0) 0 (some 0)))

/-- The constructor state with the local playlist and the one-track playlist, the
local playlist open and its last track armed. -/
def twoPlaylistsState : State :=
  playLocalFileResume
    (playTrack (loadPlaylistView (State.initial [localQueue, singleLocalQueue] false) "p2")
      (some (localTrack "z")) 2)
    0 (some 0)

/-- One remote track object of unknown duration, in one playlist and current. -/
def unknownDurationLibrary : Library :=
  { objects := [{ id := "a", duration := 0, isLocal := false }],
    playlists := [[0]],
    currentTrack := some 0 }

/-- One local track object with a stored duration of 300 seconds. -/
def knownDurationLibrary : Library :=
  { objects := [{ id := "x", duration := 300, isLocal := true }],
    playlists := [[0]],
    currentTrack := none }

/-- The value 0 of `Math.random()`. -/
def randomZero : Unit01 := ⟨0, 1, by decide⟩

/-- The value 1/2 of `Math.random()`. -/
def randomHalf : Unit01 := ⟨1, 2, by decide⟩

/-! # Theorems -/

/-! ## Frame lemmas -/

theorem stopAllPlayers_frame (s : State) :
    (stopAllPlayers s).currentPlaylist = s.currentPlaylist ∧
    (stopAllPlayers s).isShuffled = s.isShuffled ∧
    (stopAllPlayers s).repeatMode = s.repeatMode ∧
    (stopAllPlayers s).remote = s.remote ∧
    (stopAllPlayers s).currentTrack = s.currentTrack ∧
    (stopAllPlayers s).currentTrackIndex = s.currentTrackIndex := by
  unfold stopAllPlayers cleanupLocalPlayer
  cases h1 : s.localPlayer <;> cases h2 : s.currentLocalFileUrl <;> cases h3 : s.remote <;>
    simp [State.log, State.updateElement, State.revokeObjectURL, State.player,
      State.playerReady, h1, h2, h3]

theorem playTrack_frame (s : State) (track : Option Track) (index : Nat) :
    (playTrack s track index).currentPlaylist = s.currentPlaylist ∧
    (playTrack s track index).isShuffled = s.isShuffled ∧
    (playTrack s track index).repeatMode = s.repeatMode ∧
    (playTrack s track index).remote = s.remote := by
  unfold playTrack
  cases track with
  | none =>
    cases h3 : s.remote <;>
      simp [State.log, State.playerReady, h3, stopAllPlayers_frame]
  | some t =>
    cases h3 : s.remote <;> cases h4 : t.isLocal <;>
      simp [State.log, State.playerReady, State.player, h3, h4, stopAllPlayers_frame,
        playLocalFile]

theorem playTrack_stores (s : State) (t : Track) (index : Nat)
    (h : s.playerReady = true ∨ t.isLocal = true) :
    (playTrack s (some t) index).currentTrackIndex = index ∧
    (playTrack s (some t) index).currentTrack = some t := by
  unfold playTrack
  cases h3 : s.remote <;> cases h4 : t.isLocal <;>
    simp_all [State.log, State.playerReady, State.player, stopAllPlayers_frame,
      playLocalFile]

/-! ## Sequential navigation -/

theorem nextTrack_sequential_step (s : State) (pl : Playlist) (random : List Unit01)
    (hpl : s.currentPlaylist = some pl) (hshuffle : s.isShuffled = false)
    (h : s.currentTrackIndex + 1 < pl.tracks.length) :
    nextTrack s random =
      some (playTrack s pl.tracks[s.currentTrackIndex + 1]? (s.currentTrackIndex + 1)) := by
  have h0 : pl.tracks.length ≠ 0 := by omega
  have h1 : ¬ (s.currentTrackIndex + 1 ≥ pl.tracks.length) := by omega
  simp [nextTrack, hpl, hshuffle, h0, h1]

theorem sequential_playTrack (s : State) (pl : Playlist) (t : Track) (index : Nat)
    (hs : Sequential pl s) (ht : t ∈ pl.tracks) :
    Sequential pl (playTrack s (some t) index) ∧
    (playTrack s (some t) index).repeatMode = s.repeatMode ∧
    (playTrack s (some t) index).currentTrackIndex = index ∧
    (playTrack s (some t) index).currentTrack = some t := by
  obtain ⟨hpl, hsh, hplay⟩ := hs
  have hf := playTrack_frame s (some t) index
  have hp : s.playerReady = true ∨ t.isLocal = true := by
    rcases hplay with hr | hl
    · exact Or.inl hr
    · exact Or.inr (hl t ht)
  refine ⟨⟨by rw [hf.1, hpl], by rw [hf.2.1, hsh], ?_⟩, hf.2.2.1, playTrack_stores s t index hp⟩
  rcases hplay with hr | hl
  · left
    simp only [State.playerReady] at hr ⊢
    rw [hf.2.2.2]; exact hr
  · right; exact hl

theorem sequential_step (s : State) (pl : Playlist) (random : List Unit01)
    (hs : Sequential pl s) (h : s.currentTrackIndex + 1 < pl.tracks.length) :
    ∃ t, pl.tracks[s.currentTrackIndex + 1]? = some t ∧
      nextTrack s random = some (playTrack s (some t) (s.currentTrackIndex + 1)) ∧
      Sequential pl (playTrack s (some t) (s.currentTrackIndex + 1)) ∧
      (playTrack s (some t) (s.currentTrackIndex + 1)).repeatMode = s.repeatMode ∧
      (playTrack s (some t) (s.currentTrackIndex + 1)).currentTrackIndex
        = s.currentTrackIndex + 1 ∧
      (playTrack s (some t) (s.currentTrackIndex + 1)).currentTrack = some t := by
  have hget : pl.tracks[s.currentTrackIndex + 1]? = some (pl.tracks[s.currentTrackIndex + 1]) :=
    List.getElem?_eq_getElem h
  refine ⟨pl.tracks[s.currentTrackIndex + 1], hget, ?_,
    sequential_playTrack s pl _ _ hs (List.getElem_mem _)⟩
  rw [nextTrack_sequential_step s pl random hs.1 hs.2.1 h, hget]

theorem nextTrackCalls_append (calls rest : List (List Unit01)) :
    ∀ s : State, nextTrackCalls s (calls ++ rest) =
      (nextTrackCalls s calls).bind (fun s1 => nextTrackCalls s1 rest) := by
  induction calls with
  | nil => intro s; rfl
  | cons random more ih =>
    intro s
    simp only [List.cons_append, nextTrackCalls]
    cases nextTrack s random with
    | none => rfl
    | some s1 => simpa using ih s1

theorem nextTrackCalls_sequential (pl : Playlist) (calls : List (List Unit01)) :
    ∀ s : State, Sequential pl s → s.currentTrackIndex + calls.length < pl.tracks.length →
      ∃ s1, nextTrackCalls s calls = some s1 ∧ Sequential pl s1 ∧
        s1.repeatMode = s.repeatMode ∧
        s1.currentTrackIndex = s.currentTrackIndex + calls.length := by
  induction calls with
  | nil => intro s hs _; exact ⟨s, rfl, hs, rfl, rfl⟩
  | cons random rest ih =>
    intro s hs hlen
    simp only [List.length_cons] at hlen
    obtain ⟨t, _, hnext, hseq, hrep, hidx, _⟩ := sequential_step s pl random hs (by omega)
    obtain ⟨s1, h1, h2, h3, h4⟩ := ih _ hseq (by rw [hidx]; omega)
    refine ⟨s1, ?_, h2, by rw [h3, hrep], ?_⟩
    · simp [nextTrackCalls, hnext, h1]
    · rw [h4, hidx, List.length_cons]; omega

/-! ## C1 -/

/-- C1 (the code at the failing input): with two remote tracks, shuffle off, repeat
mode 'none', the stored index at 0 and the remote player not ready, the first call
of `nextTrack` is the call `playTrack(tracks[1], 1)`, but the stored index after it
is still 0 and not 1: `playTrack` returns at lines 1042-1045, before the assignment
of lines 1047-1048, and its branch for the unready player (lines 1060-1071) is
never reached. -/
theorem nextTrack_index_not_stored_unready :
    remoteQueueState.currentPlaylist = some remoteQueue ∧
    1 < remoteQueue.tracks.length ∧
    remoteQueueState.isShuffled = false ∧
    remoteQueueState.repeatMode = RepeatMode.none ∧
    remoteQueueState.currentTrackIndex = 0 ∧
    nextTrack remoteQueueState [] =
      some (playTrack remoteQueueState remoteQueue.tracks[1]? 1) ∧
    (nextTrack remoteQueueState []).map (fun s => s.currentTrackIndex) = some 0 ∧
    (nextTrack remoteQueueState []).map (fun s => s.currentTrackIndex) ≠ some 1 :=
  ⟨rfl, by decide, rfl, rfl, rfl, rfl, rfl, by decide⟩

/-- Sequential navigation where the early return of `playTrack` is not taken: with
shuffle off, the stored index at 0 and the remote player ready, or every track of
the queue local, after any `k - 1` calls of `nextTrack` the stored index is
`k - 1`, and the `k`-th call (`1 ≤ k ≤ L - 1`, here `k = calls.length + 1`) is the
call `playTrack(tracks[k], k)`, after which the stored index is `k` and the stored
track is `tracks[k]`.  This holds for every repeat mode, 'none' included. -/
theorem nextTrack_visits_in_order (s : State) (pl : Playlist)
    (calls : List (List Unit01)) (random : List Unit01)
    (hpl : s.currentPlaylist = some pl) (hshuffle : s.isShuffled = false)
    (hindex : s.currentTrackIndex = 0)
    (hplayable : s.playerReady = true ∨ ∀ t ∈ pl.tracks, t.isLocal = true)
    (hk : calls.length + 1 < pl.tracks.length) :
    ∃ prev t, nextTrackCalls s calls = some prev ∧
      prev.currentTrackIndex = calls.length ∧
      pl.tracks[calls.length + 1]? = some t ∧
      nextTrack prev random = some (playTrack prev (some t) (calls.length + 1)) ∧
      nextTrackCalls s (calls ++ [random])
        = some (playTrack prev (some t) (calls.length + 1)) ∧
      (playTrack prev (some t) (calls.length + 1)).currentTrackIndex = calls.length + 1 ∧
      (playTrack prev (some t) (calls.length + 1)).currentTrack = some t := by
  obtain ⟨prev, h1, h2, _, h4⟩ :=
    nextTrackCalls_sequential pl calls s ⟨hpl, hshuffle, hplayable⟩ (by omega)
  rw [hindex, Nat.zero_add] at h4
  obtain ⟨t, ht, hnext, _, _, hidx, htrack⟩ := sequential_step prev pl random h2 (by omega)
  rw [h4] at ht hnext hidx htrack
  refine ⟨prev, t, h1, h4, ht, hnext, ?_, hidx, htrack⟩
  rw [nextTrackCalls_append, h1]
  simp [nextTrackCalls, hnext]

/-- Sequential navigation at the queue of three local tracks: the second call of
`nextTrack` (`k = 2 = L - 1`). -/
theorem nextTrack_visits_in_order_witness :
    localQueueState.currentPlaylist = some localQueue ∧
    localQueueState.repeatMode = RepeatMode.none ∧
    ∃ prev t, nextTrackCalls localQueueState [[]] = some prev ∧
      prev.currentTrackIndex = 1 ∧
      localQueue.tracks[2]? = some t ∧
      nextTrack prev [] = some (playTrack prev (some t) 2) ∧
      nextTrackCalls localQueueState [[], []] = some (playTrack prev (some t) 2) ∧
      (playTrack prev (some t) 2).currentTrackIndex = 2 ∧
      (playTrack prev (some t) 2).currentTrack = some t :=
  ⟨by decide, by decide,
    nextTrack_visits_in_order localQueueState localQueue [[]] [] (by decide) (by decide)
      (by decide) (Or.inr (by decide)) (by decide)⟩


/-! ## C2 -/

/-- C2: with a non-empty queue of length `L`, shuffle off, a repeat mode other than
'all' and the stored index at `L - 1`, `nextTrack` returns the state it was called
in with `isPlaying` set to false and nothing else changed: index, track, local
player, URL handle, remote player, media elements and the record of outgoing calls
(no line of `playTrack`, no player command) are the same. -/
theorem nextTrack_halts_at_end (s : State) (pl : Playlist) (random : List Unit01)
    (hpl : s.currentPlaylist = some pl) (hne : pl.tracks.length ≠ 0)
    (hshuffle : s.isShuffled = false) (hrepeat : s.repeatMode ≠ RepeatMode.all)
    (hindex : s.currentTrackIndex = pl.tracks.length - 1) :
    nextTrack s random = some { s with isPlaying := false } ∧
    ∀ s1, nextTrack s random = some s1 →
      s1.isPlaying = false ∧ s1.currentTrackIndex = pl.tracks.length - 1 ∧
      s1.currentTrack = s.currentTrack ∧ s1.trace = s.trace ∧
      s1.localPlayer = s.localPlayer ∧ s1.currentLocalFileUrl = s.currentLocalFileUrl ∧
      s1.elements = s.elements ∧ s1.liveUrls = s.liveUrls ∧ s1.remote = s.remote := by
  have h1 : s.currentTrackIndex + 1 ≥ pl.tracks.length := by omega
  have h2 : nextTrack s random = some { s with isPlaying := false } := by
    simp [nextTrack, hpl, hshuffle, hne, h1, hrepeat]
  refine ⟨h2, ?_⟩
  intro s1 hs1
  rw [h2] at hs1
  cases hs1
  simp [hindex]

/-- C2 at the queue of three local tracks after `playTrack(tracks[2], 2)`. -/
theorem nextTrack_halts_at_end_witness :
    nextTrack (playTrack localQueueState localQueue.tracks[2]? 2) [] =
      some { playTrack localQueueState localQueue.tracks[2]? 2 with isPlaying := false } :=
  (nextTrack_halts_at_end (playTrack localQueueState localQueue.tracks[2]? 2) localQueue []
    (by decide) (by decide) (by decide) (by decide) (by decide)).1

/-! ## C3 -/

theorem nextTrack_wraps (s : State) (pl : Playlist) (random : List Unit01)
    (hpl : s.currentPlaylist = some pl) (hshuffle : s.isShuffled = false)
    (hrepeat : s.repeatMode = RepeatMode.all)
    (h : s.currentTrackIndex + 1 = pl.tracks.length) :
    nextTrack s random = some (playTrack s pl.tracks[0]? 0) := by
  have h0 : pl.tracks.length ≠ 0 := by omega
  have h1 : s.currentTrackIndex + 1 ≥ pl.tracks.length := by omega
  simp [nextTrack, hpl, hshuffle, h0, h1, hrepeat]

/-- C3 (the code at the failing input): with one remote track, shuffle off, repeat
mode 'all', the stored index at 0, no current track and the remote player not
ready, the one call of `nextTrack` is the call `playTrack(tracks[0], 0)`, and after
it `currentTrack` is still `null` and not `tracks[0]`: `playTrack` returns at lines
1042-1045, before the assignment of lines 1047-1048. -/
theorem nextTrack_repeat_all_not_stored_unready :
    singleRemoteState.currentPlaylist = some singleRemoteQueue ∧
    singleRemoteQueue.tracks.length = 1 ∧
    singleRemoteState.isShuffled = false ∧
    singleRemoteState.repeatMode = RepeatMode.all ∧
    singleRemoteState.currentTrackIndex = 0 ∧
    nextTrackCalls singleRemoteState [[]] =
      some (playTrack singleRemoteState singleRemoteQueue.tracks[0]? 0) ∧
    (nextTrackCalls singleRemoteState [[]]).map (fun s => s.currentTrack) = some none ∧
    (nextTrackCalls singleRemoteState [[]]).map (fun s => s.currentTrack)
      ≠ some singleRemoteQueue.tracks[0]? :=
  ⟨rfl, rfl, rfl, rfl, rfl, rfl, rfl, by decide⟩

/-- The cycle of repeat mode 'all' where the early return of `playTrack` is not
taken: with shuffle off, repeat mode 'all', the stored index at 0 and the remote
player ready, or every track of the queue local, `L` calls of `nextTrack` on a
queue of length `L ≥ 1` end with the stored index 0 and `currentTrack = tracks[0]`,
and each of the `L` calls is a call of `playTrack` (call `j + 1` plays index
`(j + 1) mod L`), none halts. -/
theorem nextTrack_repeat_all_cycle (s : State) (pl : Playlist)
    (calls : List (List Unit01))
    (hpl : s.currentPlaylist = some pl) (hshuffle : s.isShuffled = false)
    (hrepeat : s.repeatMode = RepeatMode.all) (hindex : s.currentTrackIndex = 0)
    (hplayable : s.playerReady = true ∨ ∀ t ∈ pl.tracks, t.isLocal = true)
    (hL : 1 ≤ pl.tracks.length) (hcalls : calls.length = pl.tracks.length) :
    (∃ final t0, nextTrackCalls s calls = some final ∧ pl.tracks[0]? = some t0 ∧
      final.currentTrackIndex = 0 ∧ final.currentTrack = some t0) ∧
    (∀ j random, calls[j]? = some random →
      ∃ prev t, nextTrackCalls s (calls.take j) = some prev ∧
        pl.tracks[(j + 1) % pl.tracks.length]? = some t ∧
        nextTrack prev random
          = some (playTrack prev (some t) ((j + 1) % pl.tracks.length))) := by
  have hseq : Sequential pl s := ⟨hpl, hshuffle, hplayable⟩
  have hget0 : pl.tracks[0]? = some (pl.tracks[0]) := List.getElem?_eq_getElem (by omega)
  -- the state before call `j + 1`
  have before : ∀ j, j < pl.tracks.length →
      ∃ prev, nextTrackCalls s (calls.take j) = some prev ∧ Sequential pl prev ∧
        prev.repeatMode = RepeatMode.all ∧ prev.currentTrackIndex = j := by
    intro j hj
    obtain ⟨prev, h1, h2, h3, h4⟩ := nextTrackCalls_sequential pl (calls.take j) s hseq
      (by rw [hindex, List.length_take]; omega)
    refine ⟨prev, h1, h2, by rw [h3, hrepeat], ?_⟩
    rw [h4, hindex, List.length_take]; omega
  -- what call `j + 1` does
  have call : ∀ j random, j < pl.tracks.length →
      ∃ prev t, nextTrackCalls s (calls.take j) = some prev ∧
        pl.tracks[(j + 1) % pl.tracks.length]? = some t ∧
        nextTrack prev random
          = some (playTrack prev (some t) ((j + 1) % pl.tracks.length)) ∧
        (playTrack prev (some t) ((j + 1) % pl.tracks.length)).currentTrackIndex
          = (j + 1) % pl.tracks.length ∧
        (playTrack prev (some t) ((j + 1) % pl.tracks.length)).currentTrack = some t := by
    intro j random hj
    obtain ⟨prev, h1, h2, h3, h4⟩ := before j hj
    by_cases hlast : j + 1 = pl.tracks.length
    · have hmod : (j + 1) % pl.tracks.length = 0 := by rw [hlast]; exact Nat.mod_self _
      rw [hmod]
      have hw := nextTrack_wraps prev pl random h2.1 h2.2.1 h3 (by rw [h4]; exact hlast)
      rw [hget0] at hw
      have hst := sequential_playTrack prev pl (pl.tracks[0]) 0 h2 (List.getElem_mem _)
      exact ⟨prev, pl.tracks[0], h1, hget0, hw, hst.2.2.1, hst.2.2.2⟩
    · have hlt : j + 1 < pl.tracks.length := by omega
      have hmod : (j + 1) % pl.tracks.length = j + 1 := Nat.mod_eq_of_lt hlt
      rw [hmod]
      obtain ⟨t, ht, hnext, _, _, hidx, htrack⟩ :=
        sequential_step prev pl random h2 (by rw [h4]; exact hlt)
      rw [h4] at ht hnext hidx htrack
      exact ⟨prev, t, h1, ht, hnext, hidx, htrack⟩
  constructor
  · -- the last call
    have hlen : pl.tracks.length - 1 < calls.length := by omega
    obtain ⟨prev, t, h1, ht, hnext, hidx, htrack⟩ :=
      call (pl.tracks.length - 1) (calls[pl.tracks.length - 1]) (by omega)
    have hmod : (pl.tracks.length - 1 + 1) % pl.tracks.length = 0 := by
      rw [Nat.sub_add_cancel hL]; exact Nat.mod_self _
    rw [hmod] at ht hnext hidx htrack
    rw [hget0] at ht
    refine ⟨playTrack prev (some t) 0, pl.tracks[0], ?_, hget0, hidx, ?_⟩
    · have hsplit : calls = calls.take (pl.tracks.length - 1)
          ++ [calls[pl.tracks.length - 1]] := by
        have h := List.take_append_drop (pl.tracks.length - 1) calls
        rw [List.drop_eq_getElem_cons hlen] at h
        have hd : List.drop (pl.tracks.length - 1 + 1) calls = [] := by
          apply List.drop_eq_nil_of_le; omega
        rw [hd] at h
        exact h.symm
      rw [hsplit, nextTrackCalls_append, h1]
      simp [nextTrackCalls, hnext]
    · rw [htrack]; exact congrArg some (Option.some.inj ht).symm
  · intro j random hj
    have hjlt : j < calls.length := by
      by_contra hge
      rw [List.getElem?_eq_none (by omega)] at hj
      cases hj
    obtain ⟨prev, t, h1, ht, hnext, _, _⟩ := call j random (by omega)
    exact ⟨prev, t, h1, ht, hnext⟩

/-- The cycle at the queue of three local tracks with repeat mode 'all': three
calls of `nextTrack` come back to index 0 and `tracks[0]`. -/
theorem nextTrack_repeat_all_cycle_witness :
    (toggleRepeat localQueueState).repeatMode = RepeatMode.all ∧
    ∃ final t0, nextTrackCalls (toggleRepeat localQueueState) [[], [], []] = some final ∧
      localQueue.tracks[0]? = some t0 ∧
      final.currentTrackIndex = 0 ∧ final.currentTrack = some t0 :=
  ⟨by decide,
    (nextTrack_repeat_all_cycle (toggleRepeat localQueueState) localQueue [[], [], []]
      (by decide) (by decide) (by decide) (by decide) (Or.inr (by decide)) (by decide)
      (by decide)).1⟩


/-! ## C4 -/

theorem floorMul_lt (r : Unit01) (length : Nat) (h : 0 < length) :
    r.floorMul length < length := by
  unfold Unit01.floorMul
  have hden : 0 < r.den := Nat.lt_of_le_of_lt (Nat.zero_le _) r.lt
  apply Nat.div_lt_of_lt_mul
  exact Nat.mul_lt_mul_of_pos_right r.lt h

theorem shuffleIndex_spec (current length : Nat) (h : 0 < length) (random : List Unit01) :
    ∀ i, shuffleIndex current length random = some i →
      i < length ∧ (1 < length → i ≠ current) := by
  induction random with
  | nil => intro i hi; simp [shuffleIndex] at hi
  | cons r rest ih =>
    intro i hi
    simp only [shuffleIndex] at hi
    split at hi
    · exact ih i hi
    · rename_i hne
      cases hi
      refine ⟨floorMul_lt r length h, ?_⟩
      intro h1 heq
      exact hne ⟨heq, h1⟩

theorem shuffleIndex_ends (current length : Nat) (random : List Unit01) :
    (∃ r ∈ random, r.floorMul length ≠ current ∨ length ≤ 1) →
      (shuffleIndex current length random).isSome = true := by
  induction random with
  | nil => intro h; obtain ⟨r, hr, _⟩ := h; cases hr
  | cons r rest ih =>
    intro h
    simp only [shuffleIndex]
    split
    · rename_i heq
      apply ih
      obtain ⟨r1, hr1, hne⟩ := h
      rcases List.mem_cons.mp hr1 with rfl | hin
      · exfalso
        rcases hne with hne | hle
        · exact hne heq.1
        · omega
      · exact ⟨r1, hin, hne⟩
    · rfl

/-- C4: with shuffle on and a queue of length `L ≥ 1`, for every stored index and
every list of values returned by `Math.random()`: `nextTrack` is the call of
`playTrack` at the index the loop leaves; that index is below `L` (so its track
exists), differs from the stored index when `L > 1`, and is 0 when `L = 1`, where
the first value already ends the loop; and the loop ends as soon as a value gives
an index other than the stored one. -/
theorem nextTrack_shuffle_index (s : State) (pl : Playlist) (random : List Unit01)
    (hpl : s.currentPlaylist = some pl) (hshuffle : s.isShuffled = true)
    (hL : 1 ≤ pl.tracks.length) :
    nextTrack s random =
      (shuffleIndex s.currentTrackIndex pl.tracks.length random).map
        (fun i => playTrack s pl.tracks[i]? i) ∧
    (∀ i, shuffleIndex s.currentTrackIndex pl.tracks.length random = some i →
      i < pl.tracks.length ∧ (∃ t, pl.tracks[i]? = some t) ∧
      (1 < pl.tracks.length → i ≠ s.currentTrackIndex) ∧
      (pl.tracks.length = 1 → i = 0)) ∧
    (pl.tracks.length = 1 → ∀ r rest,
      shuffleIndex s.currentTrackIndex pl.tracks.length (r :: rest) = some 0) ∧
    ((∃ r ∈ random, r.floorMul pl.tracks.length ≠ s.currentTrackIndex) →
      ∃ s1, nextTrack s random = some s1) := by
  have h0 : pl.tracks.length ≠ 0 := by omega
  have hnext : nextTrack s random =
      (shuffleIndex s.currentTrackIndex pl.tracks.length random).map
        (fun i => playTrack s pl.tracks[i]? i) := by
    simp [nextTrack, hpl, hshuffle, h0]
  refine ⟨hnext, ?_, ?_, ?_⟩
  · intro i hi
    obtain ⟨h1, h2⟩ := shuffleIndex_spec s.currentTrackIndex pl.tracks.length (by omega) random i hi
    exact ⟨h1, ⟨pl.tracks[i], List.getElem?_eq_getElem h1⟩, h2, by intro h; omega⟩
  · intro h1 r rest
    have hr := floorMul_lt r pl.tracks.length (by omega)
    have hz : r.floorMul pl.tracks.length = 0 := by omega
    simp [shuffleIndex, h1] at hz ⊢
    exact hz
  · intro h
    obtain ⟨r, hr, hne⟩ := h
    have hsome := shuffleIndex_ends s.currentTrackIndex pl.tracks.length random
      ⟨r, hr, Or.inl hne⟩
    rw [hnext]
    cases hsh : shuffleIndex s.currentTrackIndex pl.tracks.length random with
    | none => rw [hsh] at hsome; cases hsome
    | some i => exact ⟨_, rfl⟩

/-- C4 at the queue of three local tracks with shuffle on and the stored index 0:
`Math.random()` returns 0 (index 0, rejected), then 1/2 (index 1, played). -/
theorem nextTrack_shuffle_index_witness :
    nextTrack (toggleShuffle localQueueState) [randomZero, randomHalf] =
      some (playTrack (toggleShuffle localQueueState) localQueue.tracks[1]? 1) :=
  (nextTrack_shuffle_index (toggleShuffle localQueueState) localQueue
    [randomZero, randomHalf] (by decide) (by decide) (by decide)).1

/-! ## C5 -/

theorem cleanupLocalPlayer_mode (s : State) (m : RepeatMode) (b : Bool) :
    cleanupLocalPlayer { s with repeatMode := m, isShuffled := b } =
      { cleanupLocalPlayer s with repeatMode := m, isShuffled := b } := by
  unfold cleanupLocalPlayer
  cases h1 : s.localPlayer <;> cases h2 : s.currentLocalFileUrl <;>
    simp [State.log, State.updateElement, State.revokeObjectURL, h1, h2]

theorem stopAllPlayers_mode (s : State) (m : RepeatMode) (b : Bool) :
    stopAllPlayers { s with repeatMode := m, isShuffled := b } =
      { stopAllPlayers s with repeatMode := m, isShuffled := b } := by
  unfold stopAllPlayers cleanupLocalPlayer
  cases h1 : s.localPlayer <;> cases h2 : s.currentLocalFileUrl <;> cases h3 : s.remote <;>
    simp [State.log, State.updateElement, State.revokeObjectURL, State.player,
      State.playerReady, h1, h2, h3]

theorem playTrack_mode (s : State) (track : Option Track) (index : Nat)
    (m : RepeatMode) (b : Bool) :
    playTrack { s with repeatMode := m, isShuffled := b } track index =
      { playTrack s track index with repeatMode := m, isShuffled := b } := by
  unfold playTrack stopAllPlayers cleanupLocalPlayer
  cases track with
  | none =>
    cases h1 : s.localPlayer <;> cases h2 : s.currentLocalFileUrl <;>
      cases h3 : s.remote <;>
      simp [State.log, State.updateElement, State.revokeObjectURL, State.player,
        State.playerReady, h1, h2, h3]
  | some t =>
    cases h1 : s.localPlayer <;> cases h2 : s.currentLocalFileUrl <;>
      cases h3 : s.remote <;> cases h4 : t.isLocal <;>
      simp [State.log, State.updateElement, State.revokeObjectURL, State.player,
        State.playerReady, playLocalFile, initializePlayer, h1, h2, h3, h4]

theorem previousTrack_eq (s : State) (pl : Playlist)
    (hpl : s.currentPlaylist = some pl) (hne : pl.tracks.length ≠ 0) :
    previousTrack s =
      playTrack s
        pl.tracks[(if s.currentTrackIndex = 0 then pl.tracks.length - 1
          else s.currentTrackIndex - 1)]?
        (if s.currentTrackIndex = 0 then pl.tracks.length - 1 else s.currentTrackIndex - 1) := by
  by_cases hz : s.currentTrackIndex = 0
  · have h2 : ((pl.tracks.length : Int) - 1).toNat = pl.tracks.length - 1 := by omega
    simp [previousTrack, hpl, hne, hz, h2]
  · have h1 : ¬ ((s.currentTrackIndex : Int) - 1 < 0) := by omega
    have h2 : ((s.currentTrackIndex : Int) - 1).toNat = s.currentTrackIndex - 1 := by omega
    simp [previousTrack, hpl, hne, hz, h1, h2]

/-- C5: with a non-empty queue of length `L`, `previousTrack` is the call of
`playTrack` with index `i - 1` (and the entry `tracks[i - 1]`) when the stored index
`i` is positive, and with index `L - 1` and `tracks[L - 1]` when it is 0; and for
every repeat mode `m` and shuffle flag `b`, running it with these two fields set to
`m` and `b` gives the same state, up to these two fields. -/
theorem previousTrack_wraps (s : State) (pl : Playlist)
    (hpl : s.currentPlaylist = some pl) (hne : pl.tracks.length ≠ 0) :
    (0 < s.currentTrackIndex → previousTrack s =
      playTrack s pl.tracks[s.currentTrackIndex - 1]? (s.currentTrackIndex - 1)) ∧
    (s.currentTrackIndex = 0 → previousTrack s =
      playTrack s pl.tracks[pl.tracks.length - 1]? (pl.tracks.length - 1) ∧
      ∃ t, pl.tracks[pl.tracks.length - 1]? = some t) ∧
    (∀ (m : RepeatMode) (b : Bool),
      previousTrack { s with repeatMode := m, isShuffled := b } =
        { previousTrack s with repeatMode := m, isShuffled := b }) := by
  refine ⟨?_, ?_, ?_⟩
  · intro hpos
    have hz : s.currentTrackIndex ≠ 0 := by omega
    rw [previousTrack_eq s pl hpl hne]
    simp [hz]
  · intro hzero
    refine ⟨?_, pl.tracks[pl.tracks.length - 1], List.getElem?_eq_getElem (by omega)⟩
    rw [previousTrack_eq s pl hpl hne]
    simp [hzero]
  · intro m b
    rw [previousTrack_eq s pl hpl hne,
      previousTrack_eq { s with repeatMode := m, isShuffled := b } pl hpl hne]
    exact playTrack_mode s _ _ m b

/-- C5 at the queue of three local tracks with the stored index 0: `previousTrack`
plays index 2. -/
theorem previousTrack_wraps_witness :
    localQueueState.currentTrackIndex = 0 ∧
    previousTrack localQueueState = playTrack localQueueState localQueue.tracks[2]? 2 :=
  ⟨by decide,
    ((previousTrack_wraps localQueueState localQueue (by decide) (by decide)).2.1
      (by decide)).1⟩


/-! ## C6 -/

/-- C6: when 'ended' arrives in repeat mode 'one' the track is replayed in place.
Remote (`ENDED` from the existing player): the state is unchanged and the only
command sent is `playVideo`.  Local ('ended' while `localPlayer` is the element
`el`): track, index, play flag, `localPlayer`, the remote player, the pending
lookups and the URL counter are unchanged, no element is added, the element `el`
gets `currentTime = 0` and is played, and the only outgoing calls are the console
line of the listener and the release of the URL handle: no line of `playTrack` or
`stopAllPlayers`, no `createObjectURL`, no `loadVideoById`. -/
theorem ended_repeat_one_replays (s : State) (random : List Unit01)
    (hrepeat : s.repeatMode = RepeatMode.one) :
    (s.player = true →
      onPlayerStateChange s PlayerState.ended random =
        some { s with trace := s.trace ++
          [Effect.console "Estado de YouTube Player cambiado:", Effect.playVideo] }) ∧
    (∀ el, s.localPlayer = some el →
      ∃ s1 added, localPlayerEnded s random = some s1 ∧
        s1.currentTrack = s.currentTrack ∧ s1.currentTrackIndex = s.currentTrackIndex ∧
        s1.isPlaying = s.isPlaying ∧ s1.localPlayer = some el ∧ s1.remote = s.remote ∧
        s1.pendingLookups = s.pendingLookups ∧ s1.nextUrl = s.nextUrl ∧
        s1.elements.length = s.elements.length ∧
        s1.elements =
          s.elements.modify (fun e => { e with currentTime := 0, paused := false }) el ∧
        s1.trace = s.trace ++ added ∧
        ∀ e ∈ added, e = Effect.console "Archivo local terminado" ∨
          ∃ url, e = Effect.revokeObjectURL url) := by
  constructor
  · intro hp
    simp [onPlayerStateChange, State.log, hrepeat, State.player] at hp ⊢
    simp [State.player, hp]
  · intro el hel
    cases hurl : s.currentLocalFileUrl with
    | none =>
      refine ⟨(s.log (Effect.console "Archivo local terminado")).updateElement el
        (fun e => { e with currentTime := 0, paused := false }),
        [Effect.console "Archivo local terminado"], ?_⟩
      simp [localPlayerEnded, State.log, State.updateElement, hrepeat, hel, hurl]
    | some url =>
      refine ⟨State.updateElement
        { (s.log (Effect.console "Archivo local terminado")).revokeObjectURL url with
          currentLocalFileUrl := none } el
        (fun e => { e with currentTime := 0, paused := false }),
        [Effect.console "Archivo local terminado", Effect.revokeObjectURL url], ?_⟩
      simp [localPlayerEnded, State.log, State.updateElement, State.revokeObjectURL,
        hrepeat, hel, hurl]

/-- C6 at two states in repeat mode 'one': the remote player ready, and the local
backend armed with element 0. -/
theorem ended_repeat_one_replays_witness :
    (onPlayerStateChange readyRepeatOneState PlayerState.ended [] =
      some { readyRepeatOneState with trace := readyRepeatOneState.trace ++
        [Effect.console "Estado de YouTube Player cambiado:", Effect.playVideo] }) ∧
    (∃ s1 added, localPlayerEnded armedRepeatOneState [] = some s1 ∧
        s1.currentTrack = armedRepeatOneState.currentTrack ∧
        s1.currentTrackIndex = armedRepeatOneState.currentTrackIndex ∧
        s1.isPlaying = armedRepeatOneState.isPlaying ∧ s1.localPlayer = some 0 ∧
        s1.remote = armedRepeatOneState.remote ∧
        s1.pendingLookups = armedRepeatOneState.pendingLookups ∧
        s1.nextUrl = armedRepeatOneState.nextUrl ∧
        s1.elements.length = armedRepeatOneState.elements.length ∧
        s1.elements = armedRepeatOneState.elements.modify
          (fun e => { e with currentTime := 0, paused := false }) 0 ∧
        s1.trace = armedRepeatOneState.trace ++ added ∧
        ∀ e ∈ added, e = Effect.console "Archivo local terminado" ∨
          ∃ url, e = Effect.revokeObjectURL url) :=
  ⟨(ended_repeat_one_replays readyRepeatOneState [] (by decide)).1 (by decide),
    (ended_repeat_one_replays armedRepeatOneState [] (by decide)).2 0 (by decide)⟩


/-! ## C7 -/

theorem playTrack_forgetUrls (s : State) (track : Option Track) (index : Nat) :
    (playTrack s track index).forgetUrls = (playTrack s.forgetUrls track index).forgetUrls := by
  unfold playTrack stopAllPlayers cleanupLocalPlayer
  cases track with
  | none =>
    cases h1 : s.localPlayer <;> cases h2 : s.currentLocalFileUrl <;>
      cases h3 : s.remote <;>
      simp [State.log, State.updateElement, State.revokeObjectURL, State.player,
        State.playerReady, State.forgetUrls, h1, h2, h3]
  | some t =>
    cases h1 : s.localPlayer <;> cases h2 : s.currentLocalFileUrl <;>
      cases h3 : s.remote <;> cases h4 : t.isLocal <;>
      simp [State.log, State.updateElement, State.revokeObjectURL, State.player,
        State.playerReady, State.forgetUrls, playLocalFile, initializePlayer, h1, h2, h3, h4]

theorem playTrack_forgetTrace (s : State) (e : Effect) (track : Option Track) (index : Nat) :
    (playTrack (s.log e) track index).forgetTrace = (playTrack s track index).forgetTrace := by
  unfold playTrack stopAllPlayers cleanupLocalPlayer
  cases track with
  | none =>
    cases h1 : s.localPlayer <;> cases h2 : s.currentLocalFileUrl <;>
      cases h3 : s.remote <;>
      simp [State.log, State.updateElement, State.revokeObjectURL, State.player,
        State.playerReady, State.forgetTrace, h1, h2, h3]
  | some t =>
    cases h1 : s.localPlayer <;> cases h2 : s.currentLocalFileUrl <;>
      cases h3 : s.remote <;> cases h4 : t.isLocal <;>
      simp [State.log, State.updateElement, State.revokeObjectURL, State.player,
        State.playerReady, State.forgetTrace, playLocalFile, initializePlayer, h1, h2, h3, h4]

theorem nextTrack_forgetTrace (s : State) (e : Effect) (random : List Unit01) :
    (nextTrack (s.log e) random).map State.forgetTrace =
      (nextTrack s random).map State.forgetTrace := by
  unfold nextTrack
  have hp : (s.log e).currentPlaylist = s.currentPlaylist := rfl
  have hi : (s.log e).currentTrackIndex = s.currentTrackIndex := rfl
  have hs : (s.log e).isShuffled = s.isShuffled := rfl
  have hr : (s.log e).repeatMode = s.repeatMode := rfl
  rw [hp, hi, hs, hr]
  cases s.currentPlaylist with
  | none => rfl
  | some pl =>
    simp only
    split
    · rfl
    · split
      · cases shuffleIndex s.currentTrackIndex pl.tracks.length random with
        | none => rfl
        | some i => simp [playTrack_forgetTrace]
      · split
        · split
          · simp [playTrack_forgetTrace]
          · rfl
        · simp [playTrack_forgetTrace]

theorem nextTrack_forgetUrls (s s1 : State) (random : List Unit01)
    (h : s1.forgetUrls = s.forgetUrls) :
    (nextTrack s1 random).map State.forgetUrls =
      (nextTrack s random).map State.forgetUrls := by
  have hp : s1.currentPlaylist = s.currentPlaylist := by
    have h1 := congrArg State.currentPlaylist h; exact h1
  have hi : s1.currentTrackIndex = s.currentTrackIndex := by
    have h1 := congrArg State.currentTrackIndex h; exact h1
  have hs : s1.isShuffled = s.isShuffled := by
    have h1 := congrArg State.isShuffled h; exact h1
  have hr : s1.repeatMode = s.repeatMode := by
    have h1 := congrArg State.repeatMode h; exact h1
  have hplay : ∀ track index,
      (playTrack s1 track index).forgetUrls = (playTrack s track index).forgetUrls := by
    intro track index
    rw [playTrack_forgetUrls s1, playTrack_forgetUrls s, h]
  unfold nextTrack
  rw [hp, hi, hs, hr]
  cases s.currentPlaylist with
  | none => simpa using h
  | some pl =>
    simp only
    split
    · simpa using h
    · split
      · cases shuffleIndex s.currentTrackIndex pl.tracks.length random with
        | none => rfl
        | some i => simp [hplay]
      · split
        · split
          · simp [hplay]
          · have hfields := h
            simp only [State.forgetUrls, State.mk.injEq] at hfields
            simp [State.forgetUrls, hfields]
        · simp [hplay]

theorem playTrack_url (s : State) (track : Option Track) (index : Nat) :
    (playTrack s track index).currentLocalFileUrl = s.currentLocalFileUrl ∨
    (playTrack s track index).currentLocalFileUrl = none := by
  unfold playTrack stopAllPlayers cleanupLocalPlayer
  cases track with
  | none =>
    cases h1 : s.localPlayer <;> cases h2 : s.currentLocalFileUrl <;>
      cases h3 : s.remote <;>
      simp [State.log, State.updateElement, State.revokeObjectURL, State.player,
        State.playerReady, h1, h2, h3]
  | some t =>
    cases h1 : s.localPlayer <;> cases h2 : s.currentLocalFileUrl <;>
      cases h3 : s.remote <;> cases h4 : t.isLocal <;>
      simp [State.log, State.updateElement, State.revokeObjectURL, State.player,
        State.playerReady, playLocalFile, initializePlayer, h1, h2, h3, h4]

theorem nextTrack_url (s s1 : State) (random : List Unit01) (h : nextTrack s random = some s1) :
    s1.currentLocalFileUrl = s.currentLocalFileUrl ∨ s1.currentLocalFileUrl = none := by
  unfold nextTrack at h
  cases hp : s.currentPlaylist with
  | none => rw [hp] at h; cases h; exact Or.inl rfl
  | some pl =>
    rw [hp] at h
    simp only at h
    split at h
    · cases h; exact Or.inl rfl
    · split at h
      · cases hsh : shuffleIndex s.currentTrackIndex pl.tracks.length random with
        | none => rw [hsh] at h; cases h
        | some i => rw [hsh] at h; cases h; exact playTrack_url s _ _
      · split at h
        · split at h
          · cases h; exact playTrack_url s _ _
          · cases h; exact Or.inl rfl
        · cases h; exact playTrack_url s _ _

/-- C7 (as stated, refuted): with the local backend armed on the last track of the
queue, shuffle off and repeat mode 'none', the local 'ended' listener leaves
`currentLocalFileUrl` null (it releases the handle before it calls `nextTrack`),
while `nextTrack()` called in the same state halts and leaves the handle 0 in
place. -/
theorem ended_differs_from_nextTrack_on_url :
    armedLastState.repeatMode ≠ RepeatMode.one ∧
    armedLastState.currentLocalFileUrl = some 0 ∧
    (localPlayerEnded armedLastState []).map (fun s => s.currentLocalFileUrl) = some none ∧
    (nextTrack armedLastState []).map (fun s => s.currentLocalFileUrl) = some (some 0) ∧
    (localPlayerEnded armedLastState []).map (fun s => s.currentLocalFileUrl) ≠
      (nextTrack armedLastState []).map (fun s => s.currentLocalFileUrl) := by
  decide

/-- C7 (amended): in a repeat mode other than 'one', the remote `ENDED` event leaves
the engine in the state `nextTrack()` would, up to the record of outgoing calls
(the handler logs one more console line); the local 'ended' listener leaves it in
the state `nextTrack()` would, up to that record and the URL handle: track, index,
play flag, local player, media elements, remote player and pending lookups are the
same, and `currentLocalFileUrl` is always null afterwards, where `nextTrack()`
leaves it null or untouched. -/
theorem ended_behaves_like_nextTrack (s : State) (random : List Unit01)
    (hrepeat : s.repeatMode ≠ RepeatMode.one) :
    (onPlayerStateChange s PlayerState.ended random).map State.forgetTrace =
      (nextTrack s random).map State.forgetTrace ∧
    (localPlayerEnded s random).map State.forgetUrls =
      (nextTrack s random).map State.forgetUrls ∧
    (∀ s1, localPlayerEnded s random = some s1 → s1.currentLocalFileUrl = none) ∧
    (∀ s1, nextTrack s random = some s1 →
      s1.currentLocalFileUrl = s.currentLocalFileUrl ∨ s1.currentLocalFileUrl = none) := by
  refine ⟨?_, ?_, ?_, fun s1 h => nextTrack_url s s1 random h⟩
  · have h : onPlayerStateChange s PlayerState.ended random =
        nextTrack (s.log (Effect.console "Estado de YouTube Player cambiado:")) random := by
      simp [onPlayerStateChange, State.log, hrepeat]
    rw [h, nextTrack_forgetTrace]
  · cases hurl : s.currentLocalFileUrl with
    | none =>
      have h : localPlayerEnded s random =
          nextTrack (s.log (Effect.console "Archivo local terminado")) random := by
        simp [localPlayerEnded, State.log, hrepeat, hurl]
      rw [h]
      exact nextTrack_forgetUrls s _ random rfl
    | some url =>
      have h : localPlayerEnded s random =
          nextTrack { (s.log (Effect.console "Archivo local terminado")).revokeObjectURL url
            with currentLocalFileUrl := none } random := by
        simp [localPlayerEnded, State.log, State.revokeObjectURL, hrepeat, hurl]
      rw [h]
      exact nextTrack_forgetUrls s _ random rfl
  · intro s1 h1
    cases hurl : s.currentLocalFileUrl with
    | none =>
      have h : localPlayerEnded s random =
          nextTrack (s.log (Effect.console "Archivo local terminado")) random := by
        simp [localPlayerEnded, State.log, hrepeat, hurl]
      rw [h] at h1
      rcases nextTrack_url _ s1 random h1 with h2 | h2
      · rw [h2]; exact hurl
      · exact h2
    | some url =>
      have h : localPlayerEnded s random =
          nextTrack { (s.log (Effect.console "Archivo local terminado")).revokeObjectURL url
            with currentLocalFileUrl := none } random := by
        simp [localPlayerEnded, State.log, State.revokeObjectURL, hrepeat, hurl]
      rw [h] at h1
      rcases nextTrack_url _ s1 random h1 with h2 | h2
      · rw [h2]
      · exact h2

/-- C7 (amended) at the armed local backend on the last track, repeat mode
'none'. -/
theorem ended_behaves_like_nextTrack_witness :
    (localPlayerEnded armedLastState []).map State.forgetUrls =
      (nextTrack armedLastState []).map State.forgetUrls :=
  (ended_behaves_like_nextTrack armedLastState [] (by decide)).2.1


/-! ## C8 -/

theorem stopAllPlayers_local (s : State)
    (h : s.localPlayer = none → s.currentLocalFileUrl = none) :
    (stopAllPlayers s).localPlayer = none ∧ (stopAllPlayers s).currentLocalFileUrl = none := by
  unfold stopAllPlayers cleanupLocalPlayer
  cases h1 : s.localPlayer <;> cases h2 : s.currentLocalFileUrl <;> cases h3 : s.remote <;>
    simp_all [State.log, State.updateElement, State.revokeObjectURL, State.player,
      State.playerReady]

theorem cleanupLocalPlayer_local (s : State)
    (h : s.localPlayer = none → s.currentLocalFileUrl = none) :
    (cleanupLocalPlayer s).localPlayer = none ∧
    (cleanupLocalPlayer s).currentLocalFileUrl = none := by
  unfold cleanupLocalPlayer
  cases h1 : s.localPlayer <;> cases h2 : s.currentLocalFileUrl <;>
    simp_all [State.log, State.updateElement, State.revokeObjectURL]

theorem playTrack_local (s : State) (track : Option Track) (index : Nat)
    (h : s.localPlayer = none → s.currentLocalFileUrl = none) :
    (playTrack s track index).localPlayer = none →
      (playTrack s track index).currentLocalFileUrl = none := by
  unfold playTrack
  cases track with
  | none =>
    cases h3 : s.remote
    · simpa [State.log, State.playerReady, h3] using h
    · simpa [State.log, State.playerReady, h3] using h
    · have hs := stopAllPlayers_local
        { s.log (Effect.console "Reproduciendo track:") with
          currentTrack := none, currentTrackIndex := index } h
      simp [State.log, State.playerReady, h3] at hs ⊢
      intro _; exact hs.2
  | some t =>
    have hs := stopAllPlayers_local
        { s.log (Effect.console "Reproduciendo track:") with
          currentTrack := some t, currentTrackIndex := index } h
    have hf := stopAllPlayers_frame
        { s.log (Effect.console "Reproduciendo track:") with
          currentTrack := some t, currentTrackIndex := index }
    cases h3 : s.remote <;> cases h4 : t.isLocal <;>
      simp_all [State.log, State.playerReady, State.player, playLocalFile, initializePlayer]

theorem nextTrack_local (s s1 : State) (random : List Unit01)
    (h : s.localPlayer = none → s.currentLocalFileUrl = none)
    (hnext : nextTrack s random = some s1) :
    s1.localPlayer = none → s1.currentLocalFileUrl = none := by
  unfold nextTrack at hnext
  cases hp : s.currentPlaylist with
  | none => rw [hp] at hnext; cases hnext; exact h
  | some pl =>
    rw [hp] at hnext
    simp only at hnext
    split at hnext
    · cases hnext; exact h
    · split at hnext
      · cases hsh : shuffleIndex s.currentTrackIndex pl.tracks.length random with
        | none => rw [hsh] at hnext; cases hnext
        | some i => rw [hsh] at hnext; cases hnext; exact playTrack_local s _ _ h
      · split at hnext
        · split at hnext
          · cases hnext; exact playTrack_local s _ _ h
          · cases hnext; exact h
        · cases hnext; exact playTrack_local s _ _ h

theorem previousTrack_local (s : State)
    (h : s.localPlayer = none → s.currentLocalFileUrl = none) :
    (previousTrack s).localPlayer = none → (previousTrack s).currentLocalFileUrl = none := by
  unfold previousTrack
  cases hp : s.currentPlaylist with
  | none => exact h
  | some pl =>
    simp only
    split
    · exact h
    · exact playTrack_local s _ _ h

theorem playLocalFileResume_local (s : State) (k : Nat) (file : Option Nat)
    (h : s.localPlayer = none → s.currentLocalFileUrl = none) :
    (playLocalFileResume s k file).localPlayer = none →
      (playLocalFileResume s k file).currentLocalFileUrl = none := by
  unfold playLocalFileResume
  cases hk : s.pendingLookups[k]? with
  | none => exact h
  | some track =>
    cases file with
    | none => simpa [State.log] using h
    | some f => simp

theorem step_local (s s1 : State) (i : Input)
    (h : s.localPlayer = none → s.currentLocalFileUrl = none)
    (hstep : step s i = some s1) :
    s1.localPlayer = none → s1.currentLocalFileUrl = none := by
  cases i with
  | playTrack track index => cases hstep; exact playTrack_local s _ _ h
  | stopAllPlayers => cases hstep; intro _; exact (stopAllPlayers_local s h).2
  | nextTrack random => exact nextTrack_local s s1 random h hstep
  | previousTrack => cases hstep; exact previousTrack_local s h
  | toggleShuffle => cases hstep; exact h
  | toggleRepeat => cases hstep; exact h
  | loadPlaylistView playlistId =>
    cases hstep
    unfold loadPlaylistView
    split
    · exact h
    · exact h
  | initializePlayer => cases hstep; exact h
  | playerReady =>
    cases hstep
    unfold onPlayerReady
    split
    · exact h
    · exact h
  | playerStateChange data random =>
    simp only [step, onPlayerStateChange] at hstep
    cases data with
    | ended =>
      simp only at hstep
      split at hstep
      · split at hstep
        · cases hstep; exact h
        · cases hstep; exact h
      · exact nextTrack_local (s.log (Effect.console "Estado de YouTube Player cambiado:"))
          s1 random h hstep
    | playing =>
      simp only at hstep
      split at hstep
      · cases hstep
        intro _
        exact (cleanupLocalPlayer_local
          { s.log (Effect.console "Estado de YouTube Player cambiado:") with
            isPlaying := true } h).2
      · cases hstep; exact h
    | paused => cases hstep; exact h
    | buffering => cases hstep; exact h
    | unstarted => cases hstep; exact h
    | cued => cases hstep; exact h
  | fileLookupDone k file => cases hstep; exact playLocalFileResume_local s k file h
  | localCanplay =>
    cases hstep
    unfold localPlayerCanplay
    cases hl : s.localPlayer with
    | none => simpa [State.log, hl] using h
    | some el => simp [State.log, State.updateElement, hl]
  | localPlayRejected => cases hstep; exact h
  | localEnded random =>
    simp only [step, localPlayerEnded] at hstep
    have hrev : ∀ s2 : State, s2 = (match
        (s.log (Effect.console "Archivo local terminado")).currentLocalFileUrl with
        | some url =>
          { (s.log (Effect.console "Archivo local terminado")).revokeObjectURL url with
            currentLocalFileUrl := none }
        | none => s.log (Effect.console "Archivo local terminado")) →
        s2.currentLocalFileUrl = none := by
      intro s2 hs2
      cases hurl : s.currentLocalFileUrl <;> simp [State.log, hurl] at hs2 <;> simp [hs2, hurl]
    generalize hgen : (match
        (s.log (Effect.console "Archivo local terminado")).currentLocalFileUrl with
        | some url =>
          { (s.log (Effect.console "Archivo local terminado")).revokeObjectURL url with
            currentLocalFileUrl := none }
        | none => s.log (Effect.console "Archivo local terminado")) = s2 at hstep
    have h2 := hrev s2 hgen.symm
    split at hstep
    · split at hstep
      · cases hstep; intro _; exact h2
      · cases hstep; intro _; exact h2
    · exact nextTrack_local s2 s1 random (fun _ => h2) hstep
  | localPlay => cases hstep; exact h
  | localPause => cases hstep; exact h
  | localError =>
    cases hstep
    intro _
    unfold localPlayerError
    cases hurl : s.currentLocalFileUrl <;> simp [State.log, State.revokeObjectURL, hurl]


theorem reachable_run (inputs : List Input) :
    ∀ s s1 : State, Reachable s → run s inputs = some s1 → Reachable s1 := by
  induction inputs with
  | nil => intro s s1 hs h; cases h; exact hs
  | cons i rest ih =>
    intro s s1 hs h
    simp only [run] at h
    cases hstep : step s i with
    | none => rw [hstep] at h; cases h
    | some s2 =>
      rw [hstep] at h
      exact ih s2 s1 (Reachable.step i hs hstep) h

/-- C8 (as stated, refuted): the state reached from the constructor state by
`loadPlaylistView`, `playTrack` of a local track, the completion of its file lookup
and the element's 'error' event has `localPlayer` set (element 0) and
`currentLocalFileUrl` null: the 'error' listener releases the handle and keeps the
element. -/
theorem local_player_armed_without_handle :
    run (State.initial [localQueue] false) afterErrorInputs = some afterErrorState ∧
    Reachable afterErrorState ∧
    afterErrorState.localPlayer = some 0 ∧
    afterErrorState.currentLocalFileUrl = none ∧
    ¬ (afterErrorState.currentLocalFileUrl ≠ none ↔ afterErrorState.localPlayer ≠ none) :=
  ⟨rfl, reachable_run afterErrorInputs _ _ (Reachable.initial [localQueue] false) rfl,
    by decide, by decide, by decide⟩

/-- C8 (amended): in every state reachable from the constructor state by the calls
and events of `Input`, the URL handle exists only while the local backend is armed:
if `currentLocalFileUrl` is non-null then `localPlayer` is non-null. -/
theorem url_handle_only_while_armed (s : State) (h : Reachable s) :
    s.currentLocalFileUrl ≠ none → s.localPlayer ≠ none := by
  have key : s.localPlayer = none → s.currentLocalFileUrl = none := by
    induction h with
    | initial playlists ytApiLoaded => intro _; rfl
    | step i _ hstep ih => exact step_local _ _ i ih hstep
  intro hurl hplayer
  exact hurl (key hplayer)

/-- C8 (amended) at the armed local backend: the handle 0 exists and element 0 is
the local player. -/
theorem url_handle_only_while_armed_witness :
    Reachable armedLastState ∧ armedLastState.currentLocalFileUrl = some 0 ∧
    armedLastState.localPlayer ≠ none :=
  have hr : Reachable armedLastState :=
    reachable_run [Input.loadPlaylistView "p2", Input.playTrack (localTrack "z") 2,
      Input.fileLookupDone 0 (some 0)] _ _ (Reachable.initial [localQueue] false) rfl
  ⟨hr, by decide, url_handle_only_while_armed armedLastState hr (by decide)⟩

/-! ## C9 -/

theorem armLocal_eq (s : State) (track : Track) (file : Nat) :
    armLocal s track file =
      { s with
        trace := s.trace ++ [Effect.console "Reproduciendo archivo local:",
          Effect.createObjectURL s.nextUrl],
        nextUrl := s.nextUrl + 1,
        liveUrls := s.liveUrls ++ [s.nextUrl],
        currentLocalFileUrl := some s.nextUrl,
        localPlayer := some s.elements.length,
        elements := s.elements ++
          [{ isAudio := track.fileType.startsWith "audio/", src := s.nextUrl,
             volume := s.volume, paused := true, currentTime := 0, inDom := true,
             track := track }] } := by
  have h1 : (s.pendingLookups ++ [track])[s.pendingLookups.length]? = some track :=
    List.getElem?_concat_length _ _
  have h2 : (s.pendingLookups ++ [track]).eraseIdx s.pendingLookups.length = s.pendingLookups := by
    rw [List.eraseIdx_append_of_length_le (Nat.le_refl _)]
    simp
  simp [armLocal, playLocalFile, playLocalFileResume, State.log, h1, h2]

theorem revoked_append (t1 t2 : List Effect) : revoked (t1 ++ t2) = revoked t1 ++ revoked t2 := by
  simp [revoked]

theorem disarm_armLocal (s : State) (track : Track) (file : Nat)
    (hlive : s.liveUrls = []) :
    (armLocal s track file).liveUrls = [s.nextUrl] ∧
    (armLocal s track file).currentLocalFileUrl = some s.nextUrl ∧
    (armLocal s track file).localPlayer = some s.elements.length ∧
    (cleanupLocalPlayer (armLocal s track file)).liveUrls = [] ∧
    (cleanupLocalPlayer (armLocal s track file)).localPlayer = none ∧
    (cleanupLocalPlayer (armLocal s track file)).currentLocalFileUrl = none ∧
    (cleanupLocalPlayer (armLocal s track file)).nextUrl = s.nextUrl + 1 ∧
    revoked (cleanupLocalPlayer (armLocal s track file)).trace
      = revoked s.trace ++ [s.nextUrl] := by
  rw [armLocal_eq]
  simp [cleanupLocalPlayer, State.log, State.updateElement, State.revokeObjectURL, hlive,
    revoked_append]
  simp [revoked]

/-- C9: from a state with no live URL handle, arm (`playLocalFile` runs to its end
with the file found), disarm (`cleanupLocalPlayer`), arm, disarm: each arm creates
one handle, which is the only live one; after each disarm no handle is live and
`localPlayer` and `currentLocalFileUrl` are null; the two disarms revoke exactly the
two handles created, which are different, so that no handle is revoked twice when
none was before. -/
theorem arm_disarm_leaves_no_handle (s : State) (t1 t2 : Track) (f1 f2 : Nat)
    (hlive : s.liveUrls = [])
    (hfresh : ∀ url ∈ revoked s.trace, url < s.nextUrl)
    (hnodup : (revoked s.trace).Nodup) :
    (armLocal s t1 f1).liveUrls = [s.nextUrl] ∧
    (cleanupLocalPlayer (armLocal s t1 f1)).liveUrls = [] ∧
    (cleanupLocalPlayer (armLocal s t1 f1)).localPlayer = none ∧
    (cleanupLocalPlayer (armLocal s t1 f1)).currentLocalFileUrl = none ∧
    (armLocal (cleanupLocalPlayer (armLocal s t1 f1)) t2 f2).liveUrls = [s.nextUrl + 1] ∧
    (cleanupLocalPlayer
      (armLocal (cleanupLocalPlayer (armLocal s t1 f1)) t2 f2)).liveUrls = [] ∧
    (cleanupLocalPlayer
      (armLocal (cleanupLocalPlayer (armLocal s t1 f1)) t2 f2)).localPlayer = none ∧
    (cleanupLocalPlayer
      (armLocal (cleanupLocalPlayer (armLocal s t1 f1)) t2 f2)).currentLocalFileUrl = none ∧
    revoked (cleanupLocalPlayer
      (armLocal (cleanupLocalPlayer (armLocal s t1 f1)) t2 f2)).trace
        = revoked s.trace ++ [s.nextUrl, s.nextUrl + 1] ∧
    (revoked (cleanupLocalPlayer
      (armLocal (cleanupLocalPlayer (armLocal s t1 f1)) t2 f2)).trace).Nodup := by
  obtain ⟨a1, _, _, a4, a5, a6, a7, a8⟩ := disarm_armLocal s t1 f1 hlive
  obtain ⟨b1, _, _, b4, b5, b6, _, b8⟩ :=
    disarm_armLocal (cleanupLocalPlayer (armLocal s t1 f1)) t2 f2 a4
  rw [a7] at b1
  rw [a7, a8] at b8
  have hrev : revoked (cleanupLocalPlayer
      (armLocal (cleanupLocalPlayer (armLocal s t1 f1)) t2 f2)).trace
        = revoked s.trace ++ [s.nextUrl, s.nextUrl + 1] := by
    rw [b8]; simp
  refine ⟨a1, a4, a5, a6, b1, b4, b5, b6, hrev, ?_⟩
  rw [hrev, List.nodup_append]
  refine ⟨hnodup, by simp, ?_⟩
  intro u hu hu2
  have hlt := hfresh u hu
  simp at hu2
  omega

/-- C9 from the constructor state with the local playlist open: the handles 0 and
1 are created and revoked once each. -/
theorem arm_disarm_leaves_no_handle_witness :
    (cleanupLocalPlayer (armLocal localQueueState (localTrack "x") 0)).liveUrls = [] ∧
    (cleanupLocalPlayer (armLocal (cleanupLocalPlayer
      (armLocal localQueueState (localTrack "x") 0)) (localTrack "y") 1)).liveUrls = [] ∧
    revoked (cleanupLocalPlayer (armLocal (cleanupLocalPlayer
      (armLocal localQueueState (localTrack "x") 0)) (localTrack "y") 1)).trace = [0, 1] :=
  have h := arm_disarm_leaves_no_handle localQueueState (localTrack "x") (localTrack "y") 0 1
    (by decide) (by decide) (by decide)
  ⟨h.2.1, h.2.2.2.2.2.1, h.2.2.2.2.2.2.2.2.1⟩


/-! ## C10 -/

/-- C10 (the code at the failing input): `playTrack` is called on the local track
`x` and then on the local track `y`, and the two file lookups complete afterwards,
in the order of the requests.  Once no lookup is pending the current track is `y`
and `localPlayer` / `currentLocalFileUrl` are the element and handle of `y`, but the
late result of the superseded arm was applied, not discarded: the element of `x`
(with handle 0) is still attached next to the element of `y`, both handles are live
and none was revoked; a later `stopAllPlayers` detaches and revokes only those of
`y`, so the element of `x` stays attached and its handle live. -/
theorem superseded_arm_not_discarded :
    run (State.initial [localQueue] false) rapidPlayInputs = some rapidPlayState ∧
    rapidPlayState.pendingLookups = [] ∧
    rapidPlayState.currentTrack = some (localTrack "y") ∧
    rapidPlayState.localPlayer = some 1 ∧
    rapidPlayState.currentLocalFileUrl = some 1 ∧
    rapidPlayState.elements.map (fun e => (e.track.id, e.src, e.inDom))
      = [("x", 0, true), ("y", 1, true)] ∧
    rapidPlayState.liveUrls = [0, 1] ∧
    revoked rapidPlayState.trace = [] ∧
    (stopAllPlayers rapidPlayState).elements.map (fun e => (e.track.id, e.src, e.inDom))
      = [("x", 0, true), ("y", 1, false)] ∧
    (stopAllPlayers rapidPlayState).liveUrls = [0] ∧
    (stopAllPlayers rapidPlayState).localPlayer = none :=
  ⟨rfl, by decide, by decide, by decide, by decide, by decide, by decide, by decide,
    by decide, by decide, by decide⟩


/-! ## The effect of `stopAllPlayers` -/

theorem stopAllPlayers_eq (s : State) :
    stopAllPlayers s =
      { s with
        isPlaying := false
        localPlayer := none
        currentLocalFileUrl :=
          (match s.localPlayer with
           | some _ => none
           | none => s.currentLocalFileUrl)
        elements :=
          (match s.localPlayer with
           | some el => s.elements.modify
              (fun e => { e with paused := true, currentTime := 0, inDom := false }) el
           | none => s.elements)
        liveUrls :=
          (match s.localPlayer, s.currentLocalFileUrl with
           | some _, some url => s.liveUrls.filter (fun u => u != url)
           | _, _ => s.liveUrls)
        trace := s.trace ++ [Effect.console "Deteniendo todos los reproductores..."] ++
          (match s.localPlayer, s.currentLocalFileUrl with
           | some _, some url =>
             [Effect.console "Limpiando reproductor local...", Effect.revokeObjectURL url]
           | some _, none => [Effect.console "Limpiando reproductor local..."]
           | none, _ => []) ++
          (if s.playerReady then [Effect.pauseVideo] else []) } := by
  unfold stopAllPlayers cleanupLocalPlayer
  cases h1 : s.localPlayer <;> cases h2 : s.currentLocalFileUrl <;> cases h3 : s.remote <;>
    simp [State.log, State.updateElement, State.revokeObjectURL, State.player,
      State.playerReady, h1, h2, h3, List.modify_modify_eq, Function.comp_def]

/-! ## C11 -/

/-- C11: a call of `playTrack` that arms a backend (the track is local or the
remote player is ready) arms it in the state `mid` left by `stopAllPlayers`, and the
arming call (`playLocalFile` started, or `loadVideoById` issued) is the last
outgoing call, after those of the disarming.  In `mid` the local player is null; if
a local player `el` was armed, its element is paused, at time zero and detached,
`currentLocalFileUrl` is null, and its URL handle is no longer live and was revoked
during this call; and a ready remote player was sent `pauseVideo` during this
call. -/
theorem playTrack_disarms_before_arming (s : State) (t : Track) (index : Nat)
    (hgo : s.playerReady = true ∨ t.isLocal = true) :
    ∃ mid : State,
      mid = stopAllPlayers { s.log (Effect.console "Reproduciendo track:") with
        currentTrack := some t, currentTrackIndex := index } ∧
      playTrack s (some t) index =
        (if t.isLocal then playLocalFile mid t
         else mid.log (Effect.loadVideoById t.videoId)) ∧
      (playTrack s (some t) index).trace = mid.trace ++
        [if t.isLocal then Effect.console "Reproduciendo archivo local:"
         else Effect.loadVideoById t.videoId] ∧
      mid.localPlayer = none ∧
      (∀ el, s.localPlayer = some el →
        mid.currentLocalFileUrl = none ∧
        (∀ e, s.elements[el]? = some e → mid.elements[el]? =
          some { e with paused := true, currentTime := 0, inDom := false }) ∧
        (∀ url, s.currentLocalFileUrl = some url →
          url ∉ mid.liveUrls ∧
          Effect.revokeObjectURL url ∈ mid.trace.drop s.trace.length)) ∧
      (s.playerReady = true → Effect.pauseVideo ∈ mid.trace.drop s.trace.length) := by
  refine ⟨_, rfl, ?_, ?_, ?_, ?_, ?_⟩
  · unfold playTrack
    have hf := stopAllPlayers_frame { s.log (Effect.console "Reproduciendo track:") with
        currentTrack := some t, currentTrackIndex := index }
    cases h3 : s.remote <;> cases h4 : t.isLocal <;>
      simp_all [State.log, State.playerReady, State.player]
  · unfold playTrack
    have hf := stopAllPlayers_frame { s.log (Effect.console "Reproduciendo track:") with
        currentTrack := some t, currentTrackIndex := index }
    cases h3 : s.remote <;> cases h4 : t.isLocal <;>
      simp_all [State.log, State.playerReady, State.player, playLocalFile]
  · rw [stopAllPlayers_eq]
  · intro el hel
    rw [stopAllPlayers_eq]
    refine ⟨by simp [State.log, hel], ?_, ?_⟩
    · intro e he
      simp [State.log, hel, he]
    · intro url hurl
      simp [State.log, hel, hurl, List.drop_append]
  · intro hready
    rw [stopAllPlayers_eq]
    simp [State.log, State.playerReady, List.drop_append] at hready ⊢
    simp [State.playerReady, hready]

/-- C11 at the armed local backend: `playTrack(tracks[0], 0)` while element 0 plays
the last track. -/
theorem playTrack_disarms_before_arming_witness :
    armedLastState.localPlayer = some 0 ∧
    ∃ mid : State,
      mid = stopAllPlayers { armedLastState.log (Effect.console "Reproduciendo track:") with
        currentTrack := some (localTrack "x"), currentTrackIndex := 0 } ∧
      playTrack armedLastState (some (localTrack "x")) 0 =
        (if (localTrack "x").isLocal then playLocalFile mid (localTrack "x")
         else mid.log (Effect.loadVideoById (localTrack "x").videoId)) ∧
      (playTrack armedLastState (some (localTrack "x")) 0).trace = mid.trace ++
        [if (localTrack "x").isLocal then Effect.console "Reproduciendo archivo local:"
         else Effect.loadVideoById (localTrack "x").videoId] ∧
      mid.localPlayer = none ∧
      (∀ el, armedLastState.localPlayer = some el →
        mid.currentLocalFileUrl = none ∧
        (∀ e, armedLastState.elements[el]? = some e → mid.elements[el]? =
          some { e with paused := true, currentTime := 0, inDom := false }) ∧
        (∀ url, armedLastState.currentLocalFileUrl = some url →
          url ∉ mid.liveUrls ∧
          Effect.revokeObjectURL url ∈ mid.trace.drop armedLastState.trace.length)) ∧
      (armedLastState.playerReady = true →
        Effect.pauseVideo ∈ mid.trace.drop armedLastState.trace.length) :=
  ⟨by decide,
    playTrack_disarms_before_arming armedLastState (localTrack "x") 0 (Or.inr (by decide))⟩


/-! ## C12 -/

/-- C12 (the code at the failing input): `playTrack(track, index)` with a remote
track while the remote player is not ready returns at its guard (lines 1042-1045)
with two console lines and nothing else: `currentTrack` and `currentTrackIndex` are
not the supplied pair.  With the remote playlist open and no player,
`playTrack(tracks[1], 1)` leaves `currentTrack` null and the stored index 0. -/
theorem playTrack_drops_unready_remote :
    (∀ (s : State) (t : Track) (index : Nat),
      s.playerReady = false → t.isLocal = false →
      playTrack s (some t) index =
        (s.log (Effect.console "Reproduciendo track:")).log
          (Effect.console "Player de YouTube no está listo")) ∧
    remoteQueueState.playerReady = false ∧
    remoteQueue.tracks[1]? = some (remoteTrack "b") ∧
    (playTrack remoteQueueState (some (remoteTrack "b")) 1).currentTrack = none ∧
    (playTrack remoteQueueState (some (remoteTrack "b")) 1).currentTrackIndex = 0 ∧
    (playTrack remoteQueueState (some (remoteTrack "b")) 1).trace =
      [Effect.console "Reproduciendo track:",
       Effect.console "Player de YouTube no está listo"] := by
  refine ⟨?_, by decide, by decide, by decide, by decide, by decide⟩
  intro s t index hready hlocal
  simp [playTrack, State.log, State.playerReady] at hready ⊢
  simp [State.playerReady, hready, hlocal]

/-! ## C13 -/

/-- C13 (the code at the failing input): no call of `playTrack` schedules a retry
or creates a player, whatever the state and the track: the branch with
`setTimeout` (lines 1060-1071) sits behind the guard of lines 1042-1045 and is
never run.  With the remote playlist open, the player API loaded and no player,
`playTrack(tracks[0], 0)` leaves no timer and sends no command. -/
theorem playTrack_schedules_no_retry :
    (∀ (s : State) (track : Option Track) (index : Nat),
      (playTrack s track index).retryTimers = s.retryTimers ∧
      (playTrack s track index).remote = s.remote ∧
      Effect.newPlayer ∉ (playTrack s track index).trace.drop s.trace.length) ∧
    remoteQueueApiState.ytApiLoaded = true ∧
    remoteQueueApiState.playerReady = false ∧
    (playTrack remoteQueueApiState (some (remoteTrack "a")) 0).retryTimers = [] ∧
    (playTrack remoteQueueApiState (some (remoteTrack "a")) 0).trace =
      [Effect.console "Reproduciendo track:",
       Effect.console "Player de YouTube no está listo"] := by
  refine ⟨?_, by decide, by decide, by decide, by decide⟩
  intro s track index
  unfold playTrack
  cases track with
  | none =>
    cases h1 : s.localPlayer <;> cases h2 : s.currentLocalFileUrl <;>
      cases h3 : s.remote <;>
      simp [State.log, State.playerReady, h1, h2, h3, stopAllPlayers_eq, List.drop_append]
  | some t =>
    cases h1 : s.localPlayer <;> cases h2 : s.currentLocalFileUrl <;>
      cases h3 : s.remote <;> cases h4 : t.isLocal <;>
      simp [State.log, State.playerReady, State.player, h1, h2, h3, h4, stopAllPlayers_eq,
        playLocalFile, List.drop_append]


/-! ## C14 -/

/-- C14: `stopAllPlayers` is idempotent on the engine state: a second call leaves
every field of the state as the first call left it, up to the record of outgoing
calls, to which it adds its console line and, for a ready remote player, one more
`pauseVideo`; it revokes no URL handle and changes no media element. -/
theorem stopAllPlayers_idempotent (s : State) :
    (stopAllPlayers (stopAllPlayers s)).forgetTrace = (stopAllPlayers s).forgetTrace ∧
    (stopAllPlayers (stopAllPlayers s)).trace = (stopAllPlayers s).trace ++
      [Effect.console "Deteniendo todos los reproductores..."] ++
      (if s.playerReady then [Effect.pauseVideo] else []) ∧
    revoked (stopAllPlayers (stopAllPlayers s)).trace = revoked (stopAllPlayers s).trace ∧
    (stopAllPlayers (stopAllPlayers s)).elements = (stopAllPlayers s).elements ∧
    (stopAllPlayers (stopAllPlayers s)).liveUrls = (stopAllPlayers s).liveUrls := by
  rw [stopAllPlayers_eq (stopAllPlayers s), stopAllPlayers_eq s]
  cases h3 : s.remote <;>
    simp [State.forgetTrace, State.playerReady, h3, revoked_append, revoked]

/-! ## C15 -/

/-- C15: after `stopAllPlayers`, `isPlaying` is false and `localPlayer` is null; if
a local player `el` was armed, its element is paused, at time zero and detached,
`currentLocalFileUrl` is null and its URL handle is revoked and no longer live; a
ready remote player is sent `pauseVideo` and stays attached (`remote`, that is
`player` and `playerReady`, is unchanged); `currentTrack`, `currentTrackIndex`, the
shuffle flag, the repeat mode, the volume, the previous volume and the playlists
are unchanged. -/
theorem stopAllPlayers_effect (s : State) :
    (stopAllPlayers s).isPlaying = false ∧
    (stopAllPlayers s).localPlayer = none ∧
    (∀ el, s.localPlayer = some el →
      (stopAllPlayers s).currentLocalFileUrl = none ∧
      (∀ e, s.elements[el]? = some e → (stopAllPlayers s).elements[el]? =
        some { e with paused := true, currentTime := 0, inDom := false }) ∧
      (∀ url, s.currentLocalFileUrl = some url →
        url ∉ (stopAllPlayers s).liveUrls ∧
        Effect.revokeObjectURL url ∈ (stopAllPlayers s).trace.drop s.trace.length)) ∧
    (s.playerReady = true →
      Effect.pauseVideo ∈ (stopAllPlayers s).trace.drop s.trace.length) ∧
    (stopAllPlayers s).remote = s.remote ∧
    (stopAllPlayers s).player = s.player ∧
    (stopAllPlayers s).playerReady = s.playerReady ∧
    (stopAllPlayers s).currentTrack = s.currentTrack ∧
    (stopAllPlayers s).currentTrackIndex = s.currentTrackIndex ∧
    (stopAllPlayers s).isShuffled = s.isShuffled ∧
    (stopAllPlayers s).repeatMode = s.repeatMode ∧
    (stopAllPlayers s).volume = s.volume ∧
    (stopAllPlayers s).previousVolume = s.previousVolume ∧
    (stopAllPlayers s).playlists = s.playlists ∧
    (stopAllPlayers s).currentPlaylist = s.currentPlaylist := by
  rw [stopAllPlayers_eq]
  refine ⟨rfl, rfl, ?_, ?_, rfl, rfl, rfl, rfl, rfl, rfl, rfl, rfl, rfl, rfl, rfl⟩
  · intro el hel
    refine ⟨by simp [hel], ?_, ?_⟩
    · intro e he
      simp [hel, he]
    · intro url hurl
      simp [hel, hurl, List.drop_append]
  · intro hready
    simp [hready, List.drop_append]

/-- C15 at the armed local backend: element 0 is paused and detached and the
handle 0 is revoked. -/
theorem stopAllPlayers_effect_witness :
    armedLastState.localPlayer = some 0 ∧
    armedLastState.currentLocalFileUrl = some 0 ∧
    (stopAllPlayers armedLastState).currentLocalFileUrl = none ∧
    0 ∉ (stopAllPlayers armedLastState).liveUrls ∧
    Effect.revokeObjectURL 0 ∈
      (stopAllPlayers armedLastState).trace.drop armedLastState.trace.length :=
  have h := (stopAllPlayers_effect armedLastState).2.2.1 0 (by decide)
  ⟨by decide, by decide, h.1, (h.2.2 0 (by decide)).1, (h.2.2 0 (by decide)).2⟩


/-! ## C16 -/

theorem nextTrack_index_valid (s s1 : State) (pl : Playlist) (random : List Unit01)
    (hpl : s.currentPlaylist = some pl) (hL : 1 ≤ pl.tracks.length)
    (hnext : nextTrack s random = some s1) :
    s1 = { s with isPlaying := false } ∨
    ∃ i t, i < pl.tracks.length ∧ pl.tracks[i]? = some t ∧ s1 = playTrack s (some t) i := by
  have h0 : pl.tracks.length ≠ 0 := by omega
  unfold nextTrack at hnext
  rw [hpl] at hnext
  simp only [h0, if_false] at hnext
  split at hnext
  · cases hsh : shuffleIndex s.currentTrackIndex pl.tracks.length random with
    | none => rw [hsh] at hnext; cases hnext
    | some i =>
      rw [hsh] at hnext
      have hi := (shuffleIndex_spec s.currentTrackIndex pl.tracks.length (by omega) random i hsh).1
      have hget : pl.tracks[i]? = some (pl.tracks[i]) := List.getElem?_eq_getElem hi
      right
      refine ⟨i, pl.tracks[i], hi, hget, ?_⟩
      simp only [Option.map_some', hget] at hnext
      exact (Option.some.inj hnext).symm
  · split at hnext
    · split at hnext
      · have hget : pl.tracks[0]? = some (pl.tracks[0]) := List.getElem?_eq_getElem (by omega)
        right
        refine ⟨0, pl.tracks[0], by omega, hget, ?_⟩
        rw [hget] at hnext
        exact (Option.some.inj hnext).symm
      · left; simpa [hpl] using (Option.some.inj hnext).symm
    · rename_i hlt
      have hi : s.currentTrackIndex + 1 < pl.tracks.length := by omega
      have hget : pl.tracks[s.currentTrackIndex + 1]? = some (pl.tracks[s.currentTrackIndex + 1]) :=
        List.getElem?_eq_getElem hi
      right
      refine ⟨s.currentTrackIndex + 1, pl.tracks[s.currentTrackIndex + 1], hi, hget, ?_⟩
      rw [hget] at hnext
      exact (Option.some.inj hnext).symm

theorem previousTrack_index_valid (s : State) (pl : Playlist)
    (hpl : s.currentPlaylist = some pl) (hL : 1 ≤ pl.tracks.length)
    (hindex : s.currentTrackIndex ≤ pl.tracks.length) :
    ∃ i t, i < pl.tracks.length ∧ pl.tracks[i]? = some t ∧
      previousTrack s = playTrack s (some t) i := by
  rw [previousTrack_eq s pl hpl (by omega)]
  by_cases hz : s.currentTrackIndex = 0
  · have hi : pl.tracks.length - 1 < pl.tracks.length := by omega
    refine ⟨pl.tracks.length - 1, pl.tracks[pl.tracks.length - 1], hi,
      List.getElem?_eq_getElem hi, ?_⟩
    simp [hz, List.getElem?_eq_getElem hi]
  · have hi : s.currentTrackIndex - 1 < pl.tracks.length := by omega
    refine ⟨s.currentTrackIndex - 1, pl.tracks[s.currentTrackIndex - 1], hi,
      List.getElem?_eq_getElem hi, ?_⟩
    simp [hz, List.getElem?_eq_getElem hi]

/-- C16 (the code at the failing input): `nextTrack` only calls `playTrack` with an
index below `L` and the track at that index, whatever the stored index, and so does
`previousTrack` while the stored index is at most `L`; but `previousTrack` only
tests `newIndex < 0`.  After the last track of the three-track playlist is played
and the one-track playlist is opened, the stored index is 2 and `L` is 1:
`previousTrack` calls `playTrack(undefined, 1)`, which ends in a `TypeError`. -/
theorem previousTrack_stale_index_undefined :
    (∀ (s s1 : State) (pl : Playlist) (random : List Unit01),
      s.currentPlaylist = some pl → 1 ≤ pl.tracks.length →
      nextTrack s random = some s1 →
      s1 = { s with isPlaying := false } ∨
      ∃ i t, i < pl.tracks.length ∧ pl.tracks[i]? = some t ∧
        s1 = playTrack s (some t) i) ∧
    (∀ (s : State) (pl : Playlist),
      s.currentPlaylist = some pl → 1 ≤ pl.tracks.length →
      s.currentTrackIndex ≤ pl.tracks.length →
      ∃ i t, i < pl.tracks.length ∧ pl.tracks[i]? = some t ∧
        previousTrack s = playTrack s (some t) i) ∧
    run (State.initial [localQueue, singleLocalQueue] false) staleIndexInputs
      = some staleIndexState ∧
    staleIndexState.currentPlaylist = some singleLocalQueue ∧
    singleLocalQueue.tracks.length = 1 ∧
    staleIndexState.currentTrackIndex = 2 ∧
    singleLocalQueue.tracks[1]? = none ∧
    previousTrack staleIndexState = playTrack staleIndexState none 1 ∧
    (previousTrack staleIndexState).trace.getLast? = some Effect.typeError :=
  ⟨fun s s1 pl random hpl hL hnext => nextTrack_index_valid s s1 pl random hpl hL hnext,
    fun s pl hpl hL hindex => previousTrack_index_valid s pl hpl hL hindex,
    rfl, by decide, by decide, by decide, by decide, rfl, by decide⟩


/-! ## C17 -/

/-- C17 (as stated, refuted): with the local track `x` active and its file lookup
still pending (`localPlayer` is null), `togglePlayPause` only writes its console
line: no media element is touched and no command is sent, neither one command nor
any. -/
theorem togglePlayPause_no_command_while_pending :
    pendingLocalState.currentTrack = some (localTrack "x") ∧
    pendingLocalState.localPlayer = none ∧
    togglePlayPause pendingLocalState =
      pendingLocalState.log (Effect.console "Toggle play/pause. Track actual:") ∧
    (togglePlayPause pendingLocalState).elements = pendingLocalState.elements ∧
    (togglePlayPause pendingLocalState).trace.drop pendingLocalState.trace.length =
      [Effect.console "Toggle play/pause. Track actual:"] :=
  ⟨by decide, by decide, rfl, by decide, by decide⟩

/-- C17 (amended): `togglePlayPause` changes nothing without an active track.  With
an active local track and a local player `el` it pauses (`isPlaying` true) or plays
(`isPlaying` false) that element and sends nothing to the remote player; with an
active remote track and a ready remote player it sends `pauseVideo` (`isPlaying`
true) or `playVideo` (`isPlaying` false) and touches no media element; when the
backend of the track's kind is not there (no local player, remote player not
ready) it sends no command at all, and it never commands the other backend. -/
theorem togglePlayPause_commands (s : State) :
    (s.currentTrack = none → togglePlayPause s = s) ∧
    (∀ t el, s.currentTrack = some t → t.isLocal = true → s.localPlayer = some el →
      (togglePlayPause s).elements =
        s.elements.modify (fun e => { e with paused := s.isPlaying }) el ∧
      (togglePlayPause s).trace =
        s.trace ++ [Effect.console "Toggle play/pause. Track actual:"] ∧
      (togglePlayPause s).forgetTrace =
        (s.updateElement el (fun e => { e with paused := s.isPlaying })).forgetTrace) ∧
    (∀ t, s.currentTrack = some t → t.isLocal = false → s.playerReady = true →
      togglePlayPause s =
        (s.log (Effect.console "Toggle play/pause. Track actual:")).log
          (if s.isPlaying then Effect.pauseVideo else Effect.playVideo)) ∧
    (∀ t, s.currentTrack = some t →
      (t.isLocal = true ∧ s.localPlayer = none) ∨
        (t.isLocal = false ∧ s.playerReady = false) →
      (togglePlayPause s).forgetTrace = s.forgetTrace ∧
      ∀ e ∈ (togglePlayPause s).trace.drop s.trace.length, ∃ msg, e = Effect.console msg) := by
  refine ⟨?_, ?_, ?_, ?_⟩
  · intro h
    simp [togglePlayPause, h]
  · intro t el ht hlocal hel
    cases hp : s.isPlaying <;>
      simp [togglePlayPause, State.log, State.updateElement, State.forgetTrace, ht, hlocal,
        hel, hp]
  · intro t ht hlocal hready
    cases h3 : s.remote <;> cases hp : s.isPlaying <;>
      simp_all [togglePlayPause, State.log, State.player, State.playerReady]
  · intro t ht hcase
    rcases hcase with ⟨hlocal, hel⟩ | ⟨hlocal, hready⟩
    · simp [togglePlayPause, State.log, State.forgetTrace, ht, hlocal, hel]
    · cases h3 : s.remote <;>
        simp_all [togglePlayPause, State.log, State.forgetTrace, State.player,
          State.playerReady]

/-- C17 (amended) at three states: the remote track playing on the ready player
(one `pauseVideo`), the local track on element 0 (the element is played), and no
active track. -/
theorem togglePlayPause_commands_witness :
    togglePlayPause remotePlayingState =
      (remotePlayingState.log (Effect.console "Toggle play/pause. Track actual:")).log
        Effect.pauseVideo ∧
    (togglePlayPause armedLastState).elements =
      armedLastState.elements.modify (fun e => { e with paused := false }) 0 ∧
    togglePlayPause localQueueState = localQueueState :=
  ⟨(togglePlayPause_commands remotePlayingState).2.2.1 (remoteTrack "a") (by decide)
      (by decide) (by decide),
    ((togglePlayPause_commands armedLastState).2.1 (localTrack "z") 0 (by decide)
      (by decide) (by decide)).1,
    (togglePlayPause_commands localQueueState).1 (by decide)⟩

/-! ## C18 -/

/-- C18: `toggleShuffle` negates the shuffle flag and changes no other field
(track, index, play flag, repeat mode, volume, both backends, outgoing calls);
calling it twice gives back the state. -/
theorem toggleShuffle_flips (s : State) :
    (toggleShuffle s).isShuffled = !s.isShuffled ∧
    { toggleShuffle s with isShuffled := s.isShuffled } = s ∧
    (toggleShuffle s).currentTrack = s.currentTrack ∧
    (toggleShuffle s).currentTrackIndex = s.currentTrackIndex ∧
    (toggleShuffle s).isPlaying = s.isPlaying ∧
    (toggleShuffle s).repeatMode = s.repeatMode ∧
    (toggleShuffle s).volume = s.volume ∧
    (toggleShuffle s).localPlayer = s.localPlayer ∧
    (toggleShuffle s).currentLocalFileUrl = s.currentLocalFileUrl ∧
    (toggleShuffle s).elements = s.elements ∧
    (toggleShuffle s).remote = s.remote ∧
    (toggleShuffle s).trace = s.trace ∧
    toggleShuffle (toggleShuffle s) = s := by
  refine ⟨rfl, rfl, rfl, rfl, rfl, rfl, rfl, rfl, rfl, rfl, rfl, rfl, ?_⟩
  cases s
  simp [toggleShuffle]

/-! ## C19 -/

/-- C19: `toggleRepeat` takes 'none' to 'all', 'all' to 'one' and 'one' to 'none',
changes no other field, and three calls give back the state. -/
theorem toggleRepeat_cycles (s : State) :
    (toggleRepeat { s with repeatMode := RepeatMode.none }).repeatMode = RepeatMode.all ∧
    (toggleRepeat { s with repeatMode := RepeatMode.all }).repeatMode = RepeatMode.one ∧
    (toggleRepeat { s with repeatMode := RepeatMode.one }).repeatMode = RepeatMode.none ∧
    { toggleRepeat s with repeatMode := s.repeatMode } = s ∧
    toggleRepeat (toggleRepeat (toggleRepeat s)) = s := by
  refine ⟨rfl, rfl, rfl, rfl, ?_⟩
  cases s with
  | mk _ _ _ _ _ _ repeatMode =>
    cases repeatMode <;> rfl

/-! ## C20 -/

theorem setVolume_volume (s : State) (v : Rat) :
    (setVolume s v).volume = max 0 (min 1 v) := by
  unfold setVolume
  cases h1 : s.localPlayer <;> cases h3 : s.remote <;>
    simp [State.log, State.updateElement, State.playerReady, h1, h3]

/-- C20: for every rational `v`, `setVolume(v)` stores `min(1, max(0, v))`; the
stored volume is in `[0, 1]`, is `v` when `0 ≤ v ≤ 1`, and storing the stored value
again leaves the volume as it is. -/
theorem setVolume_clamps (s : State) (v : Rat) :
    (setVolume s v).volume = min 1 (max 0 v) ∧
    0 ≤ (setVolume s v).volume ∧ (setVolume s v).volume ≤ 1 ∧
    (0 ≤ v → v ≤ 1 → (setVolume s v).volume = v) ∧
    (setVolume (setVolume s v) (setVolume s v).volume).volume = (setVolume s v).volume := by
  have h01 : (0 : Rat) ≤ 1 := by norm_num
  have hle : max 0 (min 1 v) ≤ 1 := max_le h01 (min_le_left 1 v)
  have hge : (0 : Rat) ≤ max 0 (min 1 v) := le_max_left 0 _
  refine ⟨?_, ?_, ?_, ?_, ?_⟩
  · rw [setVolume_volume, max_min_distrib_left, max_eq_right h01]
  · rw [setVolume_volume]; exact hge
  · rw [setVolume_volume]; exact hle
  · intro h0 h1
    rw [setVolume_volume, min_eq_right h1, max_eq_right h0]
  · rw [setVolume_volume, setVolume_volume, min_eq_right hle, max_eq_right hge]

/-- C20 at `v = 1/2` and at `v = 3`. -/
theorem setVolume_clamps_witness :
    (setVolume localQueueState (1 / 2)).volume = 1 / 2 ∧
    (setVolume localQueueState 3).volume = min 1 (max 0 3) :=
  ⟨(setVolume_clamps localQueueState (1 / 2)).2.2.2.1 (by norm_num) (by norm_num),
    (setVolume_clamps localQueueState 3).1⟩


/-! ## C21 -/

theorem setVolume_previousVolume (s : State) (v : Rat) :
    (setVolume s v).previousVolume = s.previousVolume := by
  unfold setVolume
  cases h1 : s.localPlayer <;> cases h3 : s.remote <;>
    simp [State.log, State.updateElement, State.playerReady, h1, h3]

theorem toggleMute_volume_of_muted (s : State) (h : s.volume = 0) :
    (toggleMute s).volume =
      max 0 (min 1 (if s.previousVolume = 0 then 7 / 10 else s.previousVolume)) := by
  unfold toggleMute
  rw [if_neg (by rw [h]; exact lt_irrefl 0), setVolume_volume]

theorem toggleMute_after_setVolume_zero (s : State) (v : Rat) :
    (toggleMute (setVolume (setVolume s v) 0)).volume =
      max 0 (min 1 (if s.previousVolume = 0 then 7 / 10 else s.previousVolume)) := by
  have h0 : (setVolume (setVolume s v) 0).volume = 0 := by
    rw [setVolume_volume]
    norm_num
  rw [toggleMute_volume_of_muted _ h0, setVolume_previousVolume, setVolume_previousVolume]

/-- C21 (as stated, refuted): from the constructor state (`previousVolume` 0.7),
after `setVolume(0.3)` and `setVolume(0)` a call of `toggleMute` sets the volume to
0.7, the value of `previousVolume`, and not to 0.3. -/
theorem toggleMute_restores_old_volume :
    (toggleMute (setVolume (setVolume (State.initial [] false) (3 / 10)) 0)).volume = 7 / 10 ∧
    (toggleMute (setVolume (setVolume (State.initial [] false) (3 / 10)) 0)).volume
      ≠ 3 / 10 := by
  have h : (toggleMute (setVolume (setVolume (State.initial [] false) (3 / 10)) 0)).volume
      = 7 / 10 := by
    rw [toggleMute_after_setVolume_zero]
    norm_num [State.initial]
  rw [h]
  norm_num

/-- C21 (amended): `setVolume` does not record the volume it replaces; after
`setVolume(v)` followed by `setVolume(0)`, `toggleMute` sets the volume to
`previousVolume` as it was before these calls (0.7 when that is 0), clamped to
`[0, 1]`, whatever `v` was. -/
theorem toggleMute_restores_previousVolume (s : State) (v : Rat) :
    (setVolume (setVolume s v) 0).previousVolume = s.previousVolume ∧
    (setVolume (setVolume s v) 0).volume = 0 ∧
    (toggleMute (setVolume (setVolume s v) 0)).volume =
      max 0 (min 1 (if s.previousVolume = 0 then 7 / 10 else s.previousVolume)) := by
  refine ⟨by rw [setVolume_previousVolume, setVolume_previousVolume], ?_,
    toggleMute_after_setVolume_zero s v⟩
  rw [setVolume_volume]
  norm_num

/-! ## C27 -/

/-- C27: in a state with volume `v` in `(0, 1]`, `toggleMute` sets the volume to 0
and `previousVolume` to `v`, and a second `toggleMute` sets the volume to `v`; with
volume 0 and `previousVolume` 0, `toggleMute` sets the volume to 0.7. -/
theorem toggleMute_roundtrip (s : State) :
    (0 < s.volume → s.volume ≤ 1 →
      (toggleMute s).volume = 0 ∧ (toggleMute s).previousVolume = s.volume ∧
      (toggleMute (toggleMute s)).volume = s.volume) ∧
    (s.volume = 0 → s.previousVolume = 0 → (toggleMute s).volume = 7 / 10) := by
  constructor
  · intro hpos hle
    have h1 : toggleMute s = setVolume { s with previousVolume := s.volume } 0 := by
      unfold toggleMute
      rw [if_pos hpos]
    have hv : (toggleMute s).volume = 0 := by
      rw [h1, setVolume_volume]; norm_num
    have hp : (toggleMute s).previousVolume = s.volume := by
      rw [h1, setVolume_previousVolume]
    refine ⟨hv, hp, ?_⟩
    rw [toggleMute_volume_of_muted _ hv, hp, if_neg (ne_of_gt hpos), min_eq_right hle,
      max_eq_right (le_of_lt hpos)]
  · intro hv hp
    rw [toggleMute_volume_of_muted s hv, if_pos hp]
    norm_num

/-- C27 from the constructor state (volume 0.7): mute, then unmute; and the
fallback in a state with volume 0 and `previousVolume` 0. -/
theorem toggleMute_roundtrip_witness :
    ((toggleMute (State.initial [] false)).volume = 0 ∧
      (toggleMute (State.initial [] false)).previousVolume
        = (State.initial [] false).volume ∧
      (toggleMute (toggleMute (State.initial [] false))).volume
        = (State.initial [] false).volume) ∧
    (toggleMute { State.initial [] false with volume := 0, previousVolume := 0 }).volume
      = 7 / 10 :=
  ⟨(toggleMute_roundtrip (State.initial [] false)).1
      (by norm_num [State.initial]) (by norm_num [State.initial]),
    (toggleMute_roundtrip { State.initial [] false with volume := 0, previousVolume := 0 }).2
      rfl rfl⟩


/-! ## C22 -/

/-- C22 (as stated, refuted): with the remote track active on the ready player and
a duration of 0 reported by `getDuration()` (not known yet), a click in the middle
of the progress bar is not a no-op: `seekTo(0)` is sent. -/
theorem seek_issued_with_unknown_duration :
    remotePlayingState.currentTrack = some (remoteTrack "a") ∧
    remotePlayingState.playerReady = true ∧
    updateProgressFromEvent remotePlayingState (1 / 2) none 0 =
      remotePlayingState.log (Effect.seekTo 0) ∧
    (updateProgressFromEvent remotePlayingState (1 / 2) none 0).trace.getLast?
      = some (Effect.seekTo 0) := by
  have h : updateProgressFromEvent remotePlayingState (1 / 2) none 0 =
      remotePlayingState.log (Effect.seekTo 0) := by
    have ht : remotePlayingState.currentTrack = some (remoteTrack "a") := by decide
    have hr : remotePlayingState.playerReady = true := by decide
    simp [updateProgressFromEvent, ht, hr, remoteTrack]
  refine ⟨by decide, by decide, h, ?_⟩
  rw [h]
  simp [State.log]

/-- C22 (amended): `updateProgressFromEvent` does nothing without an active track,
and nothing when neither backend is there (no local player for a local track, and
the remote player not ready).  With a local track on the local player `el` and a
duration that is a number it sets `currentTime` of `el` to the duration multiplied
by the fraction clamped to `[0, 1]`; otherwise, with the remote player ready, it
sends `seekTo` with the remote duration multiplied by the clamped fraction.  The
duration is not tested: a remote duration of 0 gives `seekTo(0)`. -/
theorem updateProgressFromEvent_seeks (s : State) (fraction : Rat)
    (localDuration : Option Rat) (remoteDuration : Rat) :
    (s.currentTrack = none →
      updateProgressFromEvent s fraction localDuration remoteDuration = s) ∧
    (∀ t el duration, s.currentTrack = some t → t.isLocal = true →
      s.localPlayer = some el → localDuration = some duration →
      updateProgressFromEvent s fraction localDuration remoteDuration =
        s.updateElement el
          (fun e => { e with currentTime := duration * max 0 (min 1 fraction) })) ∧
    (∀ t, s.currentTrack = some t → (t.isLocal = false ∨ s.localPlayer = none) →
      s.playerReady = true →
      updateProgressFromEvent s fraction localDuration remoteDuration =
        s.log (Effect.seekTo (remoteDuration * max 0 (min 1 fraction)))) ∧
    (∀ t, s.currentTrack = some t → (t.isLocal = false ∨ s.localPlayer = none) →
      s.playerReady = false →
      updateProgressFromEvent s fraction localDuration remoteDuration = s) ∧
    0 ≤ max 0 (min 1 fraction) ∧ max 0 (min 1 fraction) ≤ 1 := by
  refine ⟨?_, ?_, ?_, ?_, le_max_left 0 _, max_le (by norm_num) (min_le_left 1 _)⟩
  · intro h
    simp [updateProgressFromEvent, h]
  · intro t el duration ht hlocal hel hd
    simp [updateProgressFromEvent, ht, hlocal, hel, hd]
  · intro t ht hcase hready
    rcases hcase with hlocal | hel
    · simp [updateProgressFromEvent, ht, hlocal, hready]
    · cases hl : t.isLocal <;> simp [updateProgressFromEvent, ht, hl, hel, hready]
  · intro t ht hcase hready
    rcases hcase with hlocal | hel
    · simp [updateProgressFromEvent, ht, hlocal, hready]
    · cases hl : t.isLocal <;> simp [updateProgressFromEvent, ht, hl, hel, hready]

/-- C22 (amended) at the remote track on the ready player with a duration of 200
seconds and a click at three quarters of the bar. -/
theorem updateProgressFromEvent_seeks_witness :
    updateProgressFromEvent remotePlayingState (3 / 4) none 200 =
      remotePlayingState.log (Effect.seekTo (200 * max 0 (min 1 (3 / 4)))) :=
  (updateProgressFromEvent_seeks remotePlayingState (3 / 4) none 200).2.2.1
    (remoteTrack "a") (by decide) (Or.inl (by decide)) (by decide)


/-! ## C23 -/

/-- C23 (as stated, refuted): a failed file lookup does not set `isPlaying`.  Two
local tracks are played in a row, the element of the first starts playing
(`isPlaying` true), then the lookup of the second fails: `isPlaying` is still
true. -/
theorem failed_lookup_keeps_isPlaying :
    run (State.initial [localQueue] false) lateFailureInputs =
      some (playLocalFileResume beforeLateFailureState 0 none) ∧
    beforeLateFailureState.pendingLookups = [localTrack "y"] ∧
    beforeLateFailureState.isPlaying = true ∧
    (playLocalFileResume beforeLateFailureState 0 none).isPlaying = true :=
  ⟨rfl, by decide, by decide, by decide⟩

theorem localPlayerError_eq (s : State) :
    localPlayerError s =
      { s with
        isPlaying := false
        currentLocalFileUrl := none
        liveUrls := (match s.currentLocalFileUrl with
          | some url => s.liveUrls.filter (fun u => u != url)
          | none => s.liveUrls)
        trace := s.trace ++ [Effect.console "Error en reproductor local:"] ++
          (match s.currentLocalFileUrl with
           | some url => [Effect.revokeObjectURL url]
           | none => []) ++
          [Effect.alert
            "Error al cargar el archivo. Puede que esté corrupto o no sea compatible."] } := by
  unfold localPlayerError
  cases h : s.currentLocalFileUrl <;> simp [State.log, State.revokeObjectURL, h]

theorem playLocalFileResume_missing (s : State) (k : Nat) :
    (playLocalFileResume s k none).forgetTrace =
      State.forgetTrace { s with pendingLookups := s.pendingLookups.eraseIdx k } := by
  unfold playLocalFileResume
  cases hk : s.pendingLookups[k]? with
  | none =>
    have hlen : s.pendingLookups.length ≤ k := by
      rcases Nat.lt_or_ge k s.pendingLookups.length with h | h
      · rw [List.getElem?_eq_getElem h] at hk; cases hk
      · exact h
    simp [State.forgetTrace, List.eraseIdx_of_length_le hlen]
  | some track => simp [State.forgetTrace, State.log]

/-- C23 (amended): a local playback error does not advance.  The 'error' listener
and the rejected `play()` set `isPlaying` to false and leave `currentTrack` and
`currentTrackIndex` (and everything but the URL handle and the record of calls) as
they were; a failed file lookup only removes the lookup from the pending ones and
reports the error, leaving `isPlaying`, `currentTrack` and `currentTrackIndex`
untouched.  Among all inputs of the engine, only the calls of `playTrack`,
`nextTrack`, `previousTrack` and the two 'ended' events change `currentTrack` or
`currentTrackIndex`. -/
theorem local_errors_do_not_advance (s : State) :
    (localPlayerError s).forgetUrls = State.forgetUrls { s with isPlaying := false } ∧
    (localPlayerPlayRejected s).forgetTrace
      = State.forgetTrace { s with isPlaying := false } ∧
    (∀ k, (playLocalFileResume s k none).forgetTrace =
      State.forgetTrace { s with pendingLookups := s.pendingLookups.eraseIdx k }) ∧
    (∀ k, (playLocalFileResume s k none).isPlaying = s.isPlaying ∧
      (playLocalFileResume s k none).currentTrack = s.currentTrack ∧
      (playLocalFileResume s k none).currentTrackIndex = s.currentTrackIndex) ∧
    (∀ (i : Input) (s1 : State), step s i = some s1 → i.navigates = false →
      s1.currentTrack = s.currentTrack ∧ s1.currentTrackIndex = s.currentTrackIndex) := by
  refine ⟨?_, ?_, fun k => playLocalFileResume_missing s k, ?_, ?_⟩
  · rw [localPlayerError_eq]
    rfl
  · simp [localPlayerPlayRejected, State.log, State.forgetTrace]
  · intro k
    have h := playLocalFileResume_missing s k
    have h1 := congrArg State.isPlaying h
    have h2 := congrArg State.currentTrack h
    have h3 := congrArg State.currentTrackIndex h
    exact ⟨h1, h2, h3⟩
  · intro i s1 hstep hnav
    cases i with
    | playTrack track index => cases hnav
    | nextTrack random => cases hnav
    | previousTrack => cases hnav
    | localEnded random => cases hnav
    | stopAllPlayers =>
      cases hstep
      exact ⟨(stopAllPlayers_frame s).2.2.2.2.1, (stopAllPlayers_frame s).2.2.2.2.2⟩
    | toggleShuffle => cases hstep; exact ⟨rfl, rfl⟩
    | toggleRepeat => cases hstep; exact ⟨rfl, rfl⟩
    | loadPlaylistView playlistId =>
      cases hstep
      unfold loadPlaylistView
      split <;> exact ⟨rfl, rfl⟩
    | initializePlayer => cases hstep; exact ⟨rfl, rfl⟩
    | playerReady =>
      cases hstep
      unfold onPlayerReady
      split <;> exact ⟨rfl, rfl⟩
    | playerStateChange data random =>
      cases data with
      | ended => cases hnav
      | playing =>
        simp only [step, onPlayerStateChange] at hstep
        split at hstep
        · cases hstep
          unfold cleanupLocalPlayer
          cases h1 : s.localPlayer <;> cases h2 : s.currentLocalFileUrl <;>
            simp [State.log, State.updateElement, State.revokeObjectURL, h1, h2]
        · cases hstep; exact ⟨rfl, rfl⟩
      | paused => cases hstep; exact ⟨rfl, rfl⟩
      | buffering => cases hstep; exact ⟨rfl, rfl⟩
      | unstarted => cases hstep; exact ⟨rfl, rfl⟩
      | cued => cases hstep; exact ⟨rfl, rfl⟩
    | fileLookupDone k file =>
      cases hstep
      unfold playLocalFileResume
      cases hk : s.pendingLookups[k]? with
      | none => exact ⟨rfl, rfl⟩
      | some track => cases file <;> exact ⟨rfl, rfl⟩
    | localCanplay =>
      cases hstep
      unfold localPlayerCanplay
      cases hl : s.localPlayer <;> simp [State.log, State.updateElement, hl]
    | localPlayRejected => cases hstep; exact ⟨rfl, rfl⟩
    | localPlay => cases hstep; exact ⟨rfl, rfl⟩
    | localPause => cases hstep; exact ⟨rfl, rfl⟩
    | localError =>
      cases hstep
      rw [localPlayerError_eq]
      exact ⟨rfl, rfl⟩

/-- C23 (amended) at the armed local backend: the 'error' event leaves the track
and the index. -/
theorem local_errors_do_not_advance_witness :
    (localPlayerError armedLastState).currentTrack = armedLastState.currentTrack ∧
    (localPlayerError armedLastState).currentTrackIndex = armedLastState.currentTrackIndex :=
  (local_errors_do_not_advance armedLastState).2.2.2.2 Input.localError
    (localPlayerError armedLastState) rfl rfl

/-! ## C24 -/

/-- C24 (as stated, refuted): after the 'error' event of the armed local player
`localPlayer` is still the element 0, which is still attached (only the URL handle
is released); after a rejected `play()` both `localPlayer` and
`currentLocalFileUrl` are still set. -/
theorem local_player_kept_after_error :
    Reachable afterErrorState ∧
    afterErrorState.isPlaying = false ∧
    afterErrorState.localPlayer = some 0 ∧
    afterErrorState.elements.map (fun e => e.inDom) = [true] ∧
    afterRejectedState.isPlaying = false ∧
    afterRejectedState.localPlayer = some 0 ∧
    afterRejectedState.currentLocalFileUrl = some 0 :=
  ⟨reachable_run afterErrorInputs _ _ (Reachable.initial [localQueue] false) rfl,
    by decide, by decide, by decide, by decide, by decide, by decide⟩

/-- C24 (amended): after the 'error' event `isPlaying` is false and
`currentLocalFileUrl` is null; after a rejected `play()` `isPlaying` is false; both
leave `localPlayer` and the media elements as they were (the element is detached by
the next `stopAllPlayers`).  A missing local file arms nothing: no media element
and no URL handle is created and `localPlayer` and `currentLocalFileUrl` stay as
they were; when the lookup fails right after the `playTrack` that started it, the
engine has `isPlaying` false and `localPlayer` null, and `currentLocalFileUrl` null
if it was null or a local player was armed before. -/
theorem local_errors_leave_paused (s : State) :
    ((localPlayerError s).isPlaying = false ∧
      (localPlayerError s).currentLocalFileUrl = none ∧
      (localPlayerError s).localPlayer = s.localPlayer ∧
      (localPlayerError s).elements = s.elements) ∧
    ((localPlayerPlayRejected s).isPlaying = false ∧
      (localPlayerPlayRejected s).localPlayer = s.localPlayer ∧
      (localPlayerPlayRejected s).currentLocalFileUrl = s.currentLocalFileUrl ∧
      (localPlayerPlayRejected s).elements = s.elements) ∧
    (∀ k, (playLocalFileResume s k none).elements = s.elements ∧
      (playLocalFileResume s k none).nextUrl = s.nextUrl ∧
      (playLocalFileResume s k none).liveUrls = s.liveUrls ∧
      (playLocalFileResume s k none).localPlayer = s.localPlayer ∧
      (playLocalFileResume s k none).currentLocalFileUrl = s.currentLocalFileUrl) ∧
    (∀ (t : Track) (index : Nat), t.isLocal = true →
      (s.localPlayer = none → s.currentLocalFileUrl = none) →
      (playLocalFileResume (playTrack s (some t) index) s.pendingLookups.length none).isPlaying
        = false ∧
      (playLocalFileResume (playTrack s (some t) index) s.pendingLookups.length none).localPlayer
        = none ∧
      (playLocalFileResume (playTrack s (some t) index)
        s.pendingLookups.length none).currentLocalFileUrl = none ∧
      (playLocalFileResume (playTrack s (some t) index)
        s.pendingLookups.length none).pendingLookups = s.pendingLookups) := by
  refine ⟨?_, ?_, ?_, ?_⟩
  · rw [localPlayerError_eq]
    exact ⟨rfl, rfl, rfl, rfl⟩
  · exact ⟨rfl, rfl, rfl, rfl⟩
  · intro k
    have h := playLocalFileResume_missing s k
    have h1 := congrArg State.elements h
    have h2 := congrArg State.nextUrl h
    have h3 := congrArg State.liveUrls h
    have h4 := congrArg State.localPlayer h
    have h5 := congrArg State.currentLocalFileUrl h
    exact ⟨h1, h2, h3, h4, h5⟩
  · intro t index hlocal hinv
    have hplay : playTrack s (some t) index =
        playLocalFile (stopAllPlayers { s.log (Effect.console "Reproduciendo track:") with
          currentTrack := some t, currentTrackIndex := index }) t := by
      obtain ⟨mid, hmid, h, _⟩ := playTrack_disarms_before_arming s t index (Or.inr hlocal)
      rw [h, hmid, if_pos hlocal]
    have hp1 : (playTrack s (some t) index).isPlaying = false := by
      rw [hplay, stopAllPlayers_eq]; rfl
    have hp2 : (playTrack s (some t) index).localPlayer = none := by
      rw [hplay, stopAllPlayers_eq]; rfl
    have hp3 : (playTrack s (some t) index).currentLocalFileUrl = none := by
      rw [hplay, stopAllPlayers_eq]
      cases hl : s.localPlayer with
      | none => simpa [playLocalFile, State.log, hl] using hinv hl
      | some el => simp [playLocalFile, State.log, hl]
    have hp4 : (playTrack s (some t) index).pendingLookups = s.pendingLookups ++ [t] := by
      rw [hplay, stopAllPlayers_eq]; rfl
    have h := playLocalFileResume_missing (playTrack s (some t) index) s.pendingLookups.length
    have h1 := congrArg State.isPlaying h
    have h2 := congrArg State.localPlayer h
    have h3 := congrArg State.currentLocalFileUrl h
    have h4 := congrArg State.pendingLookups h
    simp only [State.forgetTrace] at h1 h2 h3 h4
    refine ⟨h1.trans hp1, h2.trans hp2, h3.trans hp3, ?_⟩
    rw [h4, hp4, List.eraseIdx_append_of_length_le (Nat.le_refl _)]
    simp

/-- C24 (amended) for the local playlist: `playTrack(x, 0)` whose file is missing
leaves the engine paused with no local player and no URL handle. -/
theorem local_errors_leave_paused_witness :
    (playLocalFileResume (playTrack localQueueState (some (localTrack "x")) 0)
      localQueueState.pendingLookups.length none).isPlaying = false ∧
    (playLocalFileResume (playTrack localQueueState (some (localTrack "x")) 0)
      localQueueState.pendingLookups.length none).localPlayer = none ∧
    (playLocalFileResume (playTrack localQueueState (some (localTrack "x")) 0)
      localQueueState.pendingLookups.length none).currentLocalFileUrl = none ∧
    (playLocalFileResume (playTrack localQueueState (some (localTrack "x")) 0)
      localQueueState.pendingLookups.length none).pendingLookups
        = localQueueState.pendingLookups :=
  (local_errors_leave_paused localQueueState).2.2.2 (localTrack "x") 0 (by decide)
    (by decide)


/-! ## C26 -/

theorem playTrack_playlists (s : State) (track : Option Track) (index : Nat) :
    (playTrack s track index).playlists = s.playlists ∧
    (playTrack s track index).currentPlaylist = s.currentPlaylist := by
  unfold playTrack
  cases track with
  | none =>
    cases h3 : s.remote <;>
      simp [State.log, State.playerReady, h3, stopAllPlayers_eq]
  | some t =>
    cases h3 : s.remote <;> cases h4 : t.isLocal <;>
      simp [State.log, State.playerReady, State.player, h3, h4, stopAllPlayers_eq,
        playLocalFile, initializePlayer]

theorem nextTrack_playlists (s s1 : State) (random : List Unit01)
    (h : nextTrack s random = some s1) :
    s1.playlists = s.playlists ∧ s1.currentPlaylist = s.currentPlaylist := by
  unfold nextTrack at h
  cases hp : s.currentPlaylist with
  | none => rw [hp] at h; cases h; exact ⟨rfl, hp⟩
  | some pl =>
    have hpt : ∀ track index, (playTrack s track index).playlists = s.playlists ∧
        (playTrack s track index).currentPlaylist = some pl := by
      intro track index
      have := playTrack_playlists s track index
      rw [hp] at this
      exact this
    rw [hp] at h
    simp only at h
    split at h
    · cases h; exact ⟨rfl, hp⟩
    · split at h
      · cases hsh : shuffleIndex s.currentTrackIndex pl.tracks.length random with
        | none => rw [hsh] at h; cases h
        | some i => rw [hsh] at h; cases h; exact hpt _ _
      · split at h
        · split at h
          · cases h; exact hpt _ _
          · cases h; exact ⟨rfl, rfl⟩
        · cases h; exact hpt _ _

theorem setVolume_playlists (s : State) (v : Rat) :
    (setVolume s v).playlists = s.playlists ∧
    (setVolume s v).currentPlaylist = s.currentPlaylist := by
  unfold setVolume
  cases h1 : s.localPlayer <;> cases h3 : s.remote <;>
    simp [State.log, State.updateElement, State.playerReady, h1, h3]

/-- C26: `playTrack` (up to the start of the file lookup), `nextTrack`,
`previousTrack`, `stopAllPlayers`, `togglePlayPause`, `toggleShuffle`,
`toggleRepeat`, `setVolume` and `toggleMute` leave the list of playlists, with the
tracks of each, and the current playlist as they were. -/
theorem playback_keeps_playlists (s : State) :
    (∀ track index, (playTrack s track index).playlists = s.playlists ∧
      (playTrack s track index).currentPlaylist = s.currentPlaylist) ∧
    (∀ random s1, nextTrack s random = some s1 →
      s1.playlists = s.playlists ∧ s1.currentPlaylist = s.currentPlaylist) ∧
    ((previousTrack s).playlists = s.playlists ∧
      (previousTrack s).currentPlaylist = s.currentPlaylist) ∧
    ((stopAllPlayers s).playlists = s.playlists ∧
      (stopAllPlayers s).currentPlaylist = s.currentPlaylist) ∧
    ((togglePlayPause s).playlists = s.playlists ∧
      (togglePlayPause s).currentPlaylist = s.currentPlaylist) ∧
    ((toggleShuffle s).playlists = s.playlists ∧
      (toggleShuffle s).currentPlaylist = s.currentPlaylist) ∧
    ((toggleRepeat s).playlists = s.playlists ∧
      (toggleRepeat s).currentPlaylist = s.currentPlaylist) ∧
    (∀ v, (setVolume s v).playlists = s.playlists ∧
      (setVolume s v).currentPlaylist = s.currentPlaylist) ∧
    ((toggleMute s).playlists = s.playlists ∧
      (toggleMute s).currentPlaylist = s.currentPlaylist) := by
  refine ⟨playTrack_playlists s, fun random s1 h => nextTrack_playlists s s1 random h,
    ?_, ?_, ?_, ⟨rfl, rfl⟩, ⟨rfl, rfl⟩, setVolume_playlists s, ?_⟩
  · unfold previousTrack
    cases hp : s.currentPlaylist with
    | none => exact ⟨rfl, hp⟩
    | some pl =>
      simp only
      split
      · exact ⟨rfl, hp⟩
      · have := playTrack_playlists s
          pl.tracks[(if (s.currentTrackIndex : Int) - 1 < 0 then (pl.tracks.length : Int) - 1
            else (s.currentTrackIndex : Int) - 1).toNat]?
          (if (s.currentTrackIndex : Int) - 1 < 0 then (pl.tracks.length : Int) - 1
            else (s.currentTrackIndex : Int) - 1).toNat
        rw [hp] at this
        exact this
  · rw [stopAllPlayers_eq]
    exact ⟨rfl, rfl⟩
  · unfold togglePlayPause
    cases ht : s.currentTrack with
    | none => exact ⟨rfl, rfl⟩
    | some t =>
      cases h1 : s.localPlayer <;> cases h3 : s.remote <;> cases h4 : t.isLocal <;>
        cases h5 : s.isPlaying <;>
        simp [State.log, State.updateElement, State.player, State.playerReady, h1, h3, h4, h5]
  · unfold toggleMute
    split
    · exact setVolume_playlists _ 0
    · exact setVolume_playlists s _

/-- C26 at the local playlist with the last track armed: `nextTrack` (which halts)
leaves the playlists. -/
theorem playback_keeps_playlists_witness :
    nextTrack armedLastState [] = some { armedLastState with isPlaying := false } ∧
    State.playlists { armedLastState with isPlaying := false } = armedLastState.playlists ∧
    State.currentPlaylist { armedLastState with isPlaying := false }
      = armedLastState.currentPlaylist :=
  ⟨rfl, (playback_keeps_playlists armedLastState).2.1 [] _ rfl⟩


/-! ## C28 -/

theorem find?_first (playlistId : String) (pre : List Playlist) (pl : Playlist)
    (post : List Playlist) (hpre : ∀ p ∈ pre, p.id ≠ playlistId) (hpl : pl.id = playlistId) :
    (pre ++ pl :: post).find? (fun p => p.id == playlistId) = some pl := by
  induction pre with
  | nil => simp [hpl]
  | cons a rest ih =>
    have ha : a.id ≠ playlistId := hpre a (List.mem_cons_self _ _)
    have hrest : ∀ p ∈ rest, p.id ≠ playlistId :=
      fun p hp => hpre p (List.mem_cons_of_mem _ hp)
    have hb : (a.id == playlistId) = false := by simpa using ha
    simp [List.find?, hb, ih hrest]

theorem modifyFirst_first (playlistId : String) (f : Playlist → Playlist)
    (pre : List Playlist) (pl : Playlist) (post : List Playlist)
    (hpre : ∀ p ∈ pre, p.id ≠ playlistId) (hpl : pl.id = playlistId) :
    modifyFirst (fun p => p.id == playlistId) f (pre ++ pl :: post) = pre ++ f pl :: post := by
  induction pre with
  | nil => simp [modifyFirst, hpl]
  | cons a rest ih =>
    have ha : a.id ≠ playlistId := hpre a (List.mem_cons_self _ _)
    have hrest : ∀ p ∈ rest, p.id ≠ playlistId :=
      fun p hp => hpre p (List.mem_cons_of_mem _ hp)
    have hb : (a.id == playlistId) = false := by simpa using ha
    simp [modifyFirst, hb, ih hrest]

theorem find?_absent (playlistId : String) (playlists : List Playlist)
    (h : ∀ p ∈ playlists, p.id ≠ playlistId) :
    playlists.find? (fun p => p.id == playlistId) = none := by
  rw [List.find?_eq_none]
  intro p hp
  simpa using h p hp

theorem loadPlaylistView_fields (s : State) (playlistId : String) :
    (loadPlaylistView s playlistId).playlists = s.playlists ∧
    (loadPlaylistView s playlistId).currentTrack = s.currentTrack ∧
    (loadPlaylistView s playlistId).currentTrackIndex = s.currentTrackIndex ∧
    (loadPlaylistView s playlistId).isPlaying = s.isPlaying ∧
    (loadPlaylistView s playlistId).localPlayer = s.localPlayer := by
  unfold loadPlaylistView
  split <;> exact ⟨rfl, rfl, rfl, rfl, rfl⟩

theorem removeVideoFromPlaylist_eq (s : State) (playlistId trackId : String)
    (playlist : Playlist)
    (hfind : s.playlists.find? (fun p => p.id == playlistId) = some playlist) :
    ∃ u : State,
      removeVideoFromPlaylist s playlistId trackId =
        (true, reloadCurrentPlaylist (stopRemovedTrack u trackId) playlistId) ∧
      u.playlists = modifyFirst (fun p => p.id == playlistId)
        (fun p => { p with tracks := p.tracks.filter (fun t => t.id != trackId) })
        s.playlists ∧
      u.currentTrack = s.currentTrack ∧ u.currentTrackIndex = s.currentTrackIndex := by
  unfold removeVideoFromPlaylist
  rw [hfind]
  dsimp only
  cases hrem : playlist.tracks.find? (fun t => t.id == trackId) with
  | none => exact ⟨_, rfl, rfl, rfl, rfl⟩
  | some r =>
    cases hl : r.isLocal
    · simp only [hl]
      exact ⟨_, rfl, rfl, rfl, rfl⟩
    · simp only [hl]
      exact ⟨_, rfl, rfl, rfl, rfl⟩

theorem reloadCurrentPlaylist_fields (s : State) (playlistId : String) :
    (reloadCurrentPlaylist s playlistId).playlists = s.playlists ∧
    (reloadCurrentPlaylist s playlistId).currentTrack = s.currentTrack ∧
    (reloadCurrentPlaylist s playlistId).currentTrackIndex = s.currentTrackIndex ∧
    (reloadCurrentPlaylist s playlistId).isPlaying = s.isPlaying ∧
    (reloadCurrentPlaylist s playlistId).localPlayer = s.localPlayer := by
  unfold reloadCurrentPlaylist
  split
  · split
    · exact loadPlaylistView_fields s playlistId
    · exact ⟨rfl, rfl, rfl, rfl, rfl⟩
  · exact ⟨rfl, rfl, rfl, rfl, rfl⟩

theorem stopRemovedTrack_fields (s : State) (trackId : String) :
    (stopRemovedTrack s trackId).playlists = s.playlists ∧
    (∀ t, s.currentTrack = some t → t.id = trackId →
      (stopRemovedTrack s trackId).currentTrack = none ∧
      (stopRemovedTrack s trackId).currentTrackIndex = 0 ∧
      (stopRemovedTrack s trackId).isPlaying = false ∧
      (stopRemovedTrack s trackId).localPlayer = none) ∧
    ((∀ t, s.currentTrack = some t → t.id ≠ trackId) →
      (stopRemovedTrack s trackId).currentTrack = s.currentTrack ∧
      (stopRemovedTrack s trackId).currentTrackIndex = s.currentTrackIndex) := by
  unfold stopRemovedTrack
  cases hct : s.currentTrack with
  | none => simp [hct]
  | some t =>
    by_cases hid : t.id = trackId
    · simp [hct, hid, stopAllPlayers_eq]
    · simp [hct, hid]

theorem removeVideoFromPlaylist_found (s : State) (playlistId trackId : String)
    (playlist : Playlist)
    (hfind : s.playlists.find? (fun p => p.id == playlistId) = some playlist) :
    (removeVideoFromPlaylist s playlistId trackId).1 = true ∧
    (removeVideoFromPlaylist s playlistId trackId).2.playlists =
      modifyFirst (fun p => p.id == playlistId)
        (fun p => { p with tracks := p.tracks.filter (fun t => t.id != trackId) })
        s.playlists ∧
    (∀ t, s.currentTrack = some t → t.id = trackId →
      (removeVideoFromPlaylist s playlistId trackId).2.currentTrack = none ∧
      (removeVideoFromPlaylist s playlistId trackId).2.currentTrackIndex = 0 ∧
      (removeVideoFromPlaylist s playlistId trackId).2.isPlaying = false ∧
      (removeVideoFromPlaylist s playlistId trackId).2.localPlayer = none) ∧
    ((∀ t, s.currentTrack = some t → t.id ≠ trackId) →
      (removeVideoFromPlaylist s playlistId trackId).2.currentTrack = s.currentTrack ∧
      (removeVideoFromPlaylist s playlistId trackId).2.currentTrackIndex
        = s.currentTrackIndex) := by
  obtain ⟨u, heq, hu1⟩ := removeVideoFromPlaylist_eq s playlistId trackId playlist hfind
  rw [heq]
  obtain ⟨r1, r2, r3, r4, r5⟩ := reloadCurrentPlaylist_fields (stopRemovedTrack u trackId)
    playlistId
  obtain ⟨t1, t2, t3⟩ := stopRemovedTrack_fields u trackId
  refine ⟨rfl, ?_, ?_, ?_⟩
  · show (reloadCurrentPlaylist (stopRemovedTrack u trackId) playlistId).playlists = _
    rw [r1, t1, hu1.1]
  · intro t ht hid
    show (reloadCurrentPlaylist (stopRemovedTrack u trackId) playlistId).currentTrack = none ∧
      (reloadCurrentPlaylist (stopRemovedTrack u trackId) playlistId).currentTrackIndex = 0 ∧
      (reloadCurrentPlaylist (stopRemovedTrack u trackId) playlistId).isPlaying = false ∧
      (reloadCurrentPlaylist (stopRemovedTrack u trackId) playlistId).localPlayer = none
    rw [r2, r3, r4, r5]
    exact t2 t (by rw [hu1.2.1]; exact ht) hid
  · intro hne
    show (reloadCurrentPlaylist (stopRemovedTrack u trackId) playlistId).currentTrack
        = s.currentTrack ∧
      (reloadCurrentPlaylist (stopRemovedTrack u trackId) playlistId).currentTrackIndex
        = s.currentTrackIndex
    rw [r2, r3, ← hu1.2.1, ← hu1.2.2]
    exact t3 (fun t ht => hne t (by rw [← hu1.2.1]; exact ht))

/-- C28: `removeVideoFromPlaylist(playlistId, trackId)` returns false and leaves
the state when no playlist has the id.  Otherwise, with `pl` the first playlist
with the id, it returns true, the tracks of `pl` become the former tracks whose id
differs from `trackId`, in their order, and every other playlist stays as it was;
if the current track has the id `trackId`, playback is stopped (`isPlaying` false,
no local player), `currentTrack` becomes null and `currentTrackIndex` 0, and
otherwise the current track and index stay. -/
theorem removeVideoFromPlaylist_removes (s : State) (playlistId trackId : String) :
    ((∀ p ∈ s.playlists, p.id ≠ playlistId) →
      removeVideoFromPlaylist s playlistId trackId = (false, s)) ∧
    (∀ pre pl post, s.playlists = pre ++ pl :: post →
      (∀ p ∈ pre, p.id ≠ playlistId) → pl.id = playlistId →
      (removeVideoFromPlaylist s playlistId trackId).1 = true ∧
      (removeVideoFromPlaylist s playlistId trackId).2.playlists =
        pre ++ { pl with tracks := pl.tracks.filter (fun t => t.id != trackId) } :: post ∧
      (∀ t, t ∈ pl.tracks.filter (fun t => t.id != trackId) ↔
        t ∈ pl.tracks ∧ t.id ≠ trackId) ∧
      (∀ t, s.currentTrack = some t → t.id = trackId →
        (removeVideoFromPlaylist s playlistId trackId).2.currentTrack = none ∧
        (removeVideoFromPlaylist s playlistId trackId).2.currentTrackIndex = 0 ∧
        (removeVideoFromPlaylist s playlistId trackId).2.isPlaying = false ∧
        (removeVideoFromPlaylist s playlistId trackId).2.localPlayer = none) ∧
      ((∀ t, s.currentTrack = some t → t.id ≠ trackId) →
        (removeVideoFromPlaylist s playlistId trackId).2.currentTrack = s.currentTrack ∧
        (removeVideoFromPlaylist s playlistId trackId).2.currentTrackIndex
          = s.currentTrackIndex)) := by
  constructor
  · intro h
    simp [removeVideoFromPlaylist, find?_absent playlistId s.playlists h]
  · intro pre pl post hlist hpre hpl
    have hfind : s.playlists.find? (fun p => p.id == playlistId) = some pl := by
      rw [hlist]; exact find?_first playlistId pre pl post hpre hpl
    obtain ⟨h1, h2, h3, h4⟩ := removeVideoFromPlaylist_found s playlistId trackId pl hfind
    refine ⟨h1, ?_, ?_, h3, h4⟩
    · rw [h2, hlist]
      exact modifyFirst_first playlistId _ pre pl post hpre hpl
    · intro t
      simp [List.mem_filter]

/-- C28 with two playlists, the first open and its last track `z` armed: removing
`z` from the first playlist leaves the tracks `x`, `y` there and the second playlist
as it was, and clears the current track. -/
theorem removeVideoFromPlaylist_removes_witness :
    (removeVideoFromPlaylist twoPlaylistsState "p2" "z").1 = true ∧
    (removeVideoFromPlaylist twoPlaylistsState "p2" "z").2.playlists =
      [] ++ { localQueue with
        tracks := localQueue.tracks.filter (fun t => t.id != "z") } :: [singleLocalQueue] ∧
    (removeVideoFromPlaylist twoPlaylistsState "p2" "z").2.currentTrack = none ∧
    (removeVideoFromPlaylist twoPlaylistsState "p2" "z").2.currentTrackIndex = 0 :=
  have h := (removeVideoFromPlaylist_removes twoPlaylistsState "p2" "z").2
    [] localQueue [singleLocalQueue] (by decide) (by decide) (by decide)
  ⟨h.1, h.2.1, (h.2.2.2.1 (localTrack "z") (by decide) (by decide)).1,
    (h.2.2.2.1 (localTrack "z") (by decide) (by decide)).2.1⟩


/-! ## C25 -/

/-- C25 (the code at the failing input): `onPlayerReady` writes the floor of the
duration to the current track and then passes the duration itself, not its floor,
to `updateTrackDuration`.  With one remote track of duration 0 and
`getDuration()` = 212.4, the stored duration is first 212 and in the end 212.4,
which is no whole number.  And `updateTrackDuration` writes whatever differs: a
stored duration of 300 is replaced by 200. -/
theorem onPlayerReady_stores_fractional_duration :
    (unknownDurationLibrary.setDuration 0 ⌊(1062 / 5 : Rat)⌋).objects.map
      (fun o => o.duration) = [212] ∧
    (onPlayerReadyDuration unknownDurationLibrary (1062 / 5)).objects.map
      (fun o => o.duration) = [1062 / 5] ∧
    (∀ n : Nat, (n : Rat) ≠ 1062 / 5) ∧
    (updateTrackDuration knownDurationLibrary "x" 200).objects.map
      (fun o => o.duration) = [200] := by
  have hfloor : ⌊(1062 / 5 : Rat)⌋ = 212 := by
    rw [Int.floor_eq_iff]
    constructor <;> norm_num
  refine ⟨?_, ?_, ?_, ?_⟩
  · rw [hfloor]
    simp [unknownDurationLibrary, Library.setDuration]
  · simp [onPlayerReadyDuration, unknownDurationLibrary, hfloor, updateTrackDuration,
      updateTrackDurationIn, Library.setDuration]
    norm_num
  · intro n h
    have h5 : ((5 * n : Nat) : Rat) = ((1062 : Nat) : Rat) := by
      push_cast
      rw [h]
      norm_num
    have h6 : 5 * n = 1062 := by exact_mod_cast h5
    omega
  · simp [updateTrackDuration, updateTrackDurationIn, knownDurationLibrary,
      Library.setDuration]


/-! ## C29 -/

theorem stripLit_some (cs : List Char) :
    ∀ s r : List Char, stripLit cs s = some r → s = cs ++ r := by
  induction cs with
  | nil => intro s r h; simp [stripLit] at h; simp [h]
  | cons c rest ih =>
    intro s r h
    cases s with
    | nil => simp [stripLit] at h
    | cons x xs =>
      simp only [stripLit] at h
      split at h
      · rename_i hx
        rw [hx, ih xs r h]
        rfl
      · cases h

theorem stripLit_append (cs r : List Char) : stripLit cs (cs ++ r) = some r := by
  induction cs with
  | nil => rfl
  | cons c rest ih => simp [stripLit, ih]

theorem captureId_some (s id : List Char) (h : captureId s = some id) :
    id.length = 11 ∧ ∀ c ∈ id, idClass c = true := by
  unfold captureId at h
  split at h
  · rename_i hs
    cases h
    refine ⟨by rw [List.length_take]; omega, ?_⟩
    intro c hc
    exact List.all_eq_true.mp hs.2 c hc
  · cases h

theorem captureId_id (id : List Char) (hlen : id.length = 11)
    (hall : ∀ c ∈ id, idClass c = true) (rest : List Char) :
    captureId (id ++ rest) = some id := by
  have htake : (id ++ rest).take 11 = id := by
    rw [← hlen, List.take_left]
  unfold captureId
  rw [htake, if_pos]
  refine ⟨by rw [List.length_append]; omega, ?_⟩
  exact List.all_eq_true.mpr hall

theorem regexMatch_some (url id : List Char) (h : regexMatch url = some id) :
    ∃ before s, url = before ++ s ∧ matchAt s = some id := by
  induction url with
  | nil => exact ⟨[], [], rfl, h⟩
  | cons c cs ih =>
    simp only [regexMatch] at h
    cases hm : matchAt (c :: cs) with
    | some x =>
      rw [hm] at h
      simp at h
      exact ⟨[], c :: cs, rfl, by rw [hm, h]⟩
    | none =>
      rw [hm] at h
      simp at h
      obtain ⟨before, s, hs, hmatch⟩ := ih h
      exact ⟨c :: before, s, by rw [hs]; rfl, hmatch⟩

theorem matchAt_some (s id : List Char) (h : matchAt s = some id) :
    (∃ r, captureId r = some id) ∧
    ((∃ r, s = "youtube.com/".toList ++ r) ∨ (∃ r, s = "youtu.be/".toList ++ r)) := by
  unfold matchAt at h
  obtain ⟨r, hr, hcap⟩ := List.exists_of_findSome?_eq_some h
  refine ⟨⟨r, hcap⟩, ?_⟩
  simp only [videoIdLead, Regex.run, List.mem_append, List.mem_flatMap] at hr
  rcases hr with ⟨a, ha, _⟩ | hr
  · left
    cases hs : stripLit "youtube.com/".toList s with
    | none => rw [hs] at ha; simp at ha
    | some rest => exact ⟨rest, stripLit_some _ _ _ hs⟩
  · right
    cases hs : stripLit "youtu.be/".toList s with
    | none => rw [hs] at hr; simp at hr
    | some rest => exact ⟨rest, stripLit_some _ _ _ hs⟩

theorem idClass_excludes (c : Char) (h : idClass c = true) :
    c ≠ Char.ofNat 34 ∧ c ≠ '&' ∧ c ≠ '?' ∧ c ≠ '/' ∧ c ∉ whitespace := by
  simp [idClass] at h
  exact ⟨h.1.1.1.1, h.1.1.1.2, h.1.1.2, h.1.2, h.2⟩


theorem matchAt_skip (c : Char) (cs : List Char) (h : c ≠ 'y') : matchAt (c :: cs) = none := by
  have h1 : stripLit "youtube.com/".toList (c :: cs) = none := by
    show (if c = 'y' then _ else none) = none
    rw [if_neg h]
  have h2 : stripLit "youtu.be/".toList (c :: cs) = none := by
    show (if c = 'y' then _ else none) = none
    rw [if_neg h]
  have hrun : videoIdLead.run (c :: cs) = [] := by
    simp only [videoIdLead, Regex.run, h1, h2, List.flatMap_nil, List.append_nil]
  unfold matchAt
  rw [hrun]
  rfl

theorem regexMatch_skip (before : List Char) (h : ∀ c ∈ before, c ≠ 'y') (s : List Char) :
    regexMatch (before ++ s) = regexMatch s := by
  induction before with
  | nil => rfl
  | cons c rest ih =>
    have hc : c ≠ 'y' := h c (List.mem_cons_self _ _)
    have hrest : ∀ x ∈ rest, x ≠ 'y' := fun x hx => h x (List.mem_cons_of_mem _ hx)
    simp [regexMatch, matchAt_skip c _ hc, ih hrest]

theorem regexMatch_of_matchAt (s id : List Char) (h : matchAt s = some id) :
    regexMatch s = some id := by
  cases s with
  | nil => exact h
  | cons c cs => simp [regexMatch, h]

theorem isIdChar_classes (c : Char) (h : isIdChar c = true) :
    idClass c = true ∧ notSlash c = true ∧ dotClass c = true ∧ queryClass c = false := by
  have hw : ∀ x ∈ whitespace, isIdChar x = false := by decide
  have hne : ∀ k : Char, isIdChar k = false → c ≠ k := by
    intro k hk hck
    rw [hck, hk] at h
    cases h
  have hnw : c ∉ whitespace := by
    intro hc
    rw [hw c hc] at h
    cases h
  have h34 := hne (Char.ofNat 34) (by decide)
  have hamp := hne '&' (by decide)
  have hq := hne '?' (by decide)
  have hs := hne '/' (by decide)
  have h10 := hne (Char.ofNat 10) (by decide)
  have h13 := hne (Char.ofNat 13) (by decide)
  have h2028 := hne (Char.ofNat 0x2028) (by decide)
  have h2029 := hne (Char.ofNat 0x2029) (by decide)
  simp [idClass, notSlash, dotClass, queryClass, h34, hamp, hq, hs, hnw, h10, h13, h2028,
    h2029]


theorem runClass_suffix (p : Char → Bool) :
    ∀ s r : List Char, r ∈ runClass p s → ∃ before, s = before ++ r := by
  intro s
  induction s with
  | nil =>
    intro r hr
    simp [runClass] at hr
    exact ⟨[], by simp [hr]⟩
  | cons c cs ih =>
    intro r hr
    simp only [runClass, List.mem_append, List.mem_singleton] at hr
    rcases hr with hr | hr
    · split at hr
      · obtain ⟨before, hb⟩ := ih r hr
        exact ⟨c :: before, by rw [hb]; rfl⟩
      · cases hr
    · exact ⟨[], by rw [hr]; rfl⟩

theorem plus_suffix (p : Char → Bool) (s r : List Char) (hr : r ∈ (Regex.plus p).run s) :
    ∃ before, s = before ++ r := by
  cases s with
  | nil => simp [Regex.run] at hr
  | cons c cs =>
    simp only [Regex.run] at hr
    split at hr
    · obtain ⟨before, hb⟩ := runClass_suffix p cs r hr
      exact ⟨c :: before, by rw [hb]; rfl⟩
    · cases hr

theorem slash_run_nil (r : List Char) (h : ∀ c ∈ r, c ≠ '/') :
    (Regex.lit "/".toList).run r = [] := by
  cases r with
  | nil => rfl
  | cons c cs =>
    have hc : c ≠ '/' := h c (List.mem_cons_self _ _)
    have hs : stripLit "/".toList (c :: cs) = none := by
      show (if c = '/' then _ else none) = none
      rw [if_neg hc]
    simp only [Regex.run, hs]

theorem plus_then_slash_nil (p : Char → Bool) (b : Regex) (s : List Char)
    (h : ∀ c ∈ s, c ≠ '/') :
    ((Regex.plus p).run s).flatMap (Regex.seq (Regex.lit "/".toList) b).run = [] := by
  rw [List.flatMap_eq_nil_iff]
  intro r hr
  obtain ⟨before, hb⟩ := plus_suffix p s r hr
  have hr2 : ∀ c ∈ r, c ≠ '/' := by
    intro c hc
    exact h c (by rw [hb]; exact List.mem_append_right _ hc)
  show ((Regex.lit "/".toList).run r).flatMap b.run = []
  rw [slash_run_nil r hr2]
  rfl

theorem plus_then_slash_end_nil (p : Char → Bool) (s : List Char)
    (h : ∀ c ∈ s, c ≠ '/') :
    ((Regex.plus p).run s).flatMap (Regex.lit "/".toList).run = [] := by
  rw [List.flatMap_eq_nil_iff]
  intro r hr
  obtain ⟨before, hb⟩ := plus_suffix p s r hr
  exact slash_run_nil r (fun c hc => h c (by rw [hb]; exact List.mem_append_right _ hc))

theorem query_skip (b : Regex) (before : List Char)
    (h : ∀ c ∈ before, dotClass c = true ∧ queryClass c = false) (s : List Char) :
    (runClass dotClass (before ++ s)).flatMap (Regex.seq (Regex.cls queryClass) b).run =
      (runClass dotClass s).flatMap (Regex.seq (Regex.cls queryClass) b).run := by
  induction before with
  | nil => rfl
  | cons c rest ih =>
    have hc := h c (List.mem_cons_self _ _)
    have hrest : ∀ x ∈ rest, dotClass x = true ∧ queryClass x = false :=
      fun x hx => h x (List.mem_cons_of_mem _ hx)
    have hhead : (Regex.seq (Regex.cls queryClass) b).run (c :: (rest ++ s)) = [] := by
      simp [Regex.run, hc.2]
    simp only [List.cons_append, runClass, hc.1, if_true, List.flatMap_append, List.append_eq]
    rw [ih hrest]
    simp only [List.flatMap_cons, List.flatMap_nil, hhead, List.append_nil]

theorem query_none (b : Regex) (s : List Char)
    (h : ∀ c ∈ s, dotClass c = true ∧ queryClass c = false) :
    (runClass dotClass s).flatMap (Regex.seq (Regex.cls queryClass) b).run = [] := by
  have h1 := query_skip b s h []
  rw [List.append_nil] at h1
  rw [h1]
  simp [runClass, Regex.run]


theorem lead_youtube (r : List Char) :
    videoIdLead.run ("youtube.com/".toList ++ r) =
      userPath.run r ++ (embedPath.run r ++ queryPath.run r) := by
  have h1 : (Regex.lit "youtube.com/".toList).run ("youtube.com/".toList ++ r) = [r] := by
    simp only [Regex.run, stripLit_append]
  have h2 : (Regex.lit "youtu.be/".toList).run ("youtube.com/".toList ++ r) = [] := by
    have hs : stripLit "youtu.be/".toList ("youtube.com/".toList ++ r) = none := rfl
    simp only [Regex.run, hs]
  show ((Regex.lit "youtube.com/".toList).run ("youtube.com/".toList ++ r)).flatMap
      (Regex.alt userPath (Regex.alt embedPath queryPath)).run ++
      (Regex.lit "youtu.be/".toList).run ("youtube.com/".toList ++ r) = _
  rw [h1, h2]
  simp only [List.flatMap_cons, List.flatMap_nil, List.append_nil, Regex.run]

theorem lead_short (r : List Char) : videoIdLead.run ("youtu.be/".toList ++ r) = [r] := by
  have h1 : (Regex.lit "youtube.com/".toList).run ("youtu.be/".toList ++ r) = [] := by
    have hs : stripLit "youtube.com/".toList ("youtu.be/".toList ++ r) = none := rfl
    simp only [Regex.run, hs]
  have h2 : (Regex.lit "youtu.be/".toList).run ("youtu.be/".toList ++ r) = [r] := by
    simp only [Regex.run, stripLit_append]
  show ((Regex.lit "youtube.com/".toList).run ("youtu.be/".toList ++ r)).flatMap
      (Regex.alt userPath (Regex.alt embedPath queryPath)).run ++
      (Regex.lit "youtu.be/".toList).run ("youtu.be/".toList ++ r) = _
  rw [h1, h2]
  rfl

theorem userPath_nil (s : List Char) (h : ∀ c ∈ s, c ≠ '/') : userPath.run s = [] :=
  plus_then_slash_nil notSlash _ s h

theorem isIdChar_not_slash (id : List Char) (hall : ∀ c ∈ id, isIdChar c = true) :
    ∀ c ∈ id, c ≠ '/' :=
  fun c hc => (idClass_excludes c (isIdChar_classes c (hall c hc)).1).2.2.2.1

theorem matchAt_short (id : List Char) (hlen : id.length = 11)
    (hall : ∀ c ∈ id, isIdChar c = true) :
    matchAt ("youtu.be/".toList ++ id) = some id := by
  have hcap := captureId_id id hlen (fun c hc => (isIdChar_classes c (hall c hc)).1) []
  rw [List.append_nil] at hcap
  unfold matchAt
  rw [lead_short]
  simp only [List.findSome?, hcap]

theorem matchAt_watch (id : List Char) (hlen : id.length = 11)
    (hall : ∀ c ∈ id, isIdChar c = true) :
    matchAt ("youtube.com/".toList ++ ("watch".toList ++ ('?' :: "v=".toList ++ id))) =
      some id := by
  have hcap := captureId_id id hlen (fun c hc => (isIdChar_classes c (hall c hc)).1) []
  rw [List.append_nil] at hcap
  have hslash : ∀ c ∈ "watch".toList ++ ('?' :: "v=".toList ++ id), c ≠ '/' := by
    intro c hc
    rw [List.mem_append] at hc
    rcases hc with hc | hc
    · revert c
      decide
    · rw [List.mem_append] at hc
      rcases hc with hc | hc
      · revert c
        decide
      · exact isIdChar_not_slash id hall c hc
  have huser := userPath_nil _ hslash
  have hembed : embedPath.run ("watch".toList ++ ('?' :: "v=".toList ++ id)) = [] := by
    have hv : stripLit "v".toList ("watch".toList ++ ('?' :: "v=".toList ++ id)) = none := rfl
    have he : stripLit "e".toList ("watch".toList ++ ('?' :: "v=".toList ++ id)) = none := rfl
    simp only [embedPath, Regex.run, hv, he, List.flatMap_nil, List.append_nil]
  have hquery : queryPath.run ("watch".toList ++ ('?' :: "v=".toList ++ id)) = [id] := by
    have hw : ∀ c ∈ "watch".toList, dotClass c = true ∧ queryClass c = false := by decide
    have hv : ∀ c ∈ "v=".toList ++ id, dotClass c = true ∧ queryClass c = false := by
      intro c hc
      rw [List.mem_append] at hc
      rcases hc with hc | hc
      · revert c
        decide
      · exact ⟨(isIdChar_classes c (hall c hc)).2.2.1, (isIdChar_classes c (hall c hc)).2.2.2⟩
    have hdot : dotClass '?' = true := by decide
    have hq : queryClass '?' = true := by decide
    have hstrip : stripLit "v=".toList ("v=".toList ++ id) = some id := stripLit_append _ _
    show (runClass dotClass ("watch".toList ++ ('?' :: "v=".toList ++ id))).flatMap
      (Regex.seq (Regex.cls queryClass) (Regex.lit "v=".toList)).run = [id]
    rw [query_skip _ _ hw]
    show ((if dotClass '?' = true then runClass dotClass ("v=".toList ++ id) else []) ++
      ['?' :: "v=".toList ++ id]).flatMap
      (Regex.seq (Regex.cls queryClass) (Regex.lit "v=".toList)).run = [id]
    rw [if_pos hdot, List.flatMap_append, query_none _ _ hv]
    simp only [List.flatMap_cons, List.flatMap_nil, List.append_nil, List.nil_append,
      Regex.run, hq, if_true, List.append_eq, hstrip]
  unfold matchAt
  rw [lead_youtube, huser, hembed, hquery]
  simp only [List.nil_append, List.findSome?, hcap]

theorem matchAt_embed (id : List Char) (hlen : id.length = 11)
    (hall : ∀ c ∈ id, isIdChar c = true) :
    matchAt ("youtube.com/".toList ++ ("embed/".toList ++ id)) = some id := by
  have hcap := captureId_id id hlen (fun c hc => (isIdChar_classes c (hall c hc)).1) []
  rw [List.append_nil] at hcap
  have hid := isIdChar_not_slash id hall
  have huser : userPath.run ("embed/".toList ++ id) = [] := by
    have hn : ∀ c ∈ "embed".toList, notSlash c = true := by decide
    have hrun : (Regex.plus notSlash).run ("embed/".toList ++ id) =
        ['/' :: id, 'd' :: '/' :: id, 'e' :: 'd' :: '/' :: id, 'b' :: 'e' :: 'd' :: '/' :: id,
          'm' :: 'b' :: 'e' :: 'd' :: '/' :: id] := by
      have h1 : notSlash 'e' = true := by decide
      have h2 : notSlash 'm' = true := by decide
      have h3 : notSlash 'b' = true := by decide
      have h4 : notSlash 'd' = true := by decide
      have h5 : notSlash '/' = false := by decide
      show (if notSlash 'e' = true then runClass notSlash ('m' :: 'b' :: 'e' :: 'd' :: '/' :: id)
        else []) = _
      simp [runClass, h1, h2, h3, h4, h5]
    have hrest : ((Regex.plus dotClass).run id).flatMap (Regex.lit "/".toList).run = [] :=
      plus_then_slash_end_nil dotClass id hid
    have hs0 : stripLit "/".toList ('/' :: id) = some id := rfl
    have hs1 : stripLit "/".toList ('d' :: '/' :: id) = none := rfl
    have hs2 : stripLit "/".toList ('e' :: 'd' :: '/' :: id) = none := rfl
    have hs3 : stripLit "/".toList ('b' :: 'e' :: 'd' :: '/' :: id) = none := rfl
    have hs4 : stripLit "/".toList ('m' :: 'b' :: 'e' :: 'd' :: '/' :: id) = none := rfl
    show ((Regex.plus notSlash).run ("embed/".toList ++ id)).flatMap
      (Regex.seq (Regex.lit "/".toList)
        (Regex.seq (Regex.plus dotClass) (Regex.lit "/".toList))).run = []
    rw [hrun]
    have hseq : ∀ r, (Regex.seq (Regex.lit "/".toList)
        (Regex.seq (Regex.plus dotClass) (Regex.lit "/".toList))).run r =
        ((Regex.lit "/".toList).run r).flatMap
          (fun x => ((Regex.plus dotClass).run x).flatMap (Regex.lit "/".toList).run) := by
      intro r
      rfl
    have hlit : ∀ r, (Regex.lit "/".toList).run r =
        match stripLit "/".toList r with
        | some rest => [rest]
        | none => [] := by
      intro r
      rfl
    simp only [List.flatMap_cons, List.flatMap_nil, hseq, hlit, hs0, hs1, hs2, hs3, hs4,
      hrest, List.append_nil]
  have hembed : embedPath.run ("embed/".toList ++ id) = [id] := by
    have hv : stripLit "v".toList ("embed/".toList ++ id) = none := rfl
    have he : stripLit "e".toList ("embed/".toList ++ id) = some ("mbed/".toList ++ id) := rfl
    have hm : stripLit "mbed".toList ("mbed/".toList ++ id) = some ('/' :: id) := rfl
    have hs0 : stripLit "/".toList ('/' :: id) = some id := rfl
    have hs1 : stripLit "/".toList ("mbed/".toList ++ id) = none := rfl
    simp only [embedPath, Regex.run, hv, he, hm, hs0, hs1, List.flatMap_cons, List.flatMap_nil,
      List.append_nil, List.nil_append, List.cons_append, List.singleton_append]
  unfold matchAt
  rw [lead_youtube, huser, hembed]
  simp only [List.nil_append, List.cons_append, List.findSome?, hcap]


/-- C29: `extractVideoId` returns `null` or 11 characters none of which is a
double quote, `&`, `?`, `/` or whitespace; for an id of 11 letters, digits, `-`
and `_` it returns the id for the watch, short and embed forms of the URL; and it
returns `null` for a text in which neither `youtube.com/` nor `youtu.be/` occurs. -/
theorem extractVideoId_result :
    (∀ url id : List Char, extractVideoId url = some id →
      id.length = 11 ∧
      ∀ c ∈ id, c ≠ Char.ofNat 34 ∧ c ≠ '&' ∧ c ≠ '?' ∧ c ≠ '/' ∧ c ∉ whitespace) ∧
    (∀ id : List Char, id.length = 11 → (∀ c ∈ id, isIdChar c = true) →
      extractVideoId ("https://www.youtube.com/watch?v=".toList ++ id) = some id ∧
      extractVideoId ("https://youtu.be/".toList ++ id) = some id ∧
      extractVideoId ("https://www.youtube.com/embed/".toList ++ id) = some id) ∧
    (∀ url : List Char, ¬ Occurs "youtube.com/".toList url →
      ¬ Occurs "youtu.be/".toList url → extractVideoId url = none) := by
  refine ⟨?_, ?_, ?_⟩
  · intro url id h
    obtain ⟨before, s, _, hs⟩ := regexMatch_some url id h
    obtain ⟨⟨r, hr⟩, _⟩ := matchAt_some s id hs
    have hcap := captureId_some r id hr
    exact ⟨hcap.1, fun c hc => idClass_excludes c (hcap.2 c hc)⟩
  · intro id hlen hall
    have hskip1 : ∀ c ∈ "https://www.".toList, c ≠ 'y' := by decide
    have hskip2 : ∀ c ∈ "https://".toList, c ≠ 'y' := by decide
    refine ⟨?_, ?_, ?_⟩
    · show regexMatch ("https://www.".toList ++
        ("youtube.com/".toList ++ ("watch".toList ++ ('?' :: "v=".toList ++ id)))) = some id
      rw [regexMatch_skip _ hskip1]
      exact regexMatch_of_matchAt _ _ (matchAt_watch id hlen hall)
    · show regexMatch ("https://".toList ++ ("youtu.be/".toList ++ id)) = some id
      rw [regexMatch_skip _ hskip2]
      exact regexMatch_of_matchAt _ _ (matchAt_short id hlen hall)
    · show regexMatch ("https://www.".toList ++
        ("youtube.com/".toList ++ ("embed/".toList ++ id))) = some id
      rw [regexMatch_skip _ hskip1]
      exact regexMatch_of_matchAt _ _ (matchAt_embed id hlen hall)
  · intro url hlong hshort
    cases h : extractVideoId url with
    | none => rfl
    | some id =>
      exfalso
      obtain ⟨before, s, hurl, hs⟩ := regexMatch_some url id h
      rcases (matchAt_some s id hs).2 with ⟨r, hr⟩ | ⟨r, hr⟩
      · exact hlong ⟨before, r, by rw [hurl, hr, List.append_assoc]⟩
      · exact hshort ⟨before, r, by rw [hurl, hr, List.append_assoc]⟩

/-- The three URL forms of the id `dQw4w9WgXcQ` give the id back, the result has
11 characters, and a text without `/` gives `null`. -/
theorem extractVideoId_result_witness :
    extractVideoId "https://www.youtube.com/watch?v=dQw4w9WgXcQ".toList =
        some "dQw4w9WgXcQ".toList ∧
      extractVideoId "https://youtu.be/dQw4w9WgXcQ".toList = some "dQw4w9WgXcQ".toList ∧
      extractVideoId "https://www.youtube.com/embed/dQw4w9WgXcQ".toList =
        some "dQw4w9WgXcQ".toList ∧
      "dQw4w9WgXcQ".toList.length = 11 ∧
      extractVideoId "example.com".toList = none :=
  have hforms := extractVideoId_result.2.1 "dQw4w9WgXcQ".toList (by decide) (by decide)
  have hshape := extractVideoId_result.1 _ _ hforms.1
  have hlong : ¬ Occurs "youtube.com/".toList "example.com".toList := by
    rintro ⟨before, after, h⟩
    have hmem : '/' ∈ "example.com".toList := by
      rw [h]
      simp
    exact absurd hmem (by decide)
  have hshort : ¬ Occurs "youtu.be/".toList "example.com".toList := by
    rintro ⟨before, after, h⟩
    have hmem : '/' ∈ "example.com".toList := by
      rw [h]
      simp
    exact absurd hmem (by decide)
  ⟨hforms.1, hforms.2.1, hforms.2.2, hshape.1,
    extractVideoId_result.2.2 "example.com".toList hlong hshort⟩

/-! ## C30 -/

theorem digitValue_digitChar (d : Nat) (h : d < 10) : digitValue (digitChar d) = d := by
  interval_cases d <;> rfl

theorem digitChar_ne_colon (d : Nat) (h : d < 10) : (digitChar d != ':') = true := by
  interval_cases d <;> rfl

theorem parseDecimal_append (a : List Char) (c : Char) :
    parseDecimal (a ++ [c]) = 10 * parseDecimal a + digitValue c := by
  simp [parseDecimal, List.foldl_append]

theorem parseDecimal_digits (digits : List Nat) (h : ∀ d ∈ digits, d < 10) :
    parseDecimal (digits.reverse.map digitChar) = Nat.ofDigits 10 digits := by
  induction digits with
  | nil => rfl
  | cons d rest ih =>
    have hd : d < 10 := h d (List.mem_cons_self _ _)
    have hrest : ∀ x ∈ rest, x < 10 := fun x hx => h x (List.mem_cons_of_mem _ hx)
    rw [List.reverse_cons, List.map_append, List.map_singleton, parseDecimal_append, ih hrest,
      digitValue_digitChar d hd, Nat.ofDigits_cons]
    exact Nat.add_comm _ _

theorem parseDecimal_toDecimal (n : Nat) : parseDecimal (toDecimal n) = n := by
  unfold toDecimal
  split
  · rename_i h
    rw [h]
    rfl
  · rw [parseDecimal_digits _ (fun d hd => Nat.digits_lt_base (by norm_num) hd)]
    exact Nat.ofDigits_digits 10 n

theorem toDecimal_no_colon (n : Nat) : ∀ c ∈ toDecimal n, (c != ':') = true := by
  intro c hc
  unfold toDecimal at hc
  split at hc
  · rw [List.mem_singleton] at hc
    rw [hc]
    rfl
  · rw [List.mem_map] at hc
    obtain ⟨d, hd, hdc⟩ := hc
    rw [← hdc]
    exact digitChar_ne_colon d (Nat.digits_lt_base (by norm_num) (List.mem_reverse.mp hd))

theorem takeWhile_until (p : Char → Bool) (a : List Char) (x : Char) (b : List Char)
    (ha : ∀ c ∈ a, p c = true) (hx : p x = false) :
    (a ++ x :: b).takeWhile p = a ∧ (a ++ x :: b).dropWhile p = x :: b := by
  induction a with
  | nil => simp [List.takeWhile, List.dropWhile, hx]
  | cons c rest ih =>
    have hc : p c = true := ha c (List.mem_cons_self _ _)
    have hrest := ih (fun y hy => ha y (List.mem_cons_of_mem _ hy))
    simp [List.takeWhile, List.dropWhile, hc, hrest.1, hrest.2]

theorem padStart_two (r : Nat) (h : r < 100) :
    padStart 2 '0' (toDecimal r) = [digitChar (r / 10), digitChar (r % 10)] := by
  interval_cases r <;> simp [padStart, toDecimal] <;> rfl

theorem numberToString_natCast (n : Nat) : numberToString (n : Int) = toDecimal n := by
  unfold numberToString
  rw [if_neg (by omega), Int.toNat_natCast]

theorem floor_minutes (s : Nat) : ⌊(s : Rat) / 60⌋ = ((s / 60 : Nat) : Int) := by
  have h := Rat.floor_natCast_div_natCast s 60
  rw [Nat.cast_ofNat] at h
  rw [h]
  norm_cast

theorem jsRem_natCast (s : Nat) : jsRem (s : Rat) 60 = ((s % 60 : Nat) : Rat) := by
  have hpos : (0 : Rat) ≤ (s : Rat) / 60 := by positivity
  have hs : (s : Rat) = 60 * ((s / 60 : Nat) : Rat) + ((s % 60 : Nat) : Rat) := by
    exact_mod_cast (Nat.div_add_mod s 60).symm
  unfold jsRem truncate
  rw [if_pos hpos, floor_minutes, Int.cast_natCast]
  linarith

theorem formatTime_natCast (s : Nat) : formatTime (s : Rat) = formatDuration s := by
  unfold formatTime formatDuration
  by_cases h : s = 0
  · rw [if_pos h, if_pos (by rw [h]; rfl)]
  · have hq : ¬ (s : Rat) = 0 := by exact_mod_cast h
    rw [if_neg h, if_neg hq]
    simp only [floor_minutes, jsRem_natCast, Int.floor_natCast, numberToString_natCast]

theorem formatDuration_eq (s : Nat) :
    formatDuration s =
      toDecimal (s / 60) ++ [':', digitChar (s % 60 / 10), digitChar (s % 60 % 10)] := by
  have hpad := padStart_two (s % 60) (by omega)
  unfold formatDuration
  split
  · rename_i h
    rw [h]
    rfl
  · simp only [hpad]

theorem parseDuration_formatDuration (s : Nat) : parseDuration (formatDuration s) = s := by
  have hcolon : ((':' : Char) != ':') = false := by decide
  have hsplit := takeWhile_until (fun c => c != ':') (toDecimal (s / 60)) ':'
    [digitChar (s % 60 / 10), digitChar (s % 60 % 10)] (toDecimal_no_colon _) hcolon
  have hsec : parseDecimal [digitChar (s % 60 / 10), digitChar (s % 60 % 10)] = s % 60 := by
    have ha : s % 60 / 10 < 10 := by omega
    have hb : s % 60 % 10 < 10 := by omega
    show 10 * (10 * 0 + digitValue (digitChar (s % 60 / 10))) +
      digitValue (digitChar (s % 60 % 10)) = s % 60
    rw [digitValue_digitChar _ ha, digitValue_digitChar _ hb]
    omega
  rw [formatDuration_eq]
  unfold parseDuration
  show parseDecimal ((toDecimal (s / 60) ++
      ':' :: [digitChar (s % 60 / 10), digitChar (s % 60 % 10)]).takeWhile (fun c => c != ':')) * 60 +
    parseDecimal (((toDecimal (s / 60) ++
      ':' :: [digitChar (s % 60 / 10), digitChar (s % 60 % 10)]).dropWhile
        (fun c => c != ':')).drop 1) = s
  rw [hsplit.1, hsplit.2, parseDecimal_toDecimal]
  show s / 60 * 60 + parseDecimal [digitChar (s % 60 / 10), digitChar (s % 60 % 10)] = s
  rw [hsec]
  omega

theorem formatDuration_example : formatDuration 125 = "2:05".toList := by
  rw [formatDuration_eq]
  simp [toDecimal, digitChar]

/-- C30: for every non-negative integer `s`, `formatDuration s` is the decimal of
`s / 60`, a colon and the two decimal digits of `s % 60` (`0:00` at zero); reading
it as `m * 60 + ss` gives `s` back, so no other argument has the same text; and
`formatTime` returns the same text at `s`. -/
theorem formatDuration_reads_back (s : Nat) :
    formatDuration s =
        toDecimal (s / 60) ++ [':', digitChar (s % 60 / 10), digitChar (s % 60 % 10)] ∧
      s % 60 / 10 < 10 ∧ s % 60 % 10 < 10 ∧ 10 * (s % 60 / 10) + s % 60 % 10 = s % 60 ∧
      formatDuration 0 = "0:00".toList ∧
      parseDuration (formatDuration s) = s ∧
      (∀ t : Nat, formatDuration t = formatDuration s → t = s) ∧
      formatTime (s : Rat) = formatDuration s := by
  refine ⟨formatDuration_eq s, by omega, by omega, by omega, rfl,
    parseDuration_formatDuration s, ?_, formatTime_natCast s⟩
  intro t ht
  rw [← parseDuration_formatDuration t, ht, parseDuration_formatDuration s]

/-- At 125 seconds the text is `2:05`, it reads back as 125, `formatTime` agrees,
and 125 is the only argument with this text. -/
theorem formatDuration_reads_back_witness :
    formatDuration 125 = "2:05".toList ∧
      parseDuration (formatDuration 125) = 125 ∧
      formatTime ((125 : Nat) : Rat) = formatDuration 125 ∧
      ∀ t : Nat, formatDuration t = "2:05".toList → t = 125 :=
  have h := formatDuration_reads_back 125
  ⟨formatDuration_example, h.2.2.2.2.2.1, h.2.2.2.2.2.2.2,
    fun t ht => h.2.2.2.2.2.2.1 t (ht.trans formatDuration_example.symm)⟩

end PlaylistManager
